import Mathlib

/-! # EmergencyStopper: the per-tick stop / retrieve / release engine

A shallow embedding of `rtc/EmergencyStopper/EmergencyStopper.cpp`.

* `double` values are rationals (exact arithmetic); `int` values are integers.
* The component's members form the record `State`.  An input port is the list
  of samples waiting in its buffer: `isNew()` is "the list is not empty" and
  `read()` moves the oldest sample into the port's data member.  `arrive`
  is the environment writing samples to the ports between two ticks.
* The interpolator class and the constants of `math.h` and of the
  RobotHardwareService interface are not part of this file's source, they are
  parameters (`Interpolator`, `Consts`).
* Logging, time stamps and `OutPort::write()` (which publishes the data member
  as it is at that moment) leave no trace in the state and are left out.
* A read outside an array or of the front of an empty queue is undefined in
  the source.  The embedding returns `0` there; every theorem that depends on
  such a read carries the hypotheses under which the read is inside.
* The conversion of a `double` to an `int` is undefined in the source for a
  value outside the range of `int`.  The embedding truncates to an unbounded
  integer; every theorem that depends on the value of a timer set from a
  configured duration carries the hypotheses under which it fits an `int`.
-/

namespace EmergencyStopper

/-- Conversion of a `double` to an `int`: truncation toward zero.  The source defines it
only for a value whose truncation fits an `int` (see `intMax`); the quotients converted
are exact here, where the source divides doubles. -/
def toInt (q : ℚ) : Int := Int.tdiv q.num q.den

/-- The largest value of the 32-bit `int` of the source. -/
def intMax : Int := 2147483647

/-- The counted loop `for (i = 0; i < n; i++) body(i)`. -/
def forLoop {σ : Type} (n : Nat) (body : Nat → σ → σ) (s : σ) : σ :=
  (List.range n).foldl (fun acc i => body i acc) s

/-- The loop `while ((int)queue.size() > n) queue.pop();` on a queue whose front is
the head of the list.  (`pop` on an empty queue is undefined; the loop stops there.) -/
def trimQueue {α : Type} (n : Int) : List α → List α
  | [] => []
  | x :: xs => if ((x :: xs).length : Int) > n then trimQueue n xs else x :: xs

/-- The interpolator object as the component uses it: the constructor
`interpolator(dim, dt)`, `set(x)` (set the current state), `setGoal(g, time)` (goal
with time-to-target) and `get(x)` (advance and hand out the next sample; the sample
is what the call writes to the caller's buffer, which has the interpolator's
dimension). -/
structure Interpolator (I : Type) where
  create : Nat → ℚ → I
  set : I → List ℚ → I
  setGoal : I → List ℚ → ℚ → I
  get : I → I × List ℚ

/-- Constants used by the component and declared outside its source file: `M_PI` of
`math.h` and the servo status layout of the RobotHardwareService interface. -/
structure Consts where
  M_PI : ℚ
  CALIB_STATE_SHIFT : Nat
  POWER_STATE_SHIFT : Nat
  SERVO_STATE_SHIFT : Nat
  SERVO_ALARM_SHIFT : Nat
  DRIVER_TEMP_SHIFT : Nat
  SERVO_STATE_MASK : Int

/-- The last call made on the beep client `bc`. -/
inductive BeepCall where
  | none
  | startBeep (freq : Int) (length : ℚ)
  | stopBeep
  deriving DecidableEq, Repr

/-- The members of the component. -/
structure State (I : Type) where
  numJoints : Nat
  m_dt : ℚ
  m_qRefIn : List (List ℚ)
  m_qEmergencyIn : List (List ℚ)
  m_emergencySignalIn : List Int
  m_emergencyFallMotionIn : List Bool
  m_servoStateIn : List (List (List Int))
  m_wrenchesIn : List (List (List ℚ))
  m_qRef : List ℚ
  m_qEmergency : List ℚ
  m_emergencySignal : Int
  m_emergencyFallMotion : Bool
  m_servoState : List (List Int)
  m_wrenchesRef : List (List ℚ)
  m_q : List ℚ
  m_qTouchWall : List ℚ
  m_wrenches : List (List ℚ)
  m_emergencyMode : Int
  m_touchWallMotionSolved : Bool
  loop : Int
  emergency_stopper_beep_count : Int
  emergency_stopper_beep_freq : Int
  bc : BeepCall
  is_stop_mode : Bool
  prev_is_stop_mode : Bool
  is_emergency_fall_motion : Bool
  is_initialized : Bool
  solved : Bool
  emergency_mode : Int
  recover_time : Int
  retrieve_time : Int
  recover_time_dt : ℚ
  default_recover_time : Int
  default_retrieve_time : Int
  default_retrieve_duration : Int
  m_stop_posture : List ℚ
  m_motion_posture : List ℚ
  m_stop_wrenches : List ℚ
  m_tmp_wrenches : List ℚ
  m_interpolator : I
  m_wrenches_interpolator : I
  m_input_posture_queue : List (List ℚ)
  m_input_wrenches_queue : List (List ℚ)

/-- Samples written to the input ports by the other components between two ticks. -/
structure Arrival where
  qRef : List (List ℚ)
  qEmergency : List (List ℚ)
  emergencySignal : List Int
  emergencyFallMotion : List Bool
  servoState : List (List (List Int))
  wrenches : List (List (List ℚ))

/-- No sample on any port. -/
def Arrival.nothing : Arrival :=
  { qRef := [], qEmergency := [], emergencySignal := [], emergencyFallMotion := [],
    servoState := [], wrenches := [] }

variable {I : Type}

/-- The environment appends the arriving samples to the port buffers; `wrenches` holds
the samples of sensor `i` at position `i`. -/
def arrive (a : Arrival) (s : State I) : State I :=
  { s with
    m_qRefIn := s.m_qRefIn ++ a.qRef
    m_qEmergencyIn := s.m_qEmergencyIn ++ a.qEmergency
    m_emergencySignalIn := s.m_emergencySignalIn ++ a.emergencySignal
    m_emergencyFallMotionIn := s.m_emergencyFallMotionIn ++ a.emergencyFallMotion
    m_servoStateIn := s.m_servoStateIn ++ a.servoState
    m_wrenchesIn :=
      forLoop s.m_wrenchesIn.length
        (fun i w => w.set i (w.getD i [] ++ a.wrenches.getD i [])) s.m_wrenchesIn }

/-- The macro `deg2rad(deg)`, that is `(deg * M_PI / 180)`. -/
def deg2rad (C : Consts) (deg : ℚ) : ℚ := deg * C.M_PI / 180

/-- The array `tmpq` of `onExecute` (the JAXON fallback posture). -/
def tmpq : List ℚ :=
  [7.164374e-09, -1.013475e-07, -1.00249, 1.6208, -0.618309, 1.068601e-07,
   -3.914983e-10, 2.927592e-08, -0.82775, 1.6555, -0.827748, -3.091128e-08,
   0.0, 0.0, 0.0, 0.0, 0.0, 0.0, -1.39626, -0.349066, -0.087266, 0.0, 0.0, 0.0,
   -0.349066, 0.0, -1.39626, 0.349066, 0.087266, 0.0, 0.0, 0.0, -0.349066,
   -1.39626, 1.39626, -1.39626, 1.39626]

/-- Modelled from the spec: the helper `get_wrenches_array_from_data` of the header,
which flattens the six components of every sensor into `array[i*6+j]`. -/
def getWrenchesArrayFromData (data : List (List ℚ)) (array : List ℚ) : List ℚ :=
  forLoop data.length
    (fun i a => forLoop 6 (fun j a => a.set (i * 6 + j) ((data.getD i []).getD j 0)) a) array

/-- Modelled from the spec: the helper `set_wrenches_data_from_array` of the header,
which stores `array[i*6+j]` as component `j` of sensor `i`. -/
def setWrenchesDataFromArray (data : List (List ℚ)) (array : List ℚ) : List (List ℚ) :=
  forLoop data.length
    (fun i d => forLoop 6
      (fun j d => d.set i ((d.getD i []).set j (array.getD (i * 6 + j) 0))) d) data

/-! ## onInitialize -/

/-- The left shift `x << n` of C++ on an `int` (without overflow). -/
def shl (x : Int) (n : Nat) : Int := x * 2 ^ n

/-- The servo status word written for every joint by `onInitialize`. -/
def initialStatus (C : Consts) : Int :=
  Int.lor (Int.lor (Int.lor (Int.lor (Int.lor 0 (shl 1 C.CALIB_STATE_SHIFT))
    (shl 1 C.POWER_STATE_SHIFT)) (shl 1 C.SERVO_STATE_SHIFT))
    (shl 0 C.SERVO_ALARM_SHIFT)) (shl 0 C.DRIVER_TEMP_SHIFT)

/-- The state left by `onInitialize` for a robot model with `numJoints` joints,
`nforce` force sensors (real and virtual) and the tick period `m_dt`.  Members that
the source leaves without a value (port data, `m_tmp_wrenches`) are zero or empty. -/
def onInitialize (E : Interpolator I) (C : Consts) (numJoints nforce : Nat) (m_dt : ℚ) :
    State I :=
  { numJoints := numJoints
    m_dt := m_dt
    m_qRefIn := []
    m_qEmergencyIn := []
    m_emergencySignalIn := []
    m_emergencyFallMotionIn := []
    m_servoStateIn := []
    m_wrenchesIn := List.replicate nforce []
    m_qRef := []
    m_qEmergency := []
    m_emergencySignal := 0
    m_emergencyFallMotion := false
    m_servoState := List.replicate numJoints [initialStatus C]
    m_wrenchesRef := List.replicate nforce (List.replicate 6 0)
    m_q := List.replicate numJoints 0
    m_qTouchWall := List.replicate numJoints 0
    m_wrenches := List.replicate nforce (List.replicate 6 0)
    m_emergencyMode := 0
    m_touchWallMotionSolved := false
    loop := 0
    emergency_stopper_beep_count := 0
    emergency_stopper_beep_freq := toInt (1 / (2 * m_dt))
    bc := BeepCall.none
    is_stop_mode := false
    prev_is_stop_mode := false
    is_emergency_fall_motion := false
    is_initialized := false
    solved := false
    emergency_mode := 0
    recover_time := 0
    retrieve_time := 0
    recover_time_dt := 1
    default_recover_time := toInt (2.5 / m_dt)
    default_retrieve_time := 1
    default_retrieve_duration := 1
    m_stop_posture := List.replicate numJoints 0
    m_motion_posture := List.replicate numJoints 0
    m_stop_wrenches := List.replicate (nforce * 6) 0
    m_tmp_wrenches := List.replicate (nforce * 6) 0
    m_interpolator := E.create numJoints 1
    m_wrenches_interpolator := E.create (nforce * 6) 1
    m_input_posture_queue := []
    m_input_wrenches_queue := [] }

/-! ## onExecute, phase by phase -/

/-- Lines 290-293: the tick counter and the servo state port. -/
def preamble (s : State I) : State I :=
  let s1 := { s with loop := s.loop + 1 }
  match s1.m_servoStateIn with
  | [] => s1
  | d :: rest => { s1 with m_servoState := d, m_servoStateIn := rest }

/-- Lines 294-301: until the first reference posture has arrived the tick returns
at once (`none`); the tick that finds it reads it and goes on. -/
def gate (s : State I) : Option (State I) :=
  if s.is_initialized = false then
    match s.m_qRefIn with
    | [] => Option.none
    | q :: rest => some { s with m_qRef := q, m_qRefIn := rest, is_initialized := true }
  else some s

/-- Lines 316-324: the loop that refreshes `m_stop_posture`.  The read of the front of an
empty queue (window 0) and a read outside `m_q` are undefined in the source; they give 0
here. -/
def stopPostureLoop (s : State I) : List ℚ :=
  forLoop s.m_qRef.length
    (fun i sp =>
      if 0 < s.recover_time then sp.set i (s.m_q.getD i 0)
      else sp.set i ((s.m_input_posture_queue.headD []).getD i 0))
    s.m_stop_posture

/-- Lines 332-341: the loop that refreshes `m_motion_posture`.  A read outside `m_q` or
outside `m_qEmergency` (which is empty until line 418 has read a sample) is undefined in
the source; it gives 0 here. -/
def motionPostureLoop (s : State I) : List ℚ :=
  forLoop s.m_qRef.length
    (fun i mp =>
      if 0 < s.recover_time ∧ s.is_stop_mode = false then mp.set i (s.m_q.getD i 0)
      else if s.solved = false then
        if tmpq.length = s.m_qRef.length then mp.set i (tmpq.getD i 0)
        else mp.set i (s.m_q.getD i 0)
      else mp.set i (s.m_qEmergency.getD i 0))
    s.m_motion_posture

/-- Lines 344-348: every wrench port with a new sample is read. -/
def readWrenchPorts (s : State I) : State I :=
  let r := forLoop s.m_wrenchesIn.length
    (fun i (r : List (List ℚ) × List (List (List ℚ))) =>
      match r.2.getD i [] with
      | [] => r
      | w :: rest => (r.1.set i w, r.2.set i rest))
    (s.m_wrenchesRef, s.m_wrenchesIn)
  { s with m_wrenchesRef := r.1, m_wrenchesIn := r.2 }

/-- Lines 349-354: the vector `current_wrench`. -/
def currentWrench (s : State I) : List ℚ :=
  forLoop s.m_wrenchesRef.length
    (fun i cw => forLoop 6 (fun j cw => cw ++ [(s.m_wrenchesRef.getD i []).getD j 0]) cw) []

/-- Lines 359-369: the loop that refreshes `m_stop_wrenches`.  The read of the front of an
empty queue (window 0) is undefined in the source; it gives 0 here. -/
def stopWrenchesLoop (s : State I) : List ℚ :=
  forLoop s.m_wrenchesRef.length
    (fun i sw => forLoop 6
      (fun j sw =>
        if 0 < s.recover_time then sw.set (i * 6 + j) ((s.m_wrenches.getD i []).getD j 0)
        else sw.set (i * 6 + j) ((s.m_input_wrenches_queue.headD []).getD (i * 6 + j) 0))
      sw)
    s.m_stop_wrenches

/-- Lines 304-370: a new reference posture is read, pushed on the history queue and
the baselines are refreshed; the wrenches follow. -/
def readReference (s : State I) : State I :=
  match s.m_qRefIn with
  | [] => s
  | q :: rest =>
    let s1 := { s with m_qRef := q, m_qRefIn := rest }
    let s2 := { s1 with
      m_input_posture_queue :=
        trimQueue s1.default_retrieve_time (s1.m_input_posture_queue ++ [s1.m_qRef]) }
    let s3 := if s2.is_stop_mode = false then
        { s2 with m_stop_posture := stopPostureLoop s2 } else s2
    let s4 := { s3 with m_motion_posture := motionPostureLoop s3 }
    let s5 := readWrenchPorts s4
    let s6 := { s5 with
      m_input_wrenches_queue :=
        trimQueue s5.default_retrieve_time (s5.m_input_wrenches_queue ++ [currentWrench s5]) }
    if s6.is_stop_mode = false then
      { s6 with m_stop_wrenches := stopWrenchesLoop s6 } else s6

/-- Lines 372-399: the emergency signal port. -/
def readEmergencySignal (s : State I) : State I :=
  match s.m_emergencySignalIn with
  | [] => s
  | d :: rest =>
    let s1 := { s with m_emergencySignal := d, m_emergencySignalIn := rest,
                       emergency_mode := d }
    if s1.emergency_mode = 0 then
      if s1.is_stop_mode = true then { s1 with is_stop_mode := false } else s1
    else if s1.is_stop_mode = false then
      if s1.emergency_mode = 1 then { s1 with is_stop_mode := true }
      else if s1.emergency_mode = 2 then { s1 with is_stop_mode := true }
      else s1
    else s1

/-- Lines 400-416: the fall motion port. -/
def readEmergencyFallMotion (s : State I) : State I :=
  match s.m_emergencyFallMotionIn with
  | [] => s
  | d :: rest =>
    let s1 := { s with m_emergencyFallMotion := d, m_emergencyFallMotionIn := rest }
    if s1.m_emergencyFallMotion = false then
      { s1 with is_stop_mode := false, emergency_mode := 0,
                is_emergency_fall_motion := false }
    else
      { s1 with is_stop_mode := true, is_emergency_fall_motion := true }

/-- Lines 417-419: the emergency posture port. -/
def readQEmergency (s : State I) : State I :=
  match s.m_qEmergencyIn with
  | [] => s
  | d :: rest => { s with m_qEmergency := d, m_qEmergencyIn := rest }

/-- Lines 304-419: all the inputs of a tick, in the order of the source. -/
def inputs (s : State I) : State I :=
  readQEmergency (readEmergencyFallMotion (readEmergencySignal (readReference s)))

/-- Lines 420-426: entering stop mode. -/
def risingEdge (E : Interpolator I) (s : State I) : State I :=
  if s.is_stop_mode = true ∧ s.prev_is_stop_mode = false then
    let s1 := { s with retrieve_time := s.default_retrieve_duration }
    let s2 := { s1 with m_interpolator := E.set s1.m_interpolator s1.m_q }
    let s3 := { s2 with
      m_tmp_wrenches := getWrenchesArrayFromData s2.m_wrenches s2.m_tmp_wrenches }
    { s3 with m_wrenches_interpolator := E.set s3.m_wrenches_interpolator s3.m_tmp_wrenches }
  else s

/-- Lines 439-444: one step of the release ramp. -/
def recoverStep (E : Interpolator I) (s : State I) : State I :=
  let s1 := { s with recover_time := toInt ((s.recover_time : ℚ) - s.recover_time_dt) }
  let s2 := { s1 with
    m_interpolator := E.setGoal s1.m_interpolator s1.m_qRef (s1.recover_time : ℚ) }
  let s3 := { s2 with
    m_interpolator := (E.get s2.m_interpolator).1, m_q := (E.get s2.m_interpolator).2 }
  let s4 := { s3 with
    m_tmp_wrenches := getWrenchesArrayFromData s3.m_wrenchesRef s3.m_tmp_wrenches }
  let s5 := { s4 with
    m_wrenches_interpolator :=
      E.setGoal s4.m_wrenches_interpolator s4.m_tmp_wrenches (s4.recover_time : ℚ) }
  let s6 := { s5 with
    m_wrenches_interpolator := (E.get s5.m_wrenches_interpolator).1,
    m_tmp_wrenches := (E.get s5.m_wrenches_interpolator).2 }
  { s6 with m_wrenches := setWrenchesDataFromArray s6.m_wrenches s6.m_tmp_wrenches }

/-- Lines 446-453: the reference is copied to the command. -/
def passThrough (s : State I) : State I :=
  let s1 := { s with
    m_q := forLoop s.m_q.length (fun i q => q.set i (s.m_qRef.getD i 0)) s.m_q }
  { s1 with
    m_wrenches := forLoop s1.m_wrenches.length
      (fun i w => forLoop 6
        (fun j w => w.set i ((w.getD i []).set j ((s1.m_wrenchesRef.getD i []).getD j 0))) w)
      s1.m_wrenches }

/-- Lines 458-464: one step of the retrieve ramp. -/
def retrieveStep (E : Interpolator I) (s : State I) : State I :=
  let s1 := { s with retrieve_time := toInt ((s.retrieve_time : ℚ) - s.recover_time_dt) }
  let s2 := if s1.is_emergency_fall_motion = true then
      { s1 with
        m_interpolator :=
          E.setGoal s1.m_interpolator s1.m_motion_posture (s1.retrieve_time : ℚ) }
    else
      { s1 with
        m_interpolator :=
          E.setGoal s1.m_interpolator s1.m_stop_posture (s1.retrieve_time : ℚ) }
  let s3 := { s2 with
    m_interpolator := (E.get s2.m_interpolator).1, m_q := (E.get s2.m_interpolator).2 }
  let s4 := { s3 with
    m_wrenches_interpolator :=
      E.setGoal s3.m_wrenches_interpolator s3.m_stop_wrenches (s3.retrieve_time : ℚ) }
  let s5 := { s4 with
    m_wrenches_interpolator := (E.get s4.m_wrenches_interpolator).1,
    m_tmp_wrenches := (E.get s4.m_wrenches_interpolator).2 }
  { s5 with m_wrenches := setWrenchesDataFromArray s5.m_wrenches s5.m_tmp_wrenches }

/-- Lines 436-468: the command of this tick. -/
def blend (E : Interpolator I) (s : State I) : State I :=
  if s.is_stop_mode = false then
    if 0 < s.recover_time then recoverStep E s else passThrough s
  else
    let s1 := { s with recover_time := s.default_recover_time }
    if 0 < s1.retrieve_time then retrieveStep E s1 else s1

/-- Lines 505-509: is some joint servo on. -/
def hasServoOn (C : Consts) (s : State I) : Bool :=
  forLoop s.numJoints
    (fun i b =>
      b || decide
        ((Int.land ((s.m_servoState.getD i []).getD 0 0) C.SERVO_STATE_MASK)
            >>> C.SERVO_STATE_SHIFT = 1))
    false

/-- Lines 494-524: the mode outputs, the edge memory and the beep. -/
def finish (C : Consts) (s : State I) : State I :=
  let s1 := { s with m_emergencyMode := s.emergency_mode,
                     m_touchWallMotionSolved := s.solved }
  let s2 := { s1 with prev_is_stop_mode := s1.is_stop_mode }
  if s2.is_stop_mode = true ∧ hasServoOn C s2 = true then
    let s3 :=
      if Int.tmod s2.emergency_stopper_beep_count s2.emergency_stopper_beep_freq = 0 ∧
          Int.tmod s2.emergency_stopper_beep_count (s2.emergency_stopper_beep_freq * 3) ≠ 0
      then { s2 with bc := BeepCall.startBeep 2352 ((s2.emergency_stopper_beep_freq : ℚ) * 0.7) }
      else { s2 with bc := BeepCall.stopBeep }
    { s3 with emergency_stopper_beep_count := s3.emergency_stopper_beep_count + 1 }
  else
    { s with m_emergencyMode := s.emergency_mode, m_touchWallMotionSolved := s.solved,
             prev_is_stop_mode := s.is_stop_mode, emergency_stopper_beep_count := 0,
             bc := BeepCall.stopBeep }

/-- The tick: `EmergencyStopper::onExecute`. -/
def onExecute (E : Interpolator I) (C : Consts) (s : State I) : State I :=
  match gate (preamble s) with
  | Option.none => preamble s
  | some g => finish C (blend E (risingEdge E (inputs g)))

/-! ## The operations of the service and the life cycle -/

/-- The operation `EmergencyStopper::stopMotion`. -/
def stopMotion (s : State I) : State I :=
  if s.is_stop_mode = false then { s with is_stop_mode := true } else s

/-- The operation `EmergencyStopper::releaseMotion`. -/
def releaseMotion (s : State I) : State I :=
  { s with is_stop_mode := false, emergency_mode := 0, is_emergency_fall_motion := false,
           solved := false }

/-- The operation `EmergencyStopper::setEmergencyStopperParam`; the three arguments
are the members of `i_param`, in seconds. -/
def setEmergencyStopperParam (p_recover p_retrieve p_duration : ℚ) (s : State I) : State I :=
  { s with default_recover_time := toInt (p_recover / s.m_dt),
           default_retrieve_time := toInt (p_retrieve / s.m_dt),
           default_retrieve_duration := toInt (p_duration / s.m_dt) }

/-- The loop of `setEmergencyJointAngles` over the pair
(`m_stop_posture`, `m_qTouchWall.data`). -/
def commitLoop (C : Consts) (n : Nat) (angles : List ℚ) (p : List ℚ × List ℚ) :
    List ℚ × List ℚ :=
  forLoop n
    (fun i p =>
      let sp :=
        if i = 33 ∨ i = 35 then p.1.set i (-1.39626)
        else if i = 34 ∨ i = 36 then p.1.set i 1.39626
        else p.1.set i (deg2rad C (angles.getD i 0))
      (sp, p.2.set i (sp.getD i 0)))
    p

/-- The operation `EmergencyStopper::setEmergencyJointAngles`. -/
def setEmergencyJointAngles (C : Consts) (angles : List ℚ) (solved : Bool) (s : State I) :
    State I :=
  let p := commitLoop C s.numJoints angles (s.m_stop_posture, s.m_qTouchWall)
  { s with m_stop_posture := p.1, m_qTouchWall := p.2,
           retrieve_time := s.default_retrieve_time, solved := solved,
           is_stop_mode := true }

/-- The callback `EmergencyStopper::onDeactivated`. -/
def onDeactivated (E : Interpolator I) (s : State I) : State I :=
  if s.is_stop_mode = true then
    let s1 := { s with is_stop_mode := false, emergency_mode := 0,
                       is_emergency_fall_motion := false, solved := false,
                       recover_time := 0 }
    let s2 := { s1 with m_interpolator := E.setGoal s1.m_interpolator s1.m_qRef s1.m_dt }
    { s2 with m_interpolator := (E.get s2.m_interpolator).1,
              m_q := (E.get s2.m_interpolator).2 }
  else s


/-- The members that neither the entry of a tick (lines 289-301) nor the reading of
its inputs (lines 304-419) writes. -/
structure Frame (s t : State I) : Prop where
  numJoints : t.numJoints = s.numJoints
  m_dt : t.m_dt = s.m_dt
  m_q : t.m_q = s.m_q
  m_qTouchWall : t.m_qTouchWall = s.m_qTouchWall
  m_wrenches : t.m_wrenches = s.m_wrenches
  beep_count : t.emergency_stopper_beep_count = s.emergency_stopper_beep_count
  beep_freq : t.emergency_stopper_beep_freq = s.emergency_stopper_beep_freq
  prev_is_stop_mode : t.prev_is_stop_mode = s.prev_is_stop_mode
  solved : t.solved = s.solved
  recover_time : t.recover_time = s.recover_time
  retrieve_time : t.retrieve_time = s.retrieve_time
  recover_time_dt : t.recover_time_dt = s.recover_time_dt
  default_recover_time : t.default_recover_time = s.default_recover_time
  default_retrieve_time : t.default_retrieve_time = s.default_retrieve_time
  default_retrieve_duration : t.default_retrieve_duration = s.default_retrieve_duration
  m_tmp_wrenches : t.m_tmp_wrenches = s.m_tmp_wrenches
  m_interpolator : t.m_interpolator = s.m_interpolator
  m_wrenches_interpolator : t.m_wrenches_interpolator = s.m_wrenches_interpolator

/-- The members that the entry of a tick does not write but its inputs may. -/
structure Entry (s g : State I) extends Frame s g : Prop where
  is_stop_mode : g.is_stop_mode = s.is_stop_mode
  is_emergency_fall_motion : g.is_emergency_fall_motion = s.is_emergency_fall_motion
  emergency_mode : g.emergency_mode = s.emergency_mode
  m_stop_posture : g.m_stop_posture = s.m_stop_posture
  m_motion_posture : g.m_motion_posture = s.m_motion_posture
  m_stop_wrenches : g.m_stop_wrenches = s.m_stop_wrenches
  m_input_posture_queue : g.m_input_posture_queue = s.m_input_posture_queue
  m_input_wrenches_queue : g.m_input_wrenches_queue = s.m_input_wrenches_queue
  m_qEmergency : g.m_qEmergency = s.m_qEmergency
  m_wrenchesRef : g.m_wrenchesRef = s.m_wrenchesRef
  m_qEmergencyIn : g.m_qEmergencyIn = s.m_qEmergencyIn
  m_emergencySignalIn : g.m_emergencySignalIn = s.m_emergencySignalIn
  m_emergencyFallMotionIn : g.m_emergencyFallMotionIn = s.m_emergencyFallMotionIn
  m_wrenchesIn : g.m_wrenchesIn = s.m_wrenchesIn


/-! ## A concrete set-up for the runs used as examples -/

/-- A small interpolator for concrete runs: it keeps the current point, the goal and
the time-to-target; its next sample is the goal when no time is left and otherwise
one step on the straight line toward the goal. -/
structure Ramp where
  x : List ℚ
  goal : List ℚ
  time : ℚ
  dt : ℚ
  deriving DecidableEq, Repr

/-- The operations of `Ramp`. -/
def ramp : Interpolator Ramp :=
  { create := fun dim dt =>
      { x := List.replicate dim 0, goal := List.replicate dim 0, time := 0, dt := dt }
    set := fun r x => { r with x := x, goal := x, time := 0 }
    setGoal := fun r g t => { r with goal := g, time := t }
    get := fun r =>
      let x := if r.time ≤ 0 then r.goal
        else List.zipWith (fun a b => a + (b - a) * r.dt / (r.time + r.dt)) r.x r.goal
      ({ r with x := x }, x) }

/-- The constants as the RobotHardwareService interface declares them. -/
def consts : Consts :=
  { M_PI := 3.141592653589793, CALIB_STATE_SHIFT := 0, POWER_STATE_SHIFT := 2,
    SERVO_STATE_SHIFT := 1, SERVO_ALARM_SHIFT := 3, DRIVER_TEMP_SHIFT := 24,
    SERVO_STATE_MASK := 2 }

/-- One reference posture arrives. -/
def refArrives (q : List ℚ) : Arrival := { Arrival.nothing with qRef := [q] }

/-- A robot with one joint and one force sensor, ticking at 200 Hz, after start-up. -/
def oneJoint : State Ramp := onInitialize ramp consts 1 1 (1 / 200)

/-- The goal that `retrieveStep` hands to the posture interpolator. -/
def retrieveGoal (s : State I) : List ℚ :=
  if s.is_emergency_fall_motion = true then s.m_motion_posture else s.m_stop_posture

/-- The robot `oneJoint` after two ticks that each brought a reference posture: it
follows the reference (`recover_time = 0`, not stopped) and last commanded `[2]`. -/
def following : State Ramp :=
  onExecute ramp consts (arrive (refArrives [2])
    (onExecute ramp consts (arrive (refArrives [1]) oneJoint)))

/-- The reference posture `[3]` and the emergency signal 1 arrive together. -/
def stopArrives : Arrival := { refArrives [3] with emergencySignal := [1] }

/-- The state at the start of the tick that finds the emergency signal 1. -/
def stopTick : State Ramp := arrive stopArrives following

/-- What happens between one tick and the next in the release scenario: an optional
call of `releaseMotion`, then the arrival of new port samples. -/
def between (command : Bool) (a : Arrival) (s : State I) : State I :=
  arrive a (if command = true then releaseMotion s else s)

/-- The emergency signal 0 arrives, and nothing else. -/
def resetArrives : Arrival := { Arrival.nothing with emergencySignal := [0] }

/-- The state at the start of a tick of `following` that finds the reference `[3]`. -/
def followTick : State Ramp := arrive (refArrives [3]) following

/-- The state at the start of the tick after the one of `stopTick`: the robot is
stopped, its retrieve timer has run out, and the reference `[4]` arrives. -/
def holdTick : State Ramp := arrive (refArrives [4]) (onExecute ramp consts stopTick)

/-- Ticks driven by a list of arrivals: each arrival is written to the ports, then the
tick runs. -/
def run (E : Interpolator I) (C : Consts) : List Arrival → State I → State I
  | [], s => s
  | a :: rest, s => run E C rest (onExecute E C (arrive a s))

/-- An arrival that brings nothing on the two trigger ports. -/
def Arrival.quiet (a : Arrival) : Prop :=
  a.emergencySignal = [] ∧ a.emergencyFallMotion = []

/-- The value that pass `i` of the loop of `setEmergencyJointAngles` stores for joint `i`. -/
def committedAngle (C : Consts) (angles : List ℚ) (i : Nat) : ℚ :=
  if i = 33 ∨ i = 35 then -1.39626
  else if i = 34 ∨ i = 36 then 1.39626
  else deg2rad C (angles.getD i 0)

/-- Every tick of the run ends in stop mode. -/
def staysStopped (E : Interpolator I) (C : Consts) : List Arrival → State I → Prop
  | [], _ => True
  | a :: rest, s =>
    (onExecute E C (arrive a s)).is_stop_mode = true ∧
      staysStopped E C rest (onExecute E C (arrive a s))

/-- A robot with the 37 joints of JAXON and no force sensor, after start-up. -/
def jaxon : State Ramp := onInitialize ramp consts 37 0 (1 / 200)

/-- Two reference postures (all joints 0) and the fall-motion trigger arrive. -/
def fallArrives : Arrival :=
  { Arrival.nothing with
    qRef := [List.replicate 37 0, List.replicate 37 0], emergencyFallMotion := [true] }

/-- The robot `jaxon` after its first tick, which found the fall-motion trigger: it is
stopped with the fall flag set. -/
def fallen : State Ramp := onExecute ramp consts (arrive fallArrives jaxon)

/-- The terminal posture (all angles 10 degrees) is committed with `solved = true` on the
fallen robot. -/
def committed : State Ramp :=
  setEmergencyJointAngles consts (List.replicate 37 10) true fallen

/-- The state at the start of a tick that follows a commit with `solved = true`: the
commit on `s`, the ticks of `arrivals`, and the arrival `a` of the tick itself. -/
def afterCommit (E : Interpolator I) (C : Consts) (angles : List ℚ) (arrivals : List Arrival)
    (a : Arrival) (s : State I) : State I :=
  arrive a (run E C arrivals (setEmergencyJointAngles C angles true s))

/-! ## The life of the component as a sequence of steps -/

/-- One step in the life of the component: a tick, samples arriving on the ports, a
call of one of the operations of the service, or the deactivation. -/
inductive Op where
  | tick
  | arrive (a : Arrival)
  | stopMotion
  | releaseMotion
  | setEmergencyStopperParam (p_recover p_retrieve p_duration : ℚ)
  | setEmergencyJointAngles (angles : List ℚ) (solved : Bool)
  | onDeactivated

/-- The effect of one step on the state. -/
def Op.apply (E : Interpolator I) (C : Consts) : Op → State I → State I
  | Op.tick, s => EmergencyStopper.onExecute E C s
  | Op.arrive a, s => EmergencyStopper.arrive a s
  | Op.stopMotion, s => EmergencyStopper.stopMotion s
  | Op.releaseMotion, s => EmergencyStopper.releaseMotion s
  | Op.setEmergencyStopperParam p_recover p_retrieve p_duration, s =>
    EmergencyStopper.setEmergencyStopperParam p_recover p_retrieve p_duration s
  | Op.setEmergencyJointAngles angles solved, s =>
    EmergencyStopper.setEmergencyJointAngles C angles solved s
  | Op.onDeactivated, s => EmergencyStopper.onDeactivated E s

/-- The state after a sequence of steps. -/
def exec (E : Interpolator I) (C : Consts) : List Op → State I → State I
  | [], s => s
  | op :: rest, s => exec E C rest (op.apply E C s)

/-- A step that is not a call of `setEmergencyStopperParam` with a negative duration. -/
def Op.nonnegParam : Op → Prop
  | Op.setEmergencyStopperParam p_recover p_retrieve p_duration =>
    0 ≤ p_recover ∧ 0 ≤ p_retrieve ∧ 0 ≤ p_duration
  | _ => True

/-- No step of the sequence lowers the history window `default_retrieve_time`. -/
def windowKept (E : Interpolator I) (C : Consts) : List Op → State I → Prop
  | [], _ => True
  | op :: rest, s =>
    s.default_retrieve_time ≤ (op.apply E C s).default_retrieve_time ∧
      windowKept E C rest (op.apply E C s)

/-- The state of a tick when it reaches the beep section (line 503). -/
def beforeFinish (E : Interpolator I) (g : State I) : State I :=
  blend E (risingEdge E (inputs g))

/-- The tick from `s` reaches line 511 in stop mode with some joint servo on. -/
def alertTick (E : Interpolator I) (C : Consts) (s : State I) : Prop :=
  ∃ g, gate (preamble s) = some g ∧ (beforeFinish E g).is_stop_mode = true ∧
    hasServoOn C (beforeFinish E g) = true

/-- Every tick of the run is an `alertTick`. -/
def alertRun (E : Interpolator I) (C : Consts) : List Arrival → State I → Prop
  | [], _ => True
  | a :: rest, s =>
    alertTick E C (arrive a s) ∧ alertRun E C rest (onExecute E C (arrive a s))

/-- The call made on the beep client by lines 512-516 when the counter is `count` and the
beep frequency is `freq`. -/
def beepAt (count freq : Int) : BeepCall :=
  if Int.tmod count freq = 0 ∧ Int.tmod count (freq * 3) ≠ 0 then
    BeepCall.startBeep 2352 ((freq : ℚ) * 0.7)
  else BeepCall.stopBeep

/-- A negative recover time is configured on the robot `oneJoint`, which is then stopped
by `stopMotion` and ticks once with a reference posture. -/
def negativeParamRun : List Op :=
  [Op.setEmergencyStopperParam (-1) 1 1, Op.arrive (refArrives [1]), Op.stopMotion, Op.tick]

/-- The same run with the recover time 1 second. -/
def positiveParamRun : List Op :=
  [Op.setEmergencyStopperParam 1 1 1, Op.arrive (refArrives [1]), Op.stopMotion, Op.tick]

/-- Two ticks that each read a reference posture, then the history window is set to 0. -/
def shrinkWindowRun : List Op :=
  [Op.arrive (refArrives [1]), Op.tick, Op.arrive (refArrives [2]), Op.tick,
   Op.setEmergencyStopperParam 2.5 0 1]

/-- Two ticks that each read a reference posture, then the history window is set to 2
ticks, then a third tick. -/
def growWindowRun : List Op :=
  [Op.arrive (refArrives [1]), Op.tick, Op.arrive (refArrives [2]), Op.tick,
   Op.setEmergencyStopperParam 2.5 (1 / 100) 1, Op.arrive (refArrives [3]), Op.tick]

/-- A robot with one joint and one force sensor ticking at 4 Hz: its beep frequency is 2
ticks. -/
def slowJoint : State Ramp := onInitialize ramp consts 1 1 (1 / 4)

/-- The robot `slowJoint` after a first tick that read the reference posture `[1]`. -/
def slowFollowing : State Ramp := onExecute ramp consts (arrive (refArrives [1]) slowJoint)

/-- The emergency signal 1 arrives, then two ticks pass with nothing on the ports. -/
def alertArrivals : List Arrival :=
  [{ Arrival.nothing with emergencySignal := [1] }, Arrival.nothing, Arrival.nothing]

/-- The timers and their configured values are not negative, the decrement step is the 1
of `onInitialize`, and the tick period is positive. -/
def TimersOk (s : State I) : Prop :=
  0 ≤ s.recover_time ∧ 0 ≤ s.retrieve_time ∧ 0 ≤ s.default_recover_time ∧
    0 ≤ s.default_retrieve_time ∧ 0 ≤ s.default_retrieve_duration ∧
    s.recover_time_dt = 1 ∧ 0 < s.m_dt

/-- The history window is not negative and neither history queue is longer than it. -/
def QueuesOk (s : State I) : Prop :=
  0 ≤ s.default_retrieve_time ∧
    (s.m_input_posture_queue.length : Int) ≤ s.default_retrieve_time ∧
    (s.m_input_wrenches_queue.length : Int) ≤ s.default_retrieve_time

/-- Before the first reference posture has been read the beep section has never run: the
counter is 0 and no call was made on the beep client. -/
def BeepUntouched (s : State I) : Prop :=
  s.is_initialized = false → s.emergency_stopper_beep_count = 0 ∧ s.bc = BeepCall.none

/-- The state at the start of a tick of the robot `committed` (stopped, fall flag set,
terminal posture solved) that finds the emergency signal 0. -/
def resetTick : State Ramp := arrive resetArrives committed

/-! ## Set-ups for the trigger, countdown and history runs -/

/-- The emergency signal `sig` and the fall-motion trigger `fall` arrive together. -/
def bothArrive (sig : Int) (fall : Bool) : Arrival :=
  { Arrival.nothing with emergencySignal := [sig], emergencyFallMotion := [fall] }

/-- The state at the start of a tick of `following` that finds both triggers. -/
def bothTick (sig : Int) (fall : Bool) : State Ramp := arrive (bothArrive sig fall) following

/-- The state at the start of the tick that finds the emergency signal 1 on the robot
`following` configured with a retrieve duration of 3 ticks (0.0175 s at 200 Hz). -/
def countdownTick : State Ramp :=
  arrive stopArrives (setEmergencyStopperParam 2.5 (3 / 400) (7 / 400) following)

/-- The reference posture that the tick from `s` pushes on the posture history (lines
304-312): the sample that line 306 reads, when the tick gets there and finds one. -/
def pushedPosture (s : State I) : List (List ℚ) :=
  match gate (preamble s) with
  | Option.none => []
  | some g => g.m_qRefIn.take 1

/-- The vector `current_wrench` that the tick from `s` pushes on the wrench history (lines
344-355), when the tick reads a reference posture. -/
def pushedWrench (s : State I) : List (List ℚ) :=
  match gate (preamble s) with
  | Option.none => []
  | some g =>
    match g.m_qRefIn with
    | [] => []
    | _ :: _ => [currentWrench (readWrenchPorts g)]

/-- The postures pushed on the posture history by the ticks of a run, oldest first. -/
def postureLog (E : Interpolator I) (C : Consts) : List Arrival → State I → List (List ℚ)
  | [], _ => []
  | a :: rest, s =>
    pushedPosture (arrive a s) ++ postureLog E C rest (onExecute E C (arrive a s))

/-- The wrench vectors pushed on the wrench history by the ticks of a run, oldest first. -/
def wrenchLog (E : Interpolator I) (C : Consts) : List Arrival → State I → List (List ℚ)
  | [], _ => []
  | a :: rest, s =>
    pushedWrench (arrive a s) ++ wrenchLog E C rest (onExecute E C (arrive a s))

/-- Three ticks that each bring a reference posture under the start-up window of 1 tick,
then the window is set to 3 ticks (0.0175 s at 200 Hz), then a fourth tick with the
reference `[4]`. -/
def lateWindowRun : List Op :=
  [Op.arrive (refArrives [1]), Op.tick, Op.arrive (refArrives [2]), Op.tick,
   Op.arrive (refArrives [3]), Op.tick, Op.setEmergencyStopperParam 2.5 (7 / 400) (3 / 400),
   Op.arrive (refArrives [4]), Op.tick]

/-- The robot `following` with the history window set to 2 ticks (0.0125 s at 200 Hz). -/
def wideWindow : State Ramp := setEmergencyStopperParam 2.5 (1 / 80) (3 / 400) following

/-- Three ticks, each with one new reference posture. -/
def threeReferences : List Arrival := [refArrives [3], refArrives [4], refArrives [5]]

/-- The robot `following` stopped by the emergency signal 1 (fall flag clear), then
configured with a history window and a retrieve duration of 3 ticks (0.0175 s at
200 Hz). -/
def signalStopped : State Ramp :=
  setEmergencyStopperParam 2.5 (7 / 400) (7 / 400) (onExecute ramp consts stopTick)

/-- The emergency posture `[7]` arrives, and nothing else. -/
def emergencyArrives : Arrival := { Arrival.nothing with qEmergency := [[7]] }

/-- The state at the start of the second tick after the terminal posture `[10]` (degrees)
was committed with `solved = true` on the robot `signalStopped`: the first tick read the
emergency posture `[7]`, and the reference `[5]` has arrived for the second. -/
def solvedTick : State Ramp :=
  afterCommit ramp consts [10] [emergencyArrives] (refArrives [5]) signalStopped

/-- A step whose conversions to `int` are defined and give a value that is not negative: a
call of `setEmergencyStopperParam` passes durations that are not negative and that,
divided by the tick period `m_dt`, are at most `intMax`. -/
def Op.fitsInt (m_dt : ℚ) : Op → Prop
  | Op.setEmergencyStopperParam p_recover p_retrieve p_duration =>
    (0 ≤ p_recover ∧ p_recover / m_dt ≤ intMax) ∧
    (0 ≤ p_retrieve ∧ p_retrieve / m_dt ≤ intMax) ∧
    (0 ≤ p_duration ∧ p_duration / m_dt ≤ intMax)
  | _ => True

/-- The tick period is `m_dt` and the timers and their configured values are at most
`intMax`. -/
def TimersInRange (m_dt : ℚ) (s : State I) : Prop :=
  s.m_dt = m_dt ∧ s.recover_time ≤ intMax ∧ s.retrieve_time ≤ intMax ∧
    s.default_recover_time ≤ intMax ∧ s.default_retrieve_time ≤ intMax ∧
    s.default_retrieve_duration ≤ intMax

end EmergencyStopper

/-! # IIRFilter: the direct-form-II recursive filter

A shallow embedding of `rtc/TorqueFilter/IIRFilter.cpp`.  The members of the class form
the record `IIRFilter` (the error text is left out with the logging).  `double` values are
rationals.  Sizes are compared with `dim` as integers: a size never equals a negative
`dim`, which is also what the comparison through `size_t` of the source gives.

A read outside a vector or the history is undefined in the source; the embedding returns
`0` there, and every theorem that depends on such a read carries the hypotheses under which
the read is inside (`SizesOk`).  A division by 0 gives `inf` or `NaN` in the source, which
are not numbers of the embedding: `reset` has no result there.
-/

namespace IIRFilter

open EmergencyStopper (forLoop)

/-- The members of the filter. -/
structure Filter where
  m_dimension : Int
  m_fb_coefficients : List ℚ
  m_ff_coefficients : List ℚ
  m_previous_values : List ℚ
  m_initialized : Bool
  deriving DecidableEq, Repr

/-- The constructor `IIRFilter(error_text)`: only `m_initialized` is given a value;
`dim` stands for what `m_dimension` happens to hold. -/
def create (dim : Int) : Filter :=
  { m_dimension := dim, m_fb_coefficients := [], m_ff_coefficients := [],
    m_previous_values := [], m_initialized := false }

/-- The call `deque.assign(n, v)` with an `int` count: `n` copies of `v`; a negative count
becomes a size beyond `max_size()` and the call throws (`none`). -/
def assign (n : Int) (v : ℚ) : Option (List ℚ) :=
  if 0 ≤ n then some (List.replicate n.toNat v) else Option.none

/-- Lines 49-58: the loop over `A` that fills `m_fb_coefficients`. -/
def pushFeedback (A : List ℚ) (fb : List ℚ) : List ℚ :=
  forLoop A.length
    (fun i fb => if i = 0 then fb ++ [A.getD i 0] else fb ++ [-(A.getD i 0)]) fb

/-- Lines 59-61: the loop over `B` that fills `m_ff_coefficients`. -/
def pushFeedForward (B : List ℚ) (ff : List ℚ) : List ℚ :=
  forLoop B.length (fun i ff => ff ++ [B.getD i 0]) ff

/-- The method `IIRFilter::setParameter`: the returned flag and the filter after the
call, or `none` when `assign` throws. -/
def setParameter (dim : Int) (A B : List ℚ) (f : Filter) : Option (Bool × Filter) :=
  let f1 := { f with m_dimension := dim }
  if ((A.length : Int) ≠ dim ∧ (A.length : Int) ≠ dim + 1) ∨ (B.length : Int) ≠ dim + 1 then
    some (false, f1)
  else
    let f2 := { f1 with m_fb_coefficients := [], m_ff_coefficients := [] }
    let f3 := if (A.length : Int) = dim then
        { f2 with m_fb_coefficients := f2.m_fb_coefficients ++ [1] } else f2
    let f4 := { f3 with m_fb_coefficients := pushFeedback A f3.m_fb_coefficients }
    let f5 := { f4 with m_ff_coefficients := pushFeedForward B f4.m_ff_coefficients }
    match assign dim 0 with
    | Option.none => Option.none
    | some h => some (true, { f5 with m_previous_values := h, m_initialized := true })

/-- The method `IIRFilter::getParameter`: the triple (`dim`, `A`, `B`) it hands back. -/
def getParameter (f : Filter) : Int × List ℚ × List ℚ :=
  (f.m_dimension,
   forLoop f.m_fb_coefficients.length
     (fun i A =>
       if i = 0 then A ++ [f.m_fb_coefficients.getD i 0]
       else A ++ [-(f.m_fb_coefficients.getD i 0)]) [],
   f.m_ff_coefficients)

/-- The method `IIRFilter::reset`.  It has no result (`none`) when `sum_ff_coeffs` is 0,
where the quotient of the source is `inf` or `NaN`, and when `assign` throws. -/
def reset (initial_input : ℚ) (f : Filter) : Option Filter :=
  let sum_ff_coeffs := f.m_ff_coefficients.foldl (fun acc x => acc + x) 0
  if sum_ff_coeffs = 0 then Option.none
  else
    let reset_val := initial_input / sum_ff_coeffs
    match assign f.m_dimension reset_val with
    | Option.none => Option.none
    | some h => some { f with m_previous_values := h }

/-- The method `IIRFilter::passFilter`: the returned value and the filter after the
call.  The source indexes the coefficient vectors and the history unchecked; a read outside
them is undefined there and gives 0 here (see `SizesOk`, `InBounds`). -/
def passFilter (input : ℚ) (f : Filter) : ℚ × Filter :=
  if f.m_initialized = false then (0, f)
  else
    let feedback := forLoop f.m_dimension.toNat
      (fun i feedback => feedback + f.m_fb_coefficients.getD (i + 1) 0 *
        f.m_previous_values.getD i 0)
      (f.m_fb_coefficients.getD 0 0 * input)
    let filtered := forLoop f.m_dimension.toNat
      (fun i filtered => filtered + f.m_ff_coefficients.getD (i + 1) 0 *
        f.m_previous_values.getD i 0)
      (f.m_ff_coefficients.getD 0 0 * feedback)
    (filtered, { f with m_previous_values := (feedback :: f.m_previous_values).dropLast })

/-- The values returned by `n` successive calls of `passFilter` with the same input, and
the filter after them. -/
def passMany (input : ℚ) : Nat → Filter → List ℚ × Filter
  | 0, f => ([], f)
  | n + 1, f =>
    let r := passFilter input f
    let rest := passMany input n r.2
    (r.1 :: rest.1, rest.2)

/-- The list `A` with every entry but the first negated: `[A[0], -A[1], -A[2], ...]`. -/
def negateTail : List ℚ → List ℚ
  | [] => []
  | a :: rest => a :: rest.map (fun x => -x)

/-- The feedback term of the recurrence as the specification writes it:
`fb[0]*sample + Σ_{i<dim} fb[i+1]*h[i]`, with `dim` the length of the history `h`. -/
def specFeedback (sample : ℚ) (f : Filter) : ℚ :=
  f.m_fb_coefficients.getD 0 0 * sample +
    ∑ i ∈ Finset.range f.m_previous_values.length,
      f.m_fb_coefficients.getD (i + 1) 0 * f.m_previous_values.getD i 0

/-- The output of the recurrence as the specification writes it:
`ff[0]*w + Σ_{i<dim} ff[i+1]*h[i]` with `w` the feedback term. -/
def specOutput (sample : ℚ) (f : Filter) : ℚ :=
  f.m_ff_coefficients.getD 0 0 * specFeedback sample f +
    ∑ i ∈ Finset.range f.m_previous_values.length,
      f.m_ff_coefficients.getD (i + 1) 0 * f.m_previous_values.getD i 0

/-- A filter of dimension 1 with DC gain 2: `A = [1, 0]`, `B = [1, 1]`. -/
def gainTwo : Option (Bool × Filter) := setParameter 1 [1, 0] [1, 1] (create 0)

/-- A low-pass filter of dimension 1 with DC gain 1: `A = [1, -1/2]`, `B = [1/4, 1/4]`. -/
def lowPass : Option (Bool × Filter) := setParameter 1 [1, -1 / 2] [1 / 4, 1 / 4] (create 0)

/-- The filter `gainTwo` once configured. -/
def gainTwoFilter : Filter :=
  { m_dimension := 1, m_fb_coefficients := [1, 0], m_ff_coefficients := [1, 1],
    m_previous_values := [0], m_initialized := true }

/-- The filter `lowPass` once configured. -/
def lowPassFilter : Filter :=
  { m_dimension := 1, m_fb_coefficients := [1, 1 / 2], m_ff_coefficients := [1 / 4, 1 / 4],
    m_previous_values := [0], m_initialized := true }

/-! ## The sizes that `passFilter` relies on -/

/-- The sizes of an initialized filter fit its dimension: both coefficient lists have
`m_dimension + 1` entries and the history has `m_dimension` cells. -/
def SizesOk (f : Filter) : Prop :=
  f.m_initialized = true →
    (f.m_fb_coefficients.length : Int) = f.m_dimension + 1 ∧
    (f.m_ff_coefficients.length : Int) = f.m_dimension + 1 ∧
    (f.m_previous_values.length : Int) = f.m_dimension

/-- Every index that `passFilter` reads on an initialized filter (lines 117-124: entry 0 of
both coefficient lists, then entries `i + 1` and history cell `i` for `i < m_dimension`)
lies inside its container. -/
def InBounds (f : Filter) : Prop :=
  f.m_initialized = true →
    0 < f.m_fb_coefficients.length ∧ 0 < f.m_ff_coefficients.length ∧
    ∀ i : Nat, (i : Int) < f.m_dimension →
      i + 1 < f.m_fb_coefficients.length ∧ i + 1 < f.m_ff_coefficients.length ∧
      i < f.m_previous_values.length

/-! ## The Butterworth configuration -/

/-- The functions `std::tan` and `std::sqrt` and the constant `M_PI` of the C++ library;
they are not part of the source file and are parameters.  `K` is the type of the numbers:
the rationals in the filter above, the reals for exact real arithmetic. -/
structure MathLib (K : Type) where
  tan : K → K
  sqrt : K → K
  M_PI : K

/-- Lines 70-78 of `setParameterAsBiquadButterworth`: the vectors `fb_coeffs` and
`ff_coeffs`, in this order. -/
def biquadButterworthCoeffs {K : Type} [Field K] (M : MathLib K) (_fc_in _dt : K) :
    List K × List K :=
  let fc := M.tan (_fc_in * M.M_PI * _dt) / (2 * M.M_PI)
  let denom := 1 + (2 * M.sqrt 2 * M.M_PI * fc) + 4 * M.M_PI * M.M_PI * fc * fc
  let ff_coeffs := [(4 * M.M_PI * M.M_PI * fc * fc) / denom,
    (8 * M.M_PI * M.M_PI * fc * fc) / denom,
    (4 * M.M_PI * M.M_PI * fc * fc) / denom]
  let fb_coeffs := [1,
    (8 * M.M_PI * M.M_PI * fc * fc - 2) / denom,
    (1 - (2 * M.sqrt 2 * M.M_PI * fc) + 4 * M.M_PI * M.M_PI * fc * fc) / denom]
  (fb_coeffs, ff_coeffs)

/-- The method `IIRFilter::setParameterAsBiquadButterworth`. -/
def setParameterAsBiquadButterworth (M : MathLib ℚ) (_fc_in _dt : ℚ) (f : Filter) :
    Option (Bool × Filter) :=
  let c := biquadButterworthCoeffs M _fc_in _dt
  setParameter 2 c.1 c.2 f

/-- Rational stand-ins for the library in the concrete runs: the first terms of the series
of `tan`, three Newton steps from 1 for `sqrt`, and `M_PI` to 15 decimals. -/
def mathLib : MathLib ℚ :=
  { tan := fun x => x + x ^ 3 / 3 + 2 * x ^ 5 / 15
    sqrt := fun x =>
      let y1 := (1 + x / 1) / 2
      let y2 := (y1 + x / y1) / 2
      (y2 + x / y2) / 2
    M_PI := 3.141592653589793 }

/-- The filter left by `setParameterAsBiquadButterworth` for the cutoff frequency 0. -/
def cutoffZeroFilter : Filter :=
  { m_dimension := 2, m_fb_coefficients := [1, 2, -1], m_ff_coefficients := [0, 0, 0],
    m_previous_values := [0, 0], m_initialized := true }

/-- The relations between the coefficient vectors `A` and `B` of a biquad with unity DC
gain: three entries each, `A[0] = 1`, `B[0] + B[1] + B[2] = 1 + A[1] + A[2]`,
`B[0] = B[2]` and `B[1] = 2 * B[0]`. -/
def UnityGainBiquad {K : Type} [Field K] (A B : List K) : Prop :=
  A.length = 3 ∧ B.length = 3 ∧ A.getD 0 0 = 1 ∧
    B.getD 0 0 + B.getD 1 0 + B.getD 2 0 = 1 + A.getD 1 0 + A.getD 2 0 ∧
    B.getD 0 0 = B.getD 2 0 ∧ B.getD 1 0 = 2 * B.getD 0 0

end IIRFilter

namespace EmergencyStopper

variable {I : Type}

/-! ## Loops and frames -/

theorem forLoop_zero {σ : Type} (body : Nat → σ → σ) (s : σ) : forLoop 0 body s = s := rfl

theorem forLoop_succ {σ : Type} (n : Nat) (body : Nat → σ → σ) (s : σ) :
    forLoop (n + 1) body s = body n (forLoop n body s) := by
  simp [forLoop, List.range_succ, List.foldl_append]

/-- A property kept by every pass of the body is kept by the loop. -/
theorem forLoop_keeps {σ : Type} (P : σ → Prop) (body : Nat → σ → σ)
    (hbody : ∀ i s, P s → P (body i s)) (n : Nat) (s : σ) (hs : P s) :
    P (forLoop n body s) := by
  induction n with
  | zero => exact hs
  | succ n ih => rw [forLoop_succ]; exact hbody n _ ih

theorem forLoop_set_length (g : Nat → ℚ) (n : Nat) (l : List ℚ) :
    (forLoop n (fun i a => a.set i (g i)) l).length = l.length := by
  induction n with
  | zero => rfl
  | succ n ih => rw [forLoop_succ, List.length_set, ih]

theorem forLoop_set_getElem? (g : Nat → ℚ) (n : Nat) (l : List ℚ) (k : Nat) :
    (forLoop n (fun i a => a.set i (g i)) l)[k]? =
      if k < n ∧ k < l.length then some (g k) else l[k]? := by
  induction n with
  | zero => simp [forLoop_zero]
  | succ n ih =>
    rw [forLoop_succ, List.getElem?_set, forLoop_set_length]
    by_cases hk : n = k
    · subst hk
      by_cases hl : n < l.length
      · simp [hl]
      · simp [hl]
        omega
    · simp only [hk, if_false, ih]
      by_cases h1 : k < n
      · have : k < n + 1 := by omega
        simp [h1, this]
      · have : ¬ k < n + 1 := by omega
        simp [h1, this]

theorem Frame.refl (s : State I) : Frame s s := by constructor <;> rfl

theorem Frame.trans {s t u : State I} (a : Frame s t) (b : Frame t u) : Frame s u := by
  constructor
  · exact b.numJoints.trans a.numJoints
  · exact b.m_dt.trans a.m_dt
  · exact b.m_q.trans a.m_q
  · exact b.m_qTouchWall.trans a.m_qTouchWall
  · exact b.m_wrenches.trans a.m_wrenches
  · exact b.beep_count.trans a.beep_count
  · exact b.beep_freq.trans a.beep_freq
  · exact b.prev_is_stop_mode.trans a.prev_is_stop_mode
  · exact b.solved.trans a.solved
  · exact b.recover_time.trans a.recover_time
  · exact b.retrieve_time.trans a.retrieve_time
  · exact b.recover_time_dt.trans a.recover_time_dt
  · exact b.default_recover_time.trans a.default_recover_time
  · exact b.default_retrieve_time.trans a.default_retrieve_time
  · exact b.default_retrieve_duration.trans a.default_retrieve_duration
  · exact b.m_tmp_wrenches.trans a.m_tmp_wrenches
  · exact b.m_interpolator.trans a.m_interpolator
  · exact b.m_wrenches_interpolator.trans a.m_wrenches_interpolator

theorem preamble_entry (s : State I) : Entry s (preamble s) := by
  unfold preamble
  dsimp only
  split <;> (constructor <;> first | rfl | (constructor <;> rfl))

theorem gate_entry {s g : State I} (h : gate s = some g) : Entry s g := by
  unfold gate at h
  split at h
  · split at h
    · cases h
    · cases h; (constructor <;> first | rfl | (constructor <;> rfl))
  · cases h; (constructor <;> first | rfl | (constructor <;> rfl))

theorem readReference_frame (s : State I) : Frame s (readReference s) := by
  unfold readReference
  split
  · exact Frame.refl s
  · dsimp only
    split <;> split <;> (constructor <;> rfl)

theorem readEmergencySignal_frame (s : State I) : Frame s (readEmergencySignal s) := by
  unfold readEmergencySignal
  split
  · exact Frame.refl s
  · dsimp only
    repeat' split
    all_goals (constructor <;> rfl)

theorem readEmergencyFallMotion_frame (s : State I) :
    Frame s (readEmergencyFallMotion s) := by
  unfold readEmergencyFallMotion
  split
  · exact Frame.refl s
  · dsimp only
    split <;> (constructor <;> rfl)

theorem readQEmergency_frame (s : State I) : Frame s (readQEmergency s) := by
  unfold readQEmergency
  split <;> (constructor <;> rfl)

theorem inputs_frame (s : State I) : Frame s (inputs s) :=
  (((readReference_frame s).trans (readEmergencySignal_frame _)).trans
    (readEmergencyFallMotion_frame _)).trans (readQEmergency_frame _)

theorem entered {s g : State I} (h : gate (preamble s) = some g) : Entry s g := by
  have a := preamble_entry s
  have b := gate_entry h
  constructor
  · exact a.toFrame.trans b.toFrame
  · exact b.is_stop_mode.trans a.is_stop_mode
  · exact b.is_emergency_fall_motion.trans a.is_emergency_fall_motion
  · exact b.emergency_mode.trans a.emergency_mode
  · exact b.m_stop_posture.trans a.m_stop_posture
  · exact b.m_motion_posture.trans a.m_motion_posture
  · exact b.m_stop_wrenches.trans a.m_stop_wrenches
  · exact b.m_input_posture_queue.trans a.m_input_posture_queue
  · exact b.m_input_wrenches_queue.trans a.m_input_wrenches_queue
  · exact b.m_qEmergency.trans a.m_qEmergency
  · exact b.m_wrenchesRef.trans a.m_wrenchesRef
  · exact b.m_qEmergencyIn.trans a.m_qEmergencyIn
  · exact b.m_emergencySignalIn.trans a.m_emergencySignalIn
  · exact b.m_emergencyFallMotionIn.trans a.m_emergencyFallMotionIn
  · exact b.m_wrenchesIn.trans a.m_wrenchesIn

/-- From the start of a tick to the end of its inputs. -/
theorem tick_frame {s g : State I} (h : gate (preamble s) = some g) : Frame s (inputs g) :=
  (entered h).toFrame.trans (inputs_frame g)

theorem onExecute_of_gate (E : Interpolator I) (C : Consts) {s g : State I}
    (h : gate (preamble s) = some g) :
    onExecute E C s = finish C (blend E (risingEdge E (inputs g))) := by
  simp [onExecute, h]

theorem forLoop_add {σ : Type} (a b : Nat) (body : Nat → σ → σ) (s : σ) :
    forLoop (a + b) body s = forLoop b (fun j => body (a + j)) (forLoop a body s) := by
  induction b with
  | zero => rfl
  | succ b ih => rw [← Nat.add_assoc, forLoop_succ, forLoop_succ, ih]

theorem forLoop_congr {σ : Type} (n : Nat) (f g : Nat → σ → σ)
    (h : ∀ i, i < n → ∀ s, f i s = g i s) (s : σ) : forLoop n f s = forLoop n g s := by
  induction n with
  | zero => rfl
  | succ n ih =>
    rw [forLoop_succ, forLoop_succ, ih (fun i hi => h i (by omega)), h n (by omega)]

/-- Two nested counted loops over `i*m+j` are one loop over `n*m` indices. -/
theorem forLoop_nested {σ : Type} (n m : Nat) (body : Nat → σ → σ) (s : σ) :
    forLoop n (fun i a => forLoop m (fun j a => body (i * m + j) a) a) s =
      forLoop (n * m) body s := by
  induction n with
  | zero => simp [forLoop_zero]
  | succ n ih => rw [forLoop_succ, ih, Nat.succ_mul, forLoop_add]

theorem getWrenchesArrayFromData_eq (data : List (List ℚ)) (array : List ℚ) :
    getWrenchesArrayFromData data array =
      forLoop (data.length * 6)
        (fun k a => a.set k ((data.getD (k / 6) []).getD (k % 6) 0)) array := by
  unfold getWrenchesArrayFromData
  rw [← forLoop_nested]
  apply forLoop_congr
  intro i _ a
  apply forLoop_congr
  intro j hj a
  have h1 : (i * 6 + j) / 6 = i := by omega
  have h2 : (i * 6 + j) % 6 = j := by omega
  rw [h1, h2]

theorem getWrenchesArrayFromData_getElem? (data : List (List ℚ)) (array : List ℚ)
    (i j : Nat) (hi : i < data.length) (hj : j < 6) (hk : i * 6 + j < array.length) :
    (getWrenchesArrayFromData data array)[i * 6 + j]? =
      some ((data.getD i []).getD j 0) := by
  rw [getWrenchesArrayFromData_eq, forLoop_set_getElem?]
  have h1 : (i * 6 + j) / 6 = i := by omega
  have h2 : (i * 6 + j) % 6 = j := by omega
  have h3 : i * 6 + j < data.length * 6 := by
    have : (i + 1) * 6 ≤ data.length * 6 := Nat.mul_le_mul_right 6 hi
    omega
  simp [h1, h2, h3, hk]

theorem getWrenchesArrayFromData_length (data : List (List ℚ)) (array : List ℚ) :
    (getWrenchesArrayFromData data array).length = array.length := by
  rw [getWrenchesArrayFromData_eq, forLoop_set_length]

/-! ### What `finish` leaves alone -/

@[simp] theorem finish_numJoints (C : Consts) (s : State I) :
    (finish C s).numJoints = s.numJoints := by
  unfold finish; dsimp only; split <;> [split; skip] <;> rfl

@[simp] theorem finish_m_dt (C : Consts) (s : State I) :
    (finish C s).m_dt = s.m_dt := by
  unfold finish; dsimp only; split <;> [split; skip] <;> rfl

@[simp] theorem finish_m_qRefIn (C : Consts) (s : State I) :
    (finish C s).m_qRefIn = s.m_qRefIn := by
  unfold finish; dsimp only; split <;> [split; skip] <;> rfl

@[simp] theorem finish_m_qEmergencyIn (C : Consts) (s : State I) :
    (finish C s).m_qEmergencyIn = s.m_qEmergencyIn := by
  unfold finish; dsimp only; split <;> [split; skip] <;> rfl

@[simp] theorem finish_m_emergencySignalIn (C : Consts) (s : State I) :
    (finish C s).m_emergencySignalIn = s.m_emergencySignalIn := by
  unfold finish; dsimp only; split <;> [split; skip] <;> rfl

@[simp] theorem finish_m_emergencyFallMotionIn (C : Consts) (s : State I) :
    (finish C s).m_emergencyFallMotionIn = s.m_emergencyFallMotionIn := by
  unfold finish; dsimp only; split <;> [split; skip] <;> rfl

@[simp] theorem finish_m_servoStateIn (C : Consts) (s : State I) :
    (finish C s).m_servoStateIn = s.m_servoStateIn := by
  unfold finish; dsimp only; split <;> [split; skip] <;> rfl

@[simp] theorem finish_m_wrenchesIn (C : Consts) (s : State I) :
    (finish C s).m_wrenchesIn = s.m_wrenchesIn := by
  unfold finish; dsimp only; split <;> [split; skip] <;> rfl

@[simp] theorem finish_m_qRef (C : Consts) (s : State I) :
    (finish C s).m_qRef = s.m_qRef := by
  unfold finish; dsimp only; split <;> [split; skip] <;> rfl

@[simp] theorem finish_m_qEmergency (C : Consts) (s : State I) :
    (finish C s).m_qEmergency = s.m_qEmergency := by
  unfold finish; dsimp only; split <;> [split; skip] <;> rfl

@[simp] theorem finish_m_emergencySignal (C : Consts) (s : State I) :
    (finish C s).m_emergencySignal = s.m_emergencySignal := by
  unfold finish; dsimp only; split <;> [split; skip] <;> rfl

@[simp] theorem finish_m_emergencyFallMotion (C : Consts) (s : State I) :
    (finish C s).m_emergencyFallMotion = s.m_emergencyFallMotion := by
  unfold finish; dsimp only; split <;> [split; skip] <;> rfl

@[simp] theorem finish_m_servoState (C : Consts) (s : State I) :
    (finish C s).m_servoState = s.m_servoState := by
  unfold finish; dsimp only; split <;> [split; skip] <;> rfl

@[simp] theorem finish_m_wrenchesRef (C : Consts) (s : State I) :
    (finish C s).m_wrenchesRef = s.m_wrenchesRef := by
  unfold finish; dsimp only; split <;> [split; skip] <;> rfl

@[simp] theorem finish_m_q (C : Consts) (s : State I) :
    (finish C s).m_q = s.m_q := by
  unfold finish; dsimp only; split <;> [split; skip] <;> rfl

@[simp] theorem finish_m_qTouchWall (C : Consts) (s : State I) :
    (finish C s).m_qTouchWall = s.m_qTouchWall := by
  unfold finish; dsimp only; split <;> [split; skip] <;> rfl

@[simp] theorem finish_m_wrenches (C : Consts) (s : State I) :
    (finish C s).m_wrenches = s.m_wrenches := by
  unfold finish; dsimp only; split <;> [split; skip] <;> rfl

@[simp] theorem finish_loop (C : Consts) (s : State I) :
    (finish C s).loop = s.loop := by
  unfold finish; dsimp only; split <;> [split; skip] <;> rfl

@[simp] theorem finish_emergency_stopper_beep_freq (C : Consts) (s : State I) :
    (finish C s).emergency_stopper_beep_freq = s.emergency_stopper_beep_freq := by
  unfold finish; dsimp only; split <;> [split; skip] <;> rfl

@[simp] theorem finish_is_stop_mode (C : Consts) (s : State I) :
    (finish C s).is_stop_mode = s.is_stop_mode := by
  unfold finish; dsimp only; split <;> [split; skip] <;> rfl

@[simp] theorem finish_is_emergency_fall_motion (C : Consts) (s : State I) :
    (finish C s).is_emergency_fall_motion = s.is_emergency_fall_motion := by
  unfold finish; dsimp only; split <;> [split; skip] <;> rfl

@[simp] theorem finish_is_initialized (C : Consts) (s : State I) :
    (finish C s).is_initialized = s.is_initialized := by
  unfold finish; dsimp only; split <;> [split; skip] <;> rfl

@[simp] theorem finish_solved (C : Consts) (s : State I) :
    (finish C s).solved = s.solved := by
  unfold finish; dsimp only; split <;> [split; skip] <;> rfl

@[simp] theorem finish_emergency_mode (C : Consts) (s : State I) :
    (finish C s).emergency_mode = s.emergency_mode := by
  unfold finish; dsimp only; split <;> [split; skip] <;> rfl

@[simp] theorem finish_recover_time (C : Consts) (s : State I) :
    (finish C s).recover_time = s.recover_time := by
  unfold finish; dsimp only; split <;> [split; skip] <;> rfl

@[simp] theorem finish_retrieve_time (C : Consts) (s : State I) :
    (finish C s).retrieve_time = s.retrieve_time := by
  unfold finish; dsimp only; split <;> [split; skip] <;> rfl

@[simp] theorem finish_recover_time_dt (C : Consts) (s : State I) :
    (finish C s).recover_time_dt = s.recover_time_dt := by
  unfold finish; dsimp only; split <;> [split; skip] <;> rfl

@[simp] theorem finish_default_recover_time (C : Consts) (s : State I) :
    (finish C s).default_recover_time = s.default_recover_time := by
  unfold finish; dsimp only; split <;> [split; skip] <;> rfl

@[simp] theorem finish_default_retrieve_time (C : Consts) (s : State I) :
    (finish C s).default_retrieve_time = s.default_retrieve_time := by
  unfold finish; dsimp only; split <;> [split; skip] <;> rfl

@[simp] theorem finish_default_retrieve_duration (C : Consts) (s : State I) :
    (finish C s).default_retrieve_duration = s.default_retrieve_duration := by
  unfold finish; dsimp only; split <;> [split; skip] <;> rfl

@[simp] theorem finish_m_stop_posture (C : Consts) (s : State I) :
    (finish C s).m_stop_posture = s.m_stop_posture := by
  unfold finish; dsimp only; split <;> [split; skip] <;> rfl

@[simp] theorem finish_m_motion_posture (C : Consts) (s : State I) :
    (finish C s).m_motion_posture = s.m_motion_posture := by
  unfold finish; dsimp only; split <;> [split; skip] <;> rfl

@[simp] theorem finish_m_stop_wrenches (C : Consts) (s : State I) :
    (finish C s).m_stop_wrenches = s.m_stop_wrenches := by
  unfold finish; dsimp only; split <;> [split; skip] <;> rfl

@[simp] theorem finish_m_tmp_wrenches (C : Consts) (s : State I) :
    (finish C s).m_tmp_wrenches = s.m_tmp_wrenches := by
  unfold finish; dsimp only; split <;> [split; skip] <;> rfl

@[simp] theorem finish_m_interpolator (C : Consts) (s : State I) :
    (finish C s).m_interpolator = s.m_interpolator := by
  unfold finish; dsimp only; split <;> [split; skip] <;> rfl

@[simp] theorem finish_m_wrenches_interpolator (C : Consts) (s : State I) :
    (finish C s).m_wrenches_interpolator = s.m_wrenches_interpolator := by
  unfold finish; dsimp only; split <;> [split; skip] <;> rfl

@[simp] theorem finish_m_input_posture_queue (C : Consts) (s : State I) :
    (finish C s).m_input_posture_queue = s.m_input_posture_queue := by
  unfold finish; dsimp only; split <;> [split; skip] <;> rfl

@[simp] theorem finish_m_input_wrenches_queue (C : Consts) (s : State I) :
    (finish C s).m_input_wrenches_queue = s.m_input_wrenches_queue := by
  unfold finish; dsimp only; split <;> [split; skip] <;> rfl

@[simp] theorem finish_prev_is_stop_mode (C : Consts) (s : State I) :
    (finish C s).prev_is_stop_mode = s.is_stop_mode := by
  unfold finish; dsimp only; split <;> [split; skip] <;> rfl

/-! ### What `risingEdge` leaves alone -/

@[simp] theorem risingEdge_numJoints (E : Interpolator I) (s : State I) :
    (risingEdge E s).numJoints = s.numJoints := by
  unfold risingEdge; split <;> rfl

@[simp] theorem risingEdge_m_dt (E : Interpolator I) (s : State I) :
    (risingEdge E s).m_dt = s.m_dt := by
  unfold risingEdge; split <;> rfl

@[simp] theorem risingEdge_m_qRef (E : Interpolator I) (s : State I) :
    (risingEdge E s).m_qRef = s.m_qRef := by
  unfold risingEdge; split <;> rfl

@[simp] theorem risingEdge_m_qEmergency (E : Interpolator I) (s : State I) :
    (risingEdge E s).m_qEmergency = s.m_qEmergency := by
  unfold risingEdge; split <;> rfl

@[simp] theorem risingEdge_m_wrenchesRef (E : Interpolator I) (s : State I) :
    (risingEdge E s).m_wrenchesRef = s.m_wrenchesRef := by
  unfold risingEdge; split <;> rfl

@[simp] theorem risingEdge_m_q (E : Interpolator I) (s : State I) :
    (risingEdge E s).m_q = s.m_q := by
  unfold risingEdge; split <;> rfl

@[simp] theorem risingEdge_m_qTouchWall (E : Interpolator I) (s : State I) :
    (risingEdge E s).m_qTouchWall = s.m_qTouchWall := by
  unfold risingEdge; split <;> rfl

@[simp] theorem risingEdge_m_wrenches (E : Interpolator I) (s : State I) :
    (risingEdge E s).m_wrenches = s.m_wrenches := by
  unfold risingEdge; split <;> rfl

@[simp] theorem risingEdge_is_stop_mode (E : Interpolator I) (s : State I) :
    (risingEdge E s).is_stop_mode = s.is_stop_mode := by
  unfold risingEdge; split <;> rfl

@[simp] theorem risingEdge_prev_is_stop_mode (E : Interpolator I) (s : State I) :
    (risingEdge E s).prev_is_stop_mode = s.prev_is_stop_mode := by
  unfold risingEdge; split <;> rfl

@[simp] theorem risingEdge_is_emergency_fall_motion (E : Interpolator I) (s : State I) :
    (risingEdge E s).is_emergency_fall_motion = s.is_emergency_fall_motion := by
  unfold risingEdge; split <;> rfl

@[simp] theorem risingEdge_is_initialized (E : Interpolator I) (s : State I) :
    (risingEdge E s).is_initialized = s.is_initialized := by
  unfold risingEdge; split <;> rfl

@[simp] theorem risingEdge_solved (E : Interpolator I) (s : State I) :
    (risingEdge E s).solved = s.solved := by
  unfold risingEdge; split <;> rfl

@[simp] theorem risingEdge_emergency_mode (E : Interpolator I) (s : State I) :
    (risingEdge E s).emergency_mode = s.emergency_mode := by
  unfold risingEdge; split <;> rfl

@[simp] theorem risingEdge_recover_time (E : Interpolator I) (s : State I) :
    (risingEdge E s).recover_time = s.recover_time := by
  unfold risingEdge; split <;> rfl

@[simp] theorem risingEdge_recover_time_dt (E : Interpolator I) (s : State I) :
    (risingEdge E s).recover_time_dt = s.recover_time_dt := by
  unfold risingEdge; split <;> rfl

@[simp] theorem risingEdge_default_recover_time (E : Interpolator I) (s : State I) :
    (risingEdge E s).default_recover_time = s.default_recover_time := by
  unfold risingEdge; split <;> rfl

@[simp] theorem risingEdge_default_retrieve_time (E : Interpolator I) (s : State I) :
    (risingEdge E s).default_retrieve_time = s.default_retrieve_time := by
  unfold risingEdge; split <;> rfl

@[simp] theorem risingEdge_default_retrieve_duration (E : Interpolator I) (s : State I) :
    (risingEdge E s).default_retrieve_duration = s.default_retrieve_duration := by
  unfold risingEdge; split <;> rfl

@[simp] theorem risingEdge_m_stop_posture (E : Interpolator I) (s : State I) :
    (risingEdge E s).m_stop_posture = s.m_stop_posture := by
  unfold risingEdge; split <;> rfl

@[simp] theorem risingEdge_m_motion_posture (E : Interpolator I) (s : State I) :
    (risingEdge E s).m_motion_posture = s.m_motion_posture := by
  unfold risingEdge; split <;> rfl

@[simp] theorem risingEdge_m_stop_wrenches (E : Interpolator I) (s : State I) :
    (risingEdge E s).m_stop_wrenches = s.m_stop_wrenches := by
  unfold risingEdge; split <;> rfl

@[simp] theorem risingEdge_m_input_posture_queue (E : Interpolator I) (s : State I) :
    (risingEdge E s).m_input_posture_queue = s.m_input_posture_queue := by
  unfold risingEdge; split <;> rfl

@[simp] theorem risingEdge_m_input_wrenches_queue (E : Interpolator I) (s : State I) :
    (risingEdge E s).m_input_wrenches_queue = s.m_input_wrenches_queue := by
  unfold risingEdge; split <;> rfl

@[simp] theorem risingEdge_emergency_stopper_beep_count (E : Interpolator I) (s : State I) :
    (risingEdge E s).emergency_stopper_beep_count = s.emergency_stopper_beep_count := by
  unfold risingEdge; split <;> rfl

@[simp] theorem risingEdge_emergency_stopper_beep_freq (E : Interpolator I) (s : State I) :
    (risingEdge E s).emergency_stopper_beep_freq = s.emergency_stopper_beep_freq := by
  unfold risingEdge; split <;> rfl

theorem gate_of_initialized {s : State I} (h : s.is_initialized = true) : gate s = some s := by
  simp [gate, h]

theorem risingEdge_of_edge (E : Interpolator I) {s : State I}
    (hstop : s.is_stop_mode = true) (hprev : s.prev_is_stop_mode = false) :
    risingEdge E s =
      { s with
        retrieve_time := s.default_retrieve_duration
        m_interpolator := E.set s.m_interpolator s.m_q
        m_tmp_wrenches := getWrenchesArrayFromData s.m_wrenches s.m_tmp_wrenches
        m_wrenches_interpolator :=
          E.set s.m_wrenches_interpolator
            (getWrenchesArrayFromData s.m_wrenches s.m_tmp_wrenches) } := by
  simp [risingEdge, hstop, hprev]

theorem risingEdge_of_no_edge (E : Interpolator I) {s : State I}
    (h : ¬ (s.is_stop_mode = true ∧ s.prev_is_stop_mode = false)) : risingEdge E s = s := by
  simp only [risingEdge, h, if_false]

/-- The stop branch of `blend` while the retrieve timer runs. -/
theorem blend_retrieve (E : Interpolator I) {s : State I}
    (hstop : s.is_stop_mode = true) (ht : 0 < s.retrieve_time) :
    blend E s = retrieveStep E { s with recover_time := s.default_recover_time } := by
  simp [blend, hstop, ht]

/-- The stop branch of `blend` once the retrieve timer has run out. -/
theorem blend_hold (E : Interpolator I) {s : State I}
    (hstop : s.is_stop_mode = true) (ht : ¬ 0 < s.retrieve_time) :
    blend E s = { s with recover_time := s.default_recover_time } := by
  simp [blend, hstop, ht]

theorem blend_recover (E : Interpolator I) {s : State I}
    (hstop : s.is_stop_mode = false) (ht : 0 < s.recover_time) :
    blend E s = recoverStep E s := by
  simp [blend, hstop, ht]

theorem blend_passThrough (E : Interpolator I) {s : State I}
    (hstop : s.is_stop_mode = false) (ht : ¬ 0 < s.recover_time) :
    blend E s = passThrough s := by
  simp [blend, hstop, ht]

theorem retrieveStep_retrieve_time (E : Interpolator I) (s : State I) :
    (retrieveStep E s).retrieve_time = toInt ((s.retrieve_time : ℚ) - s.recover_time_dt) := by
  unfold retrieveStep; dsimp only; split <;> rfl

theorem retrieveStep_m_interpolator (E : Interpolator I) (s : State I) :
    (retrieveStep E s).m_interpolator =
      (E.get (E.setGoal s.m_interpolator (retrieveGoal s)
        (toInt ((s.retrieve_time : ℚ) - s.recover_time_dt) : ℚ))).1 := by
  unfold retrieveStep retrieveGoal; dsimp only; split <;> rfl

theorem retrieveStep_m_q (E : Interpolator I) (s : State I) :
    (retrieveStep E s).m_q =
      (E.get (E.setGoal s.m_interpolator (retrieveGoal s)
        (toInt ((s.retrieve_time : ℚ) - s.recover_time_dt) : ℚ))).2 := by
  unfold retrieveStep retrieveGoal; dsimp only; split <;> rfl


/-! ### What `blend` leaves alone -/

@[simp] theorem blend_numJoints (E : Interpolator I) (s : State I) :
    (blend E s).numJoints = s.numJoints := by
  unfold blend recoverStep passThrough retrieveStep; dsimp only
  repeat' split
  all_goals rfl

@[simp] theorem blend_m_dt (E : Interpolator I) (s : State I) :
    (blend E s).m_dt = s.m_dt := by
  unfold blend recoverStep passThrough retrieveStep; dsimp only
  repeat' split
  all_goals rfl

@[simp] theorem blend_m_qRef (E : Interpolator I) (s : State I) :
    (blend E s).m_qRef = s.m_qRef := by
  unfold blend recoverStep passThrough retrieveStep; dsimp only
  repeat' split
  all_goals rfl

@[simp] theorem blend_m_qEmergency (E : Interpolator I) (s : State I) :
    (blend E s).m_qEmergency = s.m_qEmergency := by
  unfold blend recoverStep passThrough retrieveStep; dsimp only
  repeat' split
  all_goals rfl

@[simp] theorem blend_m_wrenchesRef (E : Interpolator I) (s : State I) :
    (blend E s).m_wrenchesRef = s.m_wrenchesRef := by
  unfold blend recoverStep passThrough retrieveStep; dsimp only
  repeat' split
  all_goals rfl

@[simp] theorem blend_m_qTouchWall (E : Interpolator I) (s : State I) :
    (blend E s).m_qTouchWall = s.m_qTouchWall := by
  unfold blend recoverStep passThrough retrieveStep; dsimp only
  repeat' split
  all_goals rfl

@[simp] theorem blend_is_stop_mode (E : Interpolator I) (s : State I) :
    (blend E s).is_stop_mode = s.is_stop_mode := by
  unfold blend recoverStep passThrough retrieveStep; dsimp only
  repeat' split
  all_goals rfl

@[simp] theorem blend_prev_is_stop_mode (E : Interpolator I) (s : State I) :
    (blend E s).prev_is_stop_mode = s.prev_is_stop_mode := by
  unfold blend recoverStep passThrough retrieveStep; dsimp only
  repeat' split
  all_goals rfl

@[simp] theorem blend_is_emergency_fall_motion (E : Interpolator I) (s : State I) :
    (blend E s).is_emergency_fall_motion = s.is_emergency_fall_motion := by
  unfold blend recoverStep passThrough retrieveStep; dsimp only
  repeat' split
  all_goals rfl

@[simp] theorem blend_is_initialized (E : Interpolator I) (s : State I) :
    (blend E s).is_initialized = s.is_initialized := by
  unfold blend recoverStep passThrough retrieveStep; dsimp only
  repeat' split
  all_goals rfl

@[simp] theorem blend_solved (E : Interpolator I) (s : State I) :
    (blend E s).solved = s.solved := by
  unfold blend recoverStep passThrough retrieveStep; dsimp only
  repeat' split
  all_goals rfl

@[simp] theorem blend_emergency_mode (E : Interpolator I) (s : State I) :
    (blend E s).emergency_mode = s.emergency_mode := by
  unfold blend recoverStep passThrough retrieveStep; dsimp only
  repeat' split
  all_goals rfl

@[simp] theorem blend_recover_time_dt (E : Interpolator I) (s : State I) :
    (blend E s).recover_time_dt = s.recover_time_dt := by
  unfold blend recoverStep passThrough retrieveStep; dsimp only
  repeat' split
  all_goals rfl

@[simp] theorem blend_default_recover_time (E : Interpolator I) (s : State I) :
    (blend E s).default_recover_time = s.default_recover_time := by
  unfold blend recoverStep passThrough retrieveStep; dsimp only
  repeat' split
  all_goals rfl

@[simp] theorem blend_default_retrieve_time (E : Interpolator I) (s : State I) :
    (blend E s).default_retrieve_time = s.default_retrieve_time := by
  unfold blend recoverStep passThrough retrieveStep; dsimp only
  repeat' split
  all_goals rfl

@[simp] theorem blend_default_retrieve_duration (E : Interpolator I) (s : State I) :
    (blend E s).default_retrieve_duration = s.default_retrieve_duration := by
  unfold blend recoverStep passThrough retrieveStep; dsimp only
  repeat' split
  all_goals rfl

@[simp] theorem blend_m_stop_posture (E : Interpolator I) (s : State I) :
    (blend E s).m_stop_posture = s.m_stop_posture := by
  unfold blend recoverStep passThrough retrieveStep; dsimp only
  repeat' split
  all_goals rfl

@[simp] theorem blend_m_motion_posture (E : Interpolator I) (s : State I) :
    (blend E s).m_motion_posture = s.m_motion_posture := by
  unfold blend recoverStep passThrough retrieveStep; dsimp only
  repeat' split
  all_goals rfl

@[simp] theorem blend_m_stop_wrenches (E : Interpolator I) (s : State I) :
    (blend E s).m_stop_wrenches = s.m_stop_wrenches := by
  unfold blend recoverStep passThrough retrieveStep; dsimp only
  repeat' split
  all_goals rfl

@[simp] theorem blend_m_input_posture_queue (E : Interpolator I) (s : State I) :
    (blend E s).m_input_posture_queue = s.m_input_posture_queue := by
  unfold blend recoverStep passThrough retrieveStep; dsimp only
  repeat' split
  all_goals rfl

@[simp] theorem blend_m_input_wrenches_queue (E : Interpolator I) (s : State I) :
    (blend E s).m_input_wrenches_queue = s.m_input_wrenches_queue := by
  unfold blend recoverStep passThrough retrieveStep; dsimp only
  repeat' split
  all_goals rfl

@[simp] theorem blend_emergency_stopper_beep_count (E : Interpolator I) (s : State I) :
    (blend E s).emergency_stopper_beep_count = s.emergency_stopper_beep_count := by
  unfold blend recoverStep passThrough retrieveStep; dsimp only
  repeat' split
  all_goals rfl

@[simp] theorem blend_emergency_stopper_beep_freq (E : Interpolator I) (s : State I) :
    (blend E s).emergency_stopper_beep_freq = s.emergency_stopper_beep_freq := by
  unfold blend recoverStep passThrough retrieveStep; dsimp only
  repeat' split
  all_goals rfl

theorem toInt_intCast (n : Int) : toInt (n : ℚ) = n := by
  simp [toInt]

theorem toInt_sub_one (n : Int) : toInt ((n : ℚ) - 1) = n - 1 := by
  have h : ((n : ℚ) - 1) = ((n - 1 : Int) : ℚ) := by push_cast; ring
  rw [h, toInt_intCast]

theorem gate_is_initialized {s g : State I} (h : gate s = some g) : g.is_initialized = true := by
  unfold gate at h
  split at h
  · split at h
    · cases h
    · cases h; rfl
  · rename_i h0
    cases h
    simpa using h0

theorem readReference_is_initialized (s : State I) :
    (readReference s).is_initialized = s.is_initialized := by
  unfold readReference
  split
  · rfl
  · dsimp only
    split <;> split <;> rfl

theorem readEmergencySignal_is_initialized (s : State I) :
    (readEmergencySignal s).is_initialized = s.is_initialized := by
  unfold readEmergencySignal
  split
  · rfl
  · dsimp only
    repeat' split
    all_goals rfl

theorem readEmergencyFallMotion_is_initialized (s : State I) :
    (readEmergencyFallMotion s).is_initialized = s.is_initialized := by
  unfold readEmergencyFallMotion
  split
  · rfl
  · dsimp only
    split <;> rfl

theorem readQEmergency_is_initialized (s : State I) :
    (readQEmergency s).is_initialized = s.is_initialized := by
  unfold readQEmergency
  split <;> rfl

theorem inputs_is_initialized (s : State I) : (inputs s).is_initialized = s.is_initialized := by
  unfold inputs
  rw [readQEmergency_is_initialized, readEmergencyFallMotion_is_initialized,
    readEmergencySignal_is_initialized, readReference_is_initialized]

/-- A tick that passes the gate leaves the component initialised. -/
theorem onExecute_is_initialized (E : Interpolator I) (C : Consts) {s g : State I}
    (hg : gate (preamble s) = some g) : (onExecute E C s).is_initialized = true := by
  rw [onExecute_of_gate E C hg]
  simp [inputs_is_initialized, gate_is_initialized hg]

/-- A tick in stop mode leaves `recover_time` at `default_recover_time`. -/
theorem blend_stop_recover_time (E : Interpolator I) {s : State I}
    (hstop : s.is_stop_mode = true) : (blend E s).recover_time = s.default_recover_time := by
  unfold blend retrieveStep; dsimp only
  simp only [hstop]
  repeat' split
  all_goals first | rfl | contradiction

theorem recoverStep_recover_time (E : Interpolator I) (s : State I) :
    (recoverStep E s).recover_time = toInt ((s.recover_time : ℚ) - s.recover_time_dt) := rfl

theorem passThrough_recover_time (s : State I) :
    (passThrough s).recover_time = s.recover_time := rfl

theorem preamble_is_initialized (s : State I) :
    (preamble s).is_initialized = s.is_initialized := by
  unfold preamble; dsimp only; split <;> rfl

theorem between_recover_time (command : Bool) (a : Arrival) (s : State I) :
    (between command a s).recover_time = s.recover_time := by
  cases command <;> rfl

theorem between_default_recover_time (command : Bool) (a : Arrival) (s : State I) :
    (between command a s).default_recover_time = s.default_recover_time := by
  cases command <;> rfl

theorem between_recover_time_dt (command : Bool) (a : Arrival) (s : State I) :
    (between command a s).recover_time_dt = s.recover_time_dt := by
  cases command <;> rfl

theorem between_is_initialized (command : Bool) (a : Arrival) (s : State I) :
    (between command a s).is_initialized = s.is_initialized := by
  cases command <;> rfl

/-- A tick that runs in stop mode leaves `recover_time` at `default_recover_time`. -/
theorem onExecute_stop_recover_time (E : Interpolator I) (C : Consts) {s g : State I}
    (hg : gate (preamble s) = some g) (hstop : (inputs g).is_stop_mode = true) :
    (onExecute E C s).recover_time = s.default_recover_time := by
  rw [onExecute_of_gate E C hg, finish_recover_time,
    blend_stop_recover_time E (by rw [risingEdge_is_stop_mode, hstop]),
    risingEdge_default_recover_time, (tick_frame hg).default_recover_time]

theorem onExecute_default_recover_time (E : Interpolator I) (C : Consts) {s g : State I}
    (hg : gate (preamble s) = some g) :
    (onExecute E C s).default_recover_time = s.default_recover_time := by
  rw [onExecute_of_gate E C hg]
  simp [(tick_frame hg).default_recover_time]

theorem onExecute_recover_time_dt (E : Interpolator I) (C : Consts) {s g : State I}
    (hg : gate (preamble s) = some g) :
    (onExecute E C s).recover_time_dt = s.recover_time_dt := by
  rw [onExecute_of_gate E C hg]
  simp [(tick_frame hg).recover_time_dt]

theorem forLoop_update_length {α : Type} (G : Nat → List α → α) (n : Nat) (l : List α) :
    (forLoop n (fun i a => a.set i (G i a)) l).length = l.length := by
  induction n with
  | zero => rfl
  | succ n ih => rw [forLoop_succ, List.length_set, ih]

/-- A loop that rewrites cell `i` from the old value of cell `i` on pass `i`. -/
theorem forLoop_update_getElem? {α : Type} (G : Nat → α → α) (d : α) (n : Nat) (l : List α)
    (k : Nat) :
    (forLoop n (fun i a => a.set i (G i (a.getD i d))) l)[k]? =
      if k < n ∧ k < l.length then some (G k (l.getD k d)) else l[k]? := by
  induction n with
  | zero => simp [forLoop_zero]
  | succ n ih =>
    have hlen := forLoop_update_length (fun i a => G i (a.getD i d)) n l
    rw [forLoop_succ, List.getElem?_set, hlen]
    by_cases hk : n = k
    · subst hk
      have hn : (forLoop n (fun i a => a.set i (G i (a.getD i d))) l).getD n d = l.getD n d := by
        rw [List.getD_eq_getElem?_getD, ih]
        simp [List.getD_eq_getElem?_getD]
      by_cases hl : n < l.length
      · rw [if_pos rfl, if_pos hl, hn, if_pos ⟨Nat.lt_succ_self n, hl⟩]
      · simp [hl]
        omega
    · simp only [hk, if_false, ih]
      by_cases h1 : k < n
      · have : k < n + 1 := by omega
        simp [h1, this]
      · have : ¬ k < n + 1 := by omega
        simp [h1, this]

theorem set_getD_self {α : Type} (w : List α) (i : Nat) (d : α) : w.set i (w.getD i d) = w := by
  apply List.ext_getElem?
  intro k
  rw [List.getElem?_set]
  by_cases hk : i = k
  · subst hk
    by_cases hl : i < w.length
    · simp [hl, List.getD_eq_getElem?_getD]
    · simp [hl]
      omega
  · simp [hk]

/-- The inner loop over the six components of sensor `i` rewrites row `i` only. -/
theorem forLoop_row (g : Nat → ℚ) (i m : Nat) (w : List (List ℚ)) :
    forLoop m (fun j w => w.set i ((w.getD i []).set j (g j))) w =
      w.set i (forLoop m (fun j r => r.set j (g j)) (w.getD i [])) := by
  induction m with
  | zero => rw [forLoop_zero, forLoop_zero, set_getD_self]
  | succ m ih =>
    rw [forLoop_succ, forLoop_succ, ih]
    by_cases hl : i < w.length
    · have : (w.set i (forLoop m (fun j r => r.set j (g j)) (w.getD i []))).getD i [] =
          forLoop m (fun j r => r.set j (g j)) (w.getD i []) := by
        simp [List.getD_eq_getElem?_getD, hl]
      rw [this, List.set_set]
    · have hno : ∀ x : List ℚ, w.set i x = w := by
        intro x
        apply List.ext_getElem?
        intro k
        rw [List.getElem?_set]
        by_cases hk : i = k
        · subst hk
          simp [hl]
          omega
        · simp [hk]
      rw [hno, hno, hno]

/-- The wrench loop of `passThrough`, entry by entry. -/
theorem passThrough_wrench_entry (ref w : List (List ℚ)) (i j : Nat)
    (hi : i < w.length) (hj : j < 6) (hr : j < (w.getD i []).length) :
    ((forLoop w.length
      (fun i w => forLoop 6
        (fun j w => w.set i ((w.getD i []).set j ((ref.getD i []).getD j 0))) w)
      w).getD i [])[j]? = some ((ref.getD i []).getD j 0) := by
  have h1 : (fun i (w : List (List ℚ)) => forLoop 6
        (fun j w => w.set i ((w.getD i []).set j ((ref.getD i []).getD j 0))) w) =
      (fun i w => w.set i
        ((fun i r => forLoop 6 (fun j r => r.set j ((ref.getD i []).getD j 0)) r) i
          (w.getD i []))) := by
    funext i w
    exact forLoop_row (fun j => (ref.getD i []).getD j 0) i 6 w
  rw [h1]
  have h2 := forLoop_update_getElem?
    (fun i r => forLoop 6 (fun j r => r.set j ((ref.getD i []).getD j 0)) r) [] w.length w i
  rw [List.getD_eq_getElem?_getD, h2]
  simp only [hi, and_self, if_true, Option.getD_some]
  rw [forLoop_set_getElem?, if_pos ⟨hj, hr⟩]

theorem passThrough_m_q_entry (s : State I) (i : Nat) (hi : i < s.m_q.length) :
    (passThrough s).m_q[i]? = some (s.m_qRef.getD i 0) := by
  unfold passThrough
  dsimp only
  rw [forLoop_set_getElem?]
  simp [hi]

theorem passThrough_m_q_length (s : State I) : (passThrough s).m_q.length = s.m_q.length := by
  unfold passThrough
  dsimp only
  rw [forLoop_set_length]

theorem passThrough_m_wrenches_entry (s : State I) (i j : Nat)
    (hi : i < s.m_wrenches.length) (hj : j < 6) (hr : j < (s.m_wrenches.getD i []).length) :
    ((passThrough s).m_wrenches.getD i [])[j]? = some ((s.m_wrenchesRef.getD i []).getD j 0) := by
  unfold passThrough
  dsimp only
  exact passThrough_wrench_entry s.m_wrenchesRef s.m_wrenches i j hi hj hr

/-- A tick that is not stopped and has no release ramp left is the copy of the reference. -/
theorem onExecute_normal (E : Interpolator I) (C : Consts) {s g : State I}
    (hg : gate (preamble s) = some g) (hrun : (inputs g).is_stop_mode = false)
    (hrt : ¬ 0 < s.recover_time) :
    onExecute E C s = finish C (passThrough (inputs g)) := by
  rw [onExecute_of_gate E C hg,
    risingEdge_of_no_edge E (by rw [hrun]; simp),
    blend_passThrough E hrun (by rw [(tick_frame hg).recover_time]; exact hrt)]

/-! ### What the trigger ports leave alone -/

@[simp] theorem readEmergencySignal_m_stop_posture (s : State I) :
    (readEmergencySignal s).m_stop_posture = s.m_stop_posture := by
  unfold readEmergencySignal
  split
  · rfl
  · dsimp only
    repeat' split
    all_goals rfl

@[simp] theorem readEmergencyFallMotion_m_stop_posture (s : State I) :
    (readEmergencyFallMotion s).m_stop_posture = s.m_stop_posture := by
  unfold readEmergencyFallMotion
  split
  · rfl
  · dsimp only
    split <;> rfl

@[simp] theorem readQEmergency_m_stop_posture (s : State I) :
    (readQEmergency s).m_stop_posture = s.m_stop_posture := by
  unfold readQEmergency
  split <;> rfl

theorem inputs_m_stop_posture (s : State I) :
    (inputs s).m_stop_posture = (readReference s).m_stop_posture := by
  simp [inputs]

@[simp] theorem readEmergencySignal_m_motion_posture (s : State I) :
    (readEmergencySignal s).m_motion_posture = s.m_motion_posture := by
  unfold readEmergencySignal
  split
  · rfl
  · dsimp only
    repeat' split
    all_goals rfl

@[simp] theorem readEmergencyFallMotion_m_motion_posture (s : State I) :
    (readEmergencyFallMotion s).m_motion_posture = s.m_motion_posture := by
  unfold readEmergencyFallMotion
  split
  · rfl
  · dsimp only
    split <;> rfl

@[simp] theorem readQEmergency_m_motion_posture (s : State I) :
    (readQEmergency s).m_motion_posture = s.m_motion_posture := by
  unfold readQEmergency
  split <;> rfl

theorem inputs_m_motion_posture (s : State I) :
    (inputs s).m_motion_posture = (readReference s).m_motion_posture := by
  simp [inputs]

@[simp] theorem readEmergencySignal_m_stop_wrenches (s : State I) :
    (readEmergencySignal s).m_stop_wrenches = s.m_stop_wrenches := by
  unfold readEmergencySignal
  split
  · rfl
  · dsimp only
    repeat' split
    all_goals rfl

@[simp] theorem readEmergencyFallMotion_m_stop_wrenches (s : State I) :
    (readEmergencyFallMotion s).m_stop_wrenches = s.m_stop_wrenches := by
  unfold readEmergencyFallMotion
  split
  · rfl
  · dsimp only
    split <;> rfl

@[simp] theorem readQEmergency_m_stop_wrenches (s : State I) :
    (readQEmergency s).m_stop_wrenches = s.m_stop_wrenches := by
  unfold readQEmergency
  split <;> rfl

theorem inputs_m_stop_wrenches (s : State I) :
    (inputs s).m_stop_wrenches = (readReference s).m_stop_wrenches := by
  simp [inputs]

@[simp] theorem readEmergencySignal_m_qRef (s : State I) :
    (readEmergencySignal s).m_qRef = s.m_qRef := by
  unfold readEmergencySignal
  split
  · rfl
  · dsimp only
    repeat' split
    all_goals rfl

@[simp] theorem readEmergencyFallMotion_m_qRef (s : State I) :
    (readEmergencyFallMotion s).m_qRef = s.m_qRef := by
  unfold readEmergencyFallMotion
  split
  · rfl
  · dsimp only
    split <;> rfl

@[simp] theorem readQEmergency_m_qRef (s : State I) :
    (readQEmergency s).m_qRef = s.m_qRef := by
  unfold readQEmergency
  split <;> rfl

theorem inputs_m_qRef (s : State I) :
    (inputs s).m_qRef = (readReference s).m_qRef := by
  simp [inputs]

@[simp] theorem readEmergencySignal_m_wrenchesRef (s : State I) :
    (readEmergencySignal s).m_wrenchesRef = s.m_wrenchesRef := by
  unfold readEmergencySignal
  split
  · rfl
  · dsimp only
    repeat' split
    all_goals rfl

@[simp] theorem readEmergencyFallMotion_m_wrenchesRef (s : State I) :
    (readEmergencyFallMotion s).m_wrenchesRef = s.m_wrenchesRef := by
  unfold readEmergencyFallMotion
  split
  · rfl
  · dsimp only
    split <;> rfl

@[simp] theorem readQEmergency_m_wrenchesRef (s : State I) :
    (readQEmergency s).m_wrenchesRef = s.m_wrenchesRef := by
  unfold readQEmergency
  split <;> rfl

theorem inputs_m_wrenchesRef (s : State I) :
    (inputs s).m_wrenchesRef = (readReference s).m_wrenchesRef := by
  simp [inputs]

@[simp] theorem readEmergencySignal_m_input_posture_queue (s : State I) :
    (readEmergencySignal s).m_input_posture_queue = s.m_input_posture_queue := by
  unfold readEmergencySignal
  split
  · rfl
  · dsimp only
    repeat' split
    all_goals rfl

@[simp] theorem readEmergencyFallMotion_m_input_posture_queue (s : State I) :
    (readEmergencyFallMotion s).m_input_posture_queue = s.m_input_posture_queue := by
  unfold readEmergencyFallMotion
  split
  · rfl
  · dsimp only
    split <;> rfl

@[simp] theorem readQEmergency_m_input_posture_queue (s : State I) :
    (readQEmergency s).m_input_posture_queue = s.m_input_posture_queue := by
  unfold readQEmergency
  split <;> rfl

theorem inputs_m_input_posture_queue (s : State I) :
    (inputs s).m_input_posture_queue = (readReference s).m_input_posture_queue := by
  simp [inputs]

@[simp] theorem readEmergencySignal_m_input_wrenches_queue (s : State I) :
    (readEmergencySignal s).m_input_wrenches_queue = s.m_input_wrenches_queue := by
  unfold readEmergencySignal
  split
  · rfl
  · dsimp only
    repeat' split
    all_goals rfl

@[simp] theorem readEmergencyFallMotion_m_input_wrenches_queue (s : State I) :
    (readEmergencyFallMotion s).m_input_wrenches_queue = s.m_input_wrenches_queue := by
  unfold readEmergencyFallMotion
  split
  · rfl
  · dsimp only
    split <;> rfl

@[simp] theorem readQEmergency_m_input_wrenches_queue (s : State I) :
    (readQEmergency s).m_input_wrenches_queue = s.m_input_wrenches_queue := by
  unfold readQEmergency
  split <;> rfl

theorem inputs_m_input_wrenches_queue (s : State I) :
    (inputs s).m_input_wrenches_queue = (readReference s).m_input_wrenches_queue := by
  simp [inputs]

/-- In stop mode, reading the reference leaves the stop baselines alone. -/
theorem readReference_stop_baseline (s : State I) (h : s.is_stop_mode = true) :
    (readReference s).m_stop_posture = s.m_stop_posture ∧
    (readReference s).m_stop_wrenches = s.m_stop_wrenches := by
  unfold readReference
  split
  · exact ⟨rfl, rfl⟩
  · simp [h, readWrenchPorts]

theorem readReference_nothing_new (s : State I) (h : s.m_qRefIn = []) : readReference s = s := by
  unfold readReference
  rw [h]

theorem readReference_m_motion_posture (s : State I) (q : List ℚ) (rest : List (List ℚ))
    (hstop : s.is_stop_mode = true) (h : s.m_qRefIn = q :: rest) :
    (readReference s).m_motion_posture =
      forLoop q.length
        (fun i mp => mp.set i
          (if s.solved = false then
            if tmpq.length = q.length then tmpq.getD i 0 else s.m_q.getD i 0
          else s.m_qEmergency.getD i 0))
        s.m_motion_posture := by
  unfold readReference
  rw [h]
  simp only [hstop, readWrenchPorts]
  simp only [Bool.true_eq_false, if_false]
  unfold motionPostureLoop
  dsimp only
  apply forLoop_congr
  intro i _ mp
  simp only [Bool.true_eq_false, and_false, if_false]
  repeat' split
  all_goals rfl
@[simp] theorem risingEdge_m_qRefIn (E : Interpolator I) (s : State I) :
    (risingEdge E s).m_qRefIn = s.m_qRefIn := by
  unfold risingEdge; split <;> rfl

@[simp] theorem blend_m_qRefIn (E : Interpolator I) (s : State I) :
    (blend E s).m_qRefIn = s.m_qRefIn := by
  unfold blend recoverStep passThrough retrieveStep; dsimp only
  repeat' split
  all_goals rfl

@[simp] theorem risingEdge_m_qEmergencyIn (E : Interpolator I) (s : State I) :
    (risingEdge E s).m_qEmergencyIn = s.m_qEmergencyIn := by
  unfold risingEdge; split <;> rfl

@[simp] theorem blend_m_qEmergencyIn (E : Interpolator I) (s : State I) :
    (blend E s).m_qEmergencyIn = s.m_qEmergencyIn := by
  unfold blend recoverStep passThrough retrieveStep; dsimp only
  repeat' split
  all_goals rfl

@[simp] theorem risingEdge_m_emergencySignalIn (E : Interpolator I) (s : State I) :
    (risingEdge E s).m_emergencySignalIn = s.m_emergencySignalIn := by
  unfold risingEdge; split <;> rfl

@[simp] theorem blend_m_emergencySignalIn (E : Interpolator I) (s : State I) :
    (blend E s).m_emergencySignalIn = s.m_emergencySignalIn := by
  unfold blend recoverStep passThrough retrieveStep; dsimp only
  repeat' split
  all_goals rfl

@[simp] theorem risingEdge_m_emergencyFallMotionIn (E : Interpolator I) (s : State I) :
    (risingEdge E s).m_emergencyFallMotionIn = s.m_emergencyFallMotionIn := by
  unfold risingEdge; split <;> rfl

@[simp] theorem blend_m_emergencyFallMotionIn (E : Interpolator I) (s : State I) :
    (blend E s).m_emergencyFallMotionIn = s.m_emergencyFallMotionIn := by
  unfold blend recoverStep passThrough retrieveStep; dsimp only
  repeat' split
  all_goals rfl

@[simp] theorem risingEdge_m_servoStateIn (E : Interpolator I) (s : State I) :
    (risingEdge E s).m_servoStateIn = s.m_servoStateIn := by
  unfold risingEdge; split <;> rfl

@[simp] theorem blend_m_servoStateIn (E : Interpolator I) (s : State I) :
    (blend E s).m_servoStateIn = s.m_servoStateIn := by
  unfold blend recoverStep passThrough retrieveStep; dsimp only
  repeat' split
  all_goals rfl

@[simp] theorem risingEdge_m_wrenchesIn (E : Interpolator I) (s : State I) :
    (risingEdge E s).m_wrenchesIn = s.m_wrenchesIn := by
  unfold risingEdge; split <;> rfl

@[simp] theorem blend_m_wrenchesIn (E : Interpolator I) (s : State I) :
    (blend E s).m_wrenchesIn = s.m_wrenchesIn := by
  unfold blend recoverStep passThrough retrieveStep; dsimp only
  repeat' split
  all_goals rfl

theorem trimQueue_one {α : Type} (l : List α) (q : α) : trimQueue 1 (l ++ [q]) = [q] := by
  induction l with
  | nil => simp [trimQueue]
  | cons x xs ih =>
    have h : ((x :: (xs ++ [q])).length : Int) > 1 := by
      simp only [List.length_cons, List.length_append, List.length_nil]
      omega
    show trimQueue 1 (x :: (xs ++ [q])) = [q]
    rw [trimQueue, if_pos h, ih]

/-- Outside stop mode and with no release ramp left, a new reference posture refreshes
`m_stop_posture` from the front of the trimmed history queue. -/
theorem readReference_m_stop_posture (s : State I) (q : List ℚ) (rest : List (List ℚ))
    (hrun : s.is_stop_mode = false) (hrt : ¬ 0 < s.recover_time) (h : s.m_qRefIn = q :: rest) :
    (readReference s).m_stop_posture =
      forLoop q.length
        (fun i sp => sp.set i
          (((trimQueue s.default_retrieve_time (s.m_input_posture_queue ++ [q])).headD
            []).getD i 0))
        s.m_stop_posture := by
  unfold readReference
  rw [h]
  simp only [hrun, readWrenchPorts]
  simp only [if_true]
  unfold stopPostureLoop
  dsimp only
  apply forLoop_congr
  intro i _ sp
  rw [if_neg hrt]

theorem readReference_m_qRef (s : State I) (q : List ℚ) (rest : List (List ℚ))
    (h : s.m_qRefIn = q :: rest) : (readReference s).m_qRef = q := by
  unfold readReference
  rw [h]
  dsimp only
  split <;> split <;> rfl

theorem readReference_is_stop_mode (s : State I) :
    (readReference s).is_stop_mode = s.is_stop_mode := by
  unfold readReference
  split
  · rfl
  · dsimp only
    split <;> split <;> rfl

theorem readReference_m_emergencySignalIn (s : State I) :
    (readReference s).m_emergencySignalIn = s.m_emergencySignalIn := by
  unfold readReference
  split
  · rfl
  · dsimp only
    split <;> split <;> rfl

theorem readReference_m_emergencyFallMotionIn (s : State I) :
    (readReference s).m_emergencyFallMotionIn = s.m_emergencyFallMotionIn := by
  unfold readReference
  split
  · rfl
  · dsimp only
    split <;> split <;> rfl

theorem readReference_is_emergency_fall_motion (s : State I) :
    (readReference s).is_emergency_fall_motion = s.is_emergency_fall_motion := by
  unfold readReference
  split
  · rfl
  · dsimp only
    split <;> split <;> rfl

theorem readEmergencySignal_nothing_new (s : State I) (h : s.m_emergencySignalIn = []) :
    readEmergencySignal s = s := by
  unfold readEmergencySignal
  rw [h]

theorem readEmergencyFallMotion_nothing_new (s : State I)
    (h : s.m_emergencyFallMotionIn = []) : readEmergencyFallMotion s = s := by
  unfold readEmergencyFallMotion
  rw [h]

theorem readQEmergency_is_stop_mode (s : State I) :
    (readQEmergency s).is_stop_mode = s.is_stop_mode := by
  unfold readQEmergency; split <;> rfl

theorem readQEmergency_is_emergency_fall_motion (s : State I) :
    (readQEmergency s).is_emergency_fall_motion = s.is_emergency_fall_motion := by
  unfold readQEmergency; split <;> rfl

theorem readQEmergency_m_emergencySignalIn (s : State I) :
    (readQEmergency s).m_emergencySignalIn = s.m_emergencySignalIn := by
  unfold readQEmergency; split <;> rfl

theorem readQEmergency_m_emergencyFallMotionIn (s : State I) :
    (readQEmergency s).m_emergencyFallMotionIn = s.m_emergencyFallMotionIn := by
  unfold readQEmergency; split <;> rfl

/-- With nothing on the two trigger ports the inputs leave the mode alone. -/
theorem inputs_quiet (s : State I) (hsig : s.m_emergencySignalIn = [])
    (hfall : s.m_emergencyFallMotionIn = []) :
    (inputs s).is_stop_mode = s.is_stop_mode ∧
    (inputs s).is_emergency_fall_motion = s.is_emergency_fall_motion ∧
    (inputs s).m_emergencySignalIn = [] ∧
    (inputs s).m_emergencyFallMotionIn = [] := by
  unfold inputs
  rw [readEmergencySignal_nothing_new _ (by rw [readReference_m_emergencySignalIn, hsig]),
    readEmergencyFallMotion_nothing_new _ (by rw [readReference_m_emergencyFallMotionIn, hfall]),
    readQEmergency_is_stop_mode, readQEmergency_is_emergency_fall_motion,
    readQEmergency_m_emergencySignalIn, readQEmergency_m_emergencyFallMotionIn,
    readReference_is_stop_mode, readReference_is_emergency_fall_motion,
    readReference_m_emergencySignalIn, readReference_m_emergencyFallMotionIn]
  exact ⟨rfl, rfl, hsig, hfall⟩

/-- The signal 1 alone on the trigger ports of a robot that is not stopped. -/
theorem inputs_signal_one (s : State I) (hrun : s.is_stop_mode = false)
    (hsig : s.m_emergencySignalIn = [1]) (hfall : s.m_emergencyFallMotionIn = []) :
    (inputs s).is_stop_mode = true ∧
    (inputs s).is_emergency_fall_motion = s.is_emergency_fall_motion ∧
    (inputs s).m_emergencySignalIn = [] ∧
    (inputs s).m_emergencyFallMotionIn = [] := by
  have h1 : readEmergencySignal (readReference s) =
      { readReference s with m_emergencySignal := 1, m_emergencySignalIn := [],
                             emergency_mode := 1, is_stop_mode := true } := by
    unfold readEmergencySignal
    rw [readReference_m_emergencySignalIn, hsig]
    simp [readReference_is_stop_mode, hrun]
  unfold inputs
  rw [h1, readEmergencyFallMotion_nothing_new _
      (by show (readReference s).m_emergencyFallMotionIn = []
          rw [readReference_m_emergencyFallMotionIn, hfall]),
    readQEmergency_is_stop_mode, readQEmergency_is_emergency_fall_motion,
    readQEmergency_m_emergencySignalIn, readQEmergency_m_emergencyFallMotionIn]
  refine ⟨rfl, ?_, rfl, ?_⟩
  · show (readReference s).is_emergency_fall_motion = _
    rw [readReference_is_emergency_fall_motion]
  · show (readReference s).m_emergencyFallMotionIn = _
    rw [readReference_m_emergencyFallMotionIn, hfall]

/-- A tick that begins in stop mode leaves the stop baselines alone. -/
theorem onExecute_stop_baseline (E : Interpolator I) (C : Consts) (s : State I)
    (h : s.is_stop_mode = true) :
    (onExecute E C s).m_stop_posture = s.m_stop_posture ∧
    (onExecute E C s).m_stop_wrenches = s.m_stop_wrenches := by
  cases hg : gate (preamble s) with
  | none =>
    simp only [onExecute, hg]
    exact ⟨(preamble_entry s).m_stop_posture, (preamble_entry s).m_stop_wrenches⟩
  | some g =>
    have e := entered hg
    have hb := readReference_stop_baseline g (by rw [e.is_stop_mode, h])
    rw [onExecute_of_gate E C hg]
    simp [inputs_m_stop_posture, inputs_m_stop_wrenches, hb.1, hb.2, e.m_stop_posture,
      e.m_stop_wrenches]

/-- A tick of a stopped robot with nothing on the trigger ports stays stopped. -/
theorem onExecute_stopped_quiet (E : Interpolator I) (C : Consts) (s : State I)
    (h : s.is_stop_mode = true) (hsig : s.m_emergencySignalIn = [])
    (hfall : s.m_emergencyFallMotionIn = []) :
    (onExecute E C s).is_stop_mode = true ∧
    (onExecute E C s).m_emergencySignalIn = [] ∧
    (onExecute E C s).m_emergencyFallMotionIn = [] := by
  cases hg : gate (preamble s) with
  | none =>
    simp only [onExecute, hg]
    have e := preamble_entry s
    exact ⟨e.is_stop_mode.trans h, e.m_emergencySignalIn.trans hsig,
      e.m_emergencyFallMotionIn.trans hfall⟩
  | some g =>
    have e := entered hg
    have hq := inputs_quiet g (e.m_emergencySignalIn.trans hsig)
      (e.m_emergencyFallMotionIn.trans hfall)
    rw [onExecute_of_gate E C hg]
    simp [hq.1, hq.2.2.1, hq.2.2.2, e.is_stop_mode, h]

/-- A stopped robot stays stopped, with its stop posture, as long as nothing arrives on
the trigger ports. -/
theorem run_stopped_quiet (E : Interpolator I) (C : Consts) (arrivals : List Arrival) :
    ∀ s : State I, (∀ a ∈ arrivals, a.quiet) → s.is_stop_mode = true →
      s.m_emergencySignalIn = [] → s.m_emergencyFallMotionIn = [] →
      (run E C arrivals s).is_stop_mode = true ∧
      (run E C arrivals s).m_stop_posture = s.m_stop_posture := by
  induction arrivals with
  | nil => intro s _ h _ _; exact ⟨h, rfl⟩
  | cons a rest ih =>
    intro s hq h hsig hfall
    have ha : a.quiet := hq a (List.mem_cons_self a rest)
    have h1 : (arrive a s).is_stop_mode = true := h
    have h2 : (arrive a s).m_emergencySignalIn = [] := by
      show s.m_emergencySignalIn ++ a.emergencySignal = []
      rw [hsig, ha.1]; rfl
    have h3 : (arrive a s).m_emergencyFallMotionIn = [] := by
      show s.m_emergencyFallMotionIn ++ a.emergencyFallMotion = []
      rw [hfall, ha.2]; rfl
    have hs := onExecute_stopped_quiet E C (arrive a s) h1 h2 h3
    have hb := onExecute_stop_baseline E C (arrive a s) h1
    have hr := ih (onExecute E C (arrive a s))
      (fun b hb => hq b (List.mem_cons_of_mem a hb)) hs.1 hs.2.1 hs.2.2
    show (run E C rest (onExecute E C (arrive a s))).is_stop_mode = true ∧
      (run E C rest (onExecute E C (arrive a s))).m_stop_posture = s.m_stop_posture
    exact ⟨hr.1, hr.2.trans hb.1⟩

theorem commitLoop_fst (C : Consts) (n : Nat) (angles : List ℚ) (p : List ℚ × List ℚ) :
    (commitLoop C n angles p).1 =
      forLoop n (fun i sp => sp.set i (committedAngle C angles i)) p.1 := by
  induction n with
  | zero => rfl
  | succ n ih =>
    unfold commitLoop at ih ⊢
    rw [forLoop_succ, forLoop_succ, ← ih]
    unfold committedAngle
    dsimp only
    repeat' split
    all_goals rfl

theorem commitLoop_snd (C : Consts) (n : Nat) (angles : List ℚ) (p : List ℚ × List ℚ)
    (hn : n ≤ p.1.length) :
    (commitLoop C n angles p).2 =
      forLoop n (fun i tw => tw.set i (committedAngle C angles i)) p.2 := by
  induction n with
  | zero => rfl
  | succ n ih =>
    have h1 := commitLoop_fst C n angles p
    have h2 := ih (by omega)
    have hlen : (commitLoop C n angles p).1.length = p.1.length := by
      rw [h1, forLoop_set_length]
    have hstep : commitLoop C (n + 1) angles p =
        (((commitLoop C n angles p).1.set n (committedAngle C angles n)),
          (commitLoop C n angles p).2.set n
            (((commitLoop C n angles p).1.set n (committedAngle C angles n)).getD n 0)) := by
      unfold commitLoop
      rw [forLoop_succ]
      unfold committedAngle
      dsimp only
      repeat' split
      all_goals rfl
    rw [hstep, forLoop_succ, ← h2]
    dsimp only
    have hget : ((commitLoop C n angles p).1.set n (committedAngle C angles n)).getD n 0 =
        committedAngle C angles n := by
      rw [List.getD_eq_getElem?_getD, List.getElem?_set, if_pos rfl,
        if_pos (by rw [hlen]; omega), Option.getD_some]
    rw [hget]

/-- The two arrays after `setEmergencyJointAngles`, joint by joint. -/
theorem setEmergencyJointAngles_entry (C : Consts) (angles : List ℚ) (solved : Bool)
    (s : State I) (hsp : s.m_stop_posture.length = s.numJoints)
    (htw : s.m_qTouchWall.length = s.numJoints) (i : Nat) (hi : i < s.numJoints) :
    (setEmergencyJointAngles C angles solved s).m_stop_posture[i]? =
      some (committedAngle C angles i) ∧
    (setEmergencyJointAngles C angles solved s).m_qTouchWall[i]? =
      some (committedAngle C angles i) := by
  unfold setEmergencyJointAngles
  dsimp only
  rw [commitLoop_fst, commitLoop_snd C s.numJoints angles _ (by rw [hsp]),
    forLoop_set_getElem?, forLoop_set_getElem?]
  dsimp only
  rw [if_pos ⟨hi, by rw [hsp]; exact hi⟩, if_pos ⟨hi, by rw [htw]; exact hi⟩]
  exact ⟨rfl, rfl⟩

theorem onExecute_solved (E : Interpolator I) (C : Consts) (s : State I) :
    (onExecute E C s).solved = s.solved := by
  cases hg : gate (preamble s) with
  | none =>
    simp only [onExecute, hg]
    exact (preamble_entry s).solved
  | some g =>
    rw [onExecute_of_gate E C hg]
    simp [(tick_frame hg).solved]

/-- A run whose ticks all end in stop mode, from a stopped robot, keeps the stop posture
and the `solved` flag. -/
theorem run_staysStopped (E : Interpolator I) (C : Consts) (arrivals : List Arrival) :
    ∀ s : State I, s.is_stop_mode = true → staysStopped E C arrivals s →
      (run E C arrivals s).is_stop_mode = true ∧
      (run E C arrivals s).m_stop_posture = s.m_stop_posture ∧
      (run E C arrivals s).solved = s.solved := by
  induction arrivals with
  | nil => intro s h _; exact ⟨h, rfl, rfl⟩
  | cons a rest ih =>
    intro s h hstay
    have h1 : (arrive a s).is_stop_mode = true := h
    have hb := onExecute_stop_baseline E C (arrive a s) h1
    have hs := onExecute_solved E C (arrive a s)
    have hr := ih (onExecute E C (arrive a s)) hstay.1 hstay.2
    show (run E C rest (onExecute E C (arrive a s))).is_stop_mode = true ∧
      (run E C rest (onExecute E C (arrive a s))).m_stop_posture = s.m_stop_posture ∧
      (run E C rest (onExecute E C (arrive a s))).solved = s.solved
    exact ⟨hr.1, hr.2.1.trans hb.1, hr.2.2.trans hs⟩

/-! ### The timers -/

theorem toInt_nonneg {q : ℚ} (h : 0 ≤ q) : 0 ≤ toInt q := by
  unfold toInt
  exact Int.tdiv_nonneg (Rat.num_nonneg.mpr h) (Int.ofNat_nonneg _)

theorem toInt_div_nonneg {p d : ℚ} (hp : 0 ≤ p) (hd : 0 < d) : 0 ≤ toInt (p / d) :=
  toInt_nonneg (div_nonneg hp (le_of_lt hd))

theorem retrieveStep_recover_time (E : Interpolator I) (s : State I) :
    (retrieveStep E s).recover_time = s.recover_time := by
  unfold retrieveStep; dsimp only; split <;> rfl

theorem risingEdge_retrieve_time_nonneg (E : Interpolator I) (s : State I)
    (h1 : 0 ≤ s.retrieve_time) (h2 : 0 ≤ s.default_retrieve_duration) :
    0 ≤ (risingEdge E s).retrieve_time := by
  unfold risingEdge
  split
  · exact h2
  · exact h1

/-- The timers after lines 436-468 are not negative when they were not before, the
configured recover time is not negative and the decrement step is 1. -/
theorem blend_timers_nonneg (E : Interpolator I) (s : State I)
    (h0 : 0 ≤ s.recover_time) (h1 : 0 ≤ s.retrieve_time) (h2 : 0 ≤ s.default_recover_time)
    (hdt : s.recover_time_dt = 1) :
    0 ≤ (blend E s).recover_time ∧ 0 ≤ (blend E s).retrieve_time := by
  by_cases hstop : s.is_stop_mode = true
  · by_cases ht : 0 < s.retrieve_time
    · rw [blend_retrieve E hstop ht, retrieveStep_recover_time, retrieveStep_retrieve_time]
      dsimp only
      rw [hdt, toInt_sub_one]
      exact ⟨h2, by omega⟩
    · rw [blend_hold E hstop ht]
      exact ⟨h2, h1⟩
  · have hrun : s.is_stop_mode = false := by simpa using hstop
    by_cases ht : 0 < s.recover_time
    · rw [blend_recover E hrun ht, recoverStep_recover_time, hdt, toInt_sub_one]
      exact ⟨by omega, h1⟩
    · rw [blend_passThrough E hrun ht]
      exact ⟨h0, h1⟩

theorem onExecute_timersOk (E : Interpolator I) (C : Consts) (s : State I)
    (h : TimersOk s) : TimersOk (onExecute E C s) := by
  obtain ⟨h0, h1, h2, h3, h4, h5, h6⟩ := h
  cases hg : gate (preamble s) with
  | none =>
    simp only [onExecute, hg]
    have e := (preamble_entry s).toFrame
    unfold TimersOk
    rw [e.recover_time, e.retrieve_time, e.default_recover_time, e.default_retrieve_time,
      e.default_retrieve_duration, e.recover_time_dt, e.m_dt]
    exact ⟨h0, h1, h2, h3, h4, h5, h6⟩
  | some g =>
    have F := tick_frame hg
    have hr := risingEdge_retrieve_time_nonneg E (inputs g)
      (by rw [F.retrieve_time]; exact h1) (by rw [F.default_retrieve_duration]; exact h4)
    have hb := blend_timers_nonneg E (risingEdge E (inputs g))
      (by rw [risingEdge_recover_time, F.recover_time]; exact h0) hr
      (by rw [risingEdge_default_recover_time, F.default_recover_time]; exact h2)
      (by rw [risingEdge_recover_time_dt, F.recover_time_dt]; exact h5)
    rw [onExecute_of_gate E C hg]
    unfold TimersOk
    simp only [finish_recover_time, finish_retrieve_time, finish_default_recover_time,
      finish_default_retrieve_time, finish_default_retrieve_duration, finish_recover_time_dt,
      finish_m_dt, blend_default_recover_time, blend_default_retrieve_time,
      blend_default_retrieve_duration, blend_recover_time_dt, blend_m_dt,
      risingEdge_default_recover_time, risingEdge_default_retrieve_time,
      risingEdge_default_retrieve_duration, risingEdge_recover_time_dt, risingEdge_m_dt,
      F.default_recover_time, F.default_retrieve_time, F.default_retrieve_duration,
      F.recover_time_dt, F.m_dt]
    exact ⟨hb.1, hb.2, h2, h3, h4, h5, h6⟩

theorem onInitialize_timersOk (E : Interpolator I) (C : Consts) (numJoints nforce : Nat)
    (m_dt : ℚ) (h : 0 < m_dt) : TimersOk (onInitialize E C numJoints nforce m_dt) := by
  refine ⟨le_refl _, le_refl _, ?_, Int.one_nonneg, Int.one_nonneg, rfl, h⟩
  exact toInt_div_nonneg (by norm_num) h

/-- Every step keeps `TimersOk`, a call of `setEmergencyStopperParam` provided its three
durations are not negative. -/
theorem apply_timersOk (E : Interpolator I) (C : Consts) (op : Op) (s : State I)
    (hop : op.nonnegParam) (h : TimersOk s) : TimersOk (op.apply E C s) := by
  cases op with
  | tick => exact onExecute_timersOk E C s h
  | arrive a => exact h
  | stopMotion =>
    show TimersOk (stopMotion s)
    unfold stopMotion
    split
    · exact h
    · exact h
  | releaseMotion => exact h
  | setEmergencyStopperParam p1 p2 p3 =>
    obtain ⟨h0, h1, _, _, _, h5, h6⟩ := h
    exact ⟨h0, h1, toInt_div_nonneg hop.1 h6, toInt_div_nonneg hop.2.1 h6,
      toInt_div_nonneg hop.2.2 h6, h5, h6⟩
  | setEmergencyJointAngles angles solved =>
    obtain ⟨h0, _, h2, h3, h4, h5, h6⟩ := h
    exact ⟨h0, h3, h2, h3, h4, h5, h6⟩
  | onDeactivated =>
    show TimersOk (onDeactivated E s)
    unfold onDeactivated
    split
    · obtain ⟨_, h1, h2, h3, h4, h5, h6⟩ := h
      exact ⟨le_refl _, h1, h2, h3, h4, h5, h6⟩
    · exact h

theorem exec_timersOk (E : Interpolator I) (C : Consts) (ops : List Op) :
    ∀ s : State I, (∀ op ∈ ops, op.nonnegParam) → TimersOk s → TimersOk (exec E C ops s) := by
  induction ops with
  | nil => intro s _ h; exact h
  | cons op rest ih =>
    intro s hops h
    exact ih (op.apply E C s) (fun o ho => hops o (List.mem_cons_of_mem op ho))
      (apply_timersOk E C op s (hops op (List.mem_cons_self op rest)) h)

/-! ### The history queues -/

theorem trimQueue_length_le {α : Type} (n : Int) (hn : 0 ≤ n) (l : List α) :
    ((trimQueue n l).length : Int) ≤ n := by
  induction l with
  | nil => simpa [trimQueue] using hn
  | cons x xs ih =>
    rw [trimQueue]
    split
    · exact ih
    · rename_i h
      exact not_lt.mp h

theorem readReference_m_input_posture_queue (s : State I) (q : List ℚ)
    (rest : List (List ℚ)) (h : s.m_qRefIn = q :: rest) :
    (readReference s).m_input_posture_queue =
      trimQueue s.default_retrieve_time (s.m_input_posture_queue ++ [q]) := by
  unfold readReference
  rw [h]
  dsimp only
  split <;> split <;> rfl

theorem readReference_m_input_wrenches_queue (s : State I) (q : List ℚ)
    (rest : List (List ℚ)) (h : s.m_qRefIn = q :: rest) :
    ∃ w, (readReference s).m_input_wrenches_queue =
      trimQueue s.default_retrieve_time (s.m_input_wrenches_queue ++ [w]) := by
  unfold readReference
  rw [h]
  dsimp only
  split <;> split <;> exact ⟨_, rfl⟩

/-- After a tick that reads a reference posture neither queue is longer than the window,
when the window is not negative. -/
theorem readReference_queues_trimmed (s : State I) (q : List ℚ) (rest : List (List ℚ))
    (h : s.m_qRefIn = q :: rest) (hw : 0 ≤ s.default_retrieve_time) :
    ((readReference s).m_input_posture_queue.length : Int) ≤ s.default_retrieve_time ∧
    ((readReference s).m_input_wrenches_queue.length : Int) ≤ s.default_retrieve_time := by
  obtain ⟨w, hwq⟩ := readReference_m_input_wrenches_queue s q rest h
  rw [readReference_m_input_posture_queue s q rest h, hwq]
  exact ⟨trimQueue_length_le _ hw _, trimQueue_length_le _ hw _⟩

theorem onExecute_default_retrieve_time (E : Interpolator I) (C : Consts) (s : State I) :
    (onExecute E C s).default_retrieve_time = s.default_retrieve_time := by
  cases hg : gate (preamble s) with
  | none =>
    simp only [onExecute, hg]
    exact (preamble_entry s).default_retrieve_time
  | some g =>
    rw [onExecute_of_gate E C hg]
    simp [(tick_frame hg).default_retrieve_time]

theorem onExecute_queuesOk (E : Interpolator I) (C : Consts) (s : State I)
    (h : QueuesOk s) : QueuesOk (onExecute E C s) := by
  obtain ⟨hw, hp, hq⟩ := h
  unfold QueuesOk
  rw [onExecute_default_retrieve_time]
  cases hg : gate (preamble s) with
  | none =>
    simp only [onExecute, hg]
    have e := preamble_entry s
    rw [e.m_input_posture_queue, e.m_input_wrenches_queue]
    exact ⟨hw, hp, hq⟩
  | some g =>
    have e := entered hg
    rw [onExecute_of_gate E C hg]
    simp only [finish_m_input_posture_queue, finish_m_input_wrenches_queue,
      blend_m_input_posture_queue, blend_m_input_wrenches_queue,
      risingEdge_m_input_posture_queue, risingEdge_m_input_wrenches_queue,
      inputs_m_input_posture_queue, inputs_m_input_wrenches_queue]
    cases hin : g.m_qRefIn with
    | nil =>
      rw [readReference_nothing_new g hin, e.m_input_posture_queue, e.m_input_wrenches_queue]
      exact ⟨hw, hp, hq⟩
    | cons q rest =>
      have ht := readReference_queues_trimmed g q rest hin
        (by rw [e.default_retrieve_time]; exact hw)
      rw [e.default_retrieve_time] at ht
      exact ⟨hw, ht.1, ht.2⟩

/-- A step that does not lower the window keeps `QueuesOk`. -/
theorem apply_queuesOk (E : Interpolator I) (C : Consts) (op : Op) (s : State I)
    (hkeep : s.default_retrieve_time ≤ (op.apply E C s).default_retrieve_time)
    (h : QueuesOk s) : QueuesOk (op.apply E C s) := by
  cases op with
  | tick => exact onExecute_queuesOk E C s h
  | arrive a => exact h
  | stopMotion =>
    show QueuesOk (stopMotion s)
    unfold stopMotion
    split
    · exact h
    · exact h
  | releaseMotion => exact h
  | setEmergencyStopperParam p1 p2 p3 =>
    obtain ⟨hw, hp, hq⟩ := h
    have hk : s.default_retrieve_time ≤ toInt (p2 / s.m_dt) := hkeep
    exact ⟨le_trans hw hk, le_trans hp hk, le_trans hq hk⟩
  | setEmergencyJointAngles angles solved => exact h
  | onDeactivated =>
    show QueuesOk (onDeactivated E s)
    unfold onDeactivated
    split
    · exact h
    · exact h

theorem exec_queuesOk (E : Interpolator I) (C : Consts) (ops : List Op) :
    ∀ s : State I, windowKept E C ops s → QueuesOk s → QueuesOk (exec E C ops s) := by
  induction ops with
  | nil => intro s _ h; exact h
  | cons op rest ih =>
    intro s hk h
    exact ih (op.apply E C s) hk.2 (apply_queuesOk E C op s hk.1 h)

/-! ### The beep -/

/-- Lines 511-517, in stop mode with a servo on. -/
theorem finish_alert (C : Consts) (s : State I) (h1 : s.is_stop_mode = true)
    (h2 : hasServoOn C s = true) :
    (finish C s).bc = beepAt s.emergency_stopper_beep_count s.emergency_stopper_beep_freq ∧
    (finish C s).emergency_stopper_beep_count = s.emergency_stopper_beep_count + 1 := by
  unfold finish
  dsimp only
  split
  · split
    · rename_i hc
      exact ⟨by unfold beepAt; rw [if_pos hc], rfl⟩
    · rename_i hc
      exact ⟨by unfold beepAt; rw [if_neg hc], rfl⟩
  · rename_i hn
    exact absurd ⟨h1, h2⟩ hn

/-- Lines 518-521, out of stop mode or with no servo on. -/
theorem finish_silent (C : Consts) (s : State I)
    (h : ¬ (s.is_stop_mode = true ∧ hasServoOn C s = true)) :
    (finish C s).bc = BeepCall.stopBeep ∧ (finish C s).emergency_stopper_beep_count = 0 := by
  unfold finish
  dsimp only
  split
  · rename_i hp
    exact absurd hp h
  · exact ⟨rfl, rfl⟩

theorem beforeFinish_beep_count (E : Interpolator I) {s g : State I}
    (hg : gate (preamble s) = some g) :
    (beforeFinish E g).emergency_stopper_beep_count = s.emergency_stopper_beep_count ∧
    (beforeFinish E g).emergency_stopper_beep_freq = s.emergency_stopper_beep_freq := by
  unfold beforeFinish
  rw [blend_emergency_stopper_beep_count, risingEdge_emergency_stopper_beep_count,
    blend_emergency_stopper_beep_freq, risingEdge_emergency_stopper_beep_freq,
    (tick_frame hg).beep_count, (tick_frame hg).beep_freq]
  exact ⟨rfl, rfl⟩

theorem onExecute_alert (E : Interpolator I) (C : Consts) (s : State I)
    (h : alertTick E C s) :
    (onExecute E C s).bc =
      beepAt s.emergency_stopper_beep_count s.emergency_stopper_beep_freq ∧
    (onExecute E C s).emergency_stopper_beep_count = s.emergency_stopper_beep_count + 1 ∧
    (onExecute E C s).emergency_stopper_beep_freq = s.emergency_stopper_beep_freq := by
  obtain ⟨g, hg, h1, h2⟩ := h
  have hf := finish_alert C (beforeFinish E g) h1 h2
  have hc := beforeFinish_beep_count E hg
  rw [hc.1, hc.2] at hf
  have he : onExecute E C s = finish C (beforeFinish E g) := onExecute_of_gate E C hg
  rw [he, finish_emergency_stopper_beep_freq]
  exact ⟨hf.1, hf.2, hc.2⟩

/-- In a run of alert ticks the tick number `k` finds the counter at its start value
plus `k`. -/
theorem run_alert (E : Interpolator I) (C : Consts) (arrivals : List Arrival) :
    ∀ (s : State I) (k : Nat), alertRun E C arrivals s → k < arrivals.length →
      (run E C (arrivals.take (k + 1)) s).bc =
        beepAt (s.emergency_stopper_beep_count + k) s.emergency_stopper_beep_freq ∧
      (run E C (arrivals.take (k + 1)) s).emergency_stopper_beep_count =
        s.emergency_stopper_beep_count + k + 1 := by
  induction arrivals with
  | nil => intro s k _ hk; exact absurd hk (Nat.not_lt_zero k)
  | cons a rest ih =>
    intro s k hrun hk
    have ht := onExecute_alert E C (arrive a s) hrun.1
    have hc : (arrive a s).emergency_stopper_beep_count = s.emergency_stopper_beep_count :=
      rfl
    have hf : (arrive a s).emergency_stopper_beep_freq = s.emergency_stopper_beep_freq := rfl
    rw [hc, hf] at ht
    cases k with
    | zero =>
      show (run E C (List.take 1 (a :: rest)) s).bc = _ ∧ _
      rw [List.take_succ_cons, List.take_zero]
      show (onExecute E C (arrive a s)).bc = _ ∧
        (onExecute E C (arrive a s)).emergency_stopper_beep_count = _
      rw [ht.1, ht.2.1]
      simp
    | succ k =>
      have hk2 : k < rest.length := by
        simp only [List.length_cons] at hk
        omega
      have h := ih (onExecute E C (arrive a s)) k hrun.2 hk2
      rw [ht.2.1, ht.2.2] at h
      rw [List.take_succ_cons]
      show (run E C (List.take (k + 1) rest) (onExecute E C (arrive a s))).bc = _ ∧
        (run E C (List.take (k + 1) rest)
          (onExecute E C (arrive a s))).emergency_stopper_beep_count = _
      rw [h.1, h.2]
      push_cast
      constructor
      · congr 1; ring
      · ring

/-- The schedule of `beepAt` from a counter that is not negative, with the remainders of
mathematics. -/
theorem beepAt_start (k F : Int) (hk : 0 ≤ k) (hF : 1 ≤ F) :
    beepAt k F = BeepCall.startBeep 2352 ((F : ℚ) * 0.7) ↔ (k % F = 0 ∧ k % (3 * F) ≠ 0) := by
  unfold beepAt
  rw [Int.tmod_eq_emod hk (by omega), Int.tmod_eq_emod hk (by omega), Int.mul_comm F 3]
  split
  · rename_i h
    exact ⟨fun _ => h, fun _ => rfl⟩
  · rename_i h
    constructor
    · intro hc; cases hc
    · intro hc; exact absurd hc h

theorem beepAt_stop (k F : Int) (hk : 0 ≤ k) (hF : 1 ≤ F)
    (h : ¬ (k % F = 0 ∧ k % (3 * F) ≠ 0)) : beepAt k F = BeepCall.stopBeep := by
  unfold beepAt
  rw [Int.tmod_eq_emod hk (by omega), Int.tmod_eq_emod hk (by omega), Int.mul_comm F 3,
    if_neg h]

/-- The multiples of `F` that are not multiples of `3 * F` are the numbers that leave
`F` or `2 * F` when divided by `3 * F`. -/
theorem cadence_period (k F : Int) (hF : 1 ≤ F) :
    (k % F = 0 ∧ k % (3 * F) ≠ 0) ↔ (k % (3 * F) = F ∨ k % (3 * F) = 2 * F) := by
  have h3 : (0 : Int) < 3 * F := by omega
  have hr0 := Int.emod_nonneg k (by omega : 3 * F ≠ 0)
  have hr1 := Int.emod_lt_of_pos k h3
  have hmod : k % F = (k % (3 * F)) % F :=
    (Int.emod_emod_of_dvd k (Dvd.intro_left 3 rfl)).symm
  rw [hmod]
  generalize k % (3 * F) = r at *
  constructor
  · rintro ⟨h1, h2⟩
    obtain ⟨m, hm⟩ := Int.dvd_of_emod_eq_zero h1
    have hm0 : 0 < m := by
      by_contra hc
      have hle : m ≤ 0 := by omega
      have hneg : F * m ≤ 0 := by nlinarith
      have hzero : F * m = 0 := by omega
      omega
    have hm3 : m < 3 := by
      by_contra hc
      have hge : 3 ≤ m := by omega
      have hbig : F * 3 ≤ F * m := by nlinarith
      omega
    have hcase : m = 1 ∨ m = 2 := by omega
    rcases hcase with h | h
    · left; rw [hm, h]; ring
    · right; rw [hm, h]; ring
  · rintro (h | h)
    · rw [h]; exact ⟨Int.emod_self, by omega⟩
    · rw [h]; exact ⟨by simp, by omega⟩

theorem preamble_bc (s : State I) : (preamble s).bc = s.bc := by
  unfold preamble; dsimp only; split <;> rfl

theorem onExecute_beepUntouched (E : Interpolator I) (C : Consts) (s : State I)
    (h : BeepUntouched s) : BeepUntouched (onExecute E C s) := by
  cases hg : gate (preamble s) with
  | none =>
    simp only [onExecute, hg]
    intro hi
    rw [preamble_is_initialized] at hi
    rw [preamble_bc, (preamble_entry s).beep_count]
    exact h hi
  | some g =>
    intro hi
    rw [onExecute_is_initialized E C hg] at hi
    cases hi

theorem apply_beepUntouched (E : Interpolator I) (C : Consts) (op : Op) (s : State I)
    (h : BeepUntouched s) : BeepUntouched (op.apply E C s) := by
  cases op with
  | tick => exact onExecute_beepUntouched E C s h
  | arrive a => exact h
  | stopMotion =>
    show BeepUntouched (stopMotion s)
    unfold stopMotion
    split
    · exact h
    · exact h
  | releaseMotion => exact h
  | setEmergencyStopperParam p1 p2 p3 => exact h
  | setEmergencyJointAngles angles solved => exact h
  | onDeactivated =>
    show BeepUntouched (onDeactivated E s)
    unfold onDeactivated
    split
    · exact h
    · exact h

theorem exec_beepUntouched (E : Interpolator I) (C : Consts) (ops : List Op) :
    ∀ s : State I, BeepUntouched s → BeepUntouched (exec E C ops s) := by
  induction ops with
  | nil => intro s h; exact h
  | cons op rest ih =>
    intro s h
    exact ih (op.apply E C s) (apply_beepUntouched E C op s h)

/-! ### The emergency signal -/

/-- Lines 372-399 when a signal `sig` waits on the port. -/
theorem readEmergencySignal_signal (t : State I) (sig : Int) (rest : List Int)
    (h : t.m_emergencySignalIn = sig :: rest) :
    (readEmergencySignal t).is_stop_mode =
      (if sig = 0 then false else if sig = 1 ∨ sig = 2 then true else t.is_stop_mode) ∧
    (readEmergencySignal t).emergency_mode = sig ∧
    (readEmergencySignal t).is_emergency_fall_motion = t.is_emergency_fall_motion ∧
    (readEmergencySignal t).m_emergencyFallMotionIn = t.m_emergencyFallMotionIn := by
  unfold readEmergencySignal
  rw [h]
  dsimp only
  cases hs : t.is_stop_mode <;> by_cases h0 : sig = 0 <;> by_cases h1 : sig = 1 <;>
    by_cases h2 : sig = 2 <;> simp [h0, h1, h2]

theorem readQEmergency_emergency_mode (s : State I) :
    (readQEmergency s).emergency_mode = s.emergency_mode := by
  unfold readQEmergency; split <;> rfl

/-- The inputs of a tick that finds the signal `sig` and no fall-motion trigger. -/
theorem inputs_signal (g : State I) (sig : Int) (rest : List Int)
    (hsig : g.m_emergencySignalIn = sig :: rest) (hfall : g.m_emergencyFallMotionIn = []) :
    (inputs g).is_stop_mode =
      (if sig = 0 then false else if sig = 1 ∨ sig = 2 then true else g.is_stop_mode) ∧
    (inputs g).emergency_mode = sig ∧
    (inputs g).is_emergency_fall_motion = g.is_emergency_fall_motion := by
  have h := readEmergencySignal_signal (readReference g) sig rest
    (by rw [readReference_m_emergencySignalIn, hsig])
  rw [readReference_is_stop_mode, readReference_is_emergency_fall_motion,
    readReference_m_emergencyFallMotionIn] at h
  unfold inputs
  rw [readEmergencyFallMotion_nothing_new _ (by rw [h.2.2.2, hfall]),
    readQEmergency_is_stop_mode, readQEmergency_emergency_mode,
    readQEmergency_is_emergency_fall_motion]
  exact ⟨h.1, h.2.1, h.2.2.1⟩

/-! ## The two trigger ports in one tick -/

theorem readEmergencyFallMotion_trigger (t : State I) (d : Bool) (rest : List Bool)
    (h : t.m_emergencyFallMotionIn = d :: rest) :
    (readEmergencyFallMotion t).is_stop_mode = d ∧
    (readEmergencyFallMotion t).is_emergency_fall_motion = d ∧
    (readEmergencyFallMotion t).emergency_mode = (if d = true then t.emergency_mode else 0) := by
  unfold readEmergencyFallMotion
  rw [h]
  cases d <;> simp

theorem inputs_both (g : State I) (sig : Int) (rest : List Int) (d : Bool) (rest2 : List Bool)
    (hsig : g.m_emergencySignalIn = sig :: rest)
    (hfall : g.m_emergencyFallMotionIn = d :: rest2) :
    (inputs g).is_stop_mode = d ∧ (inputs g).is_emergency_fall_motion = d ∧
    (inputs g).emergency_mode = (if d = true then sig else 0) := by
  unfold inputs
  have hs := readEmergencySignal_signal (readReference g) sig rest
    ((readReference_m_emergencySignalIn g).trans hsig)
  have hf := readEmergencyFallMotion_trigger (readEmergencySignal (readReference g)) d rest2
    (hs.2.2.2.trans ((readReference_m_emergencyFallMotionIn g).trans hfall))
  rw [readQEmergency_is_stop_mode, readQEmergency_is_emergency_fall_motion,
    readQEmergency_emergency_mode, hf.1, hf.2.1, hf.2.2, hs.2.1]
  exact ⟨rfl, rfl, rfl⟩

/-! ## The retrieve countdown -/

theorem onExecute_is_stop_mode (E : Interpolator I) (C : Consts) {s g : State I}
    (hg : gate (preamble s) = some g) :
    (onExecute E C s).is_stop_mode = (inputs g).is_stop_mode := by
  rw [onExecute_of_gate E C hg]; simp

theorem onExecute_prev_is_stop_mode (E : Interpolator I) (C : Consts) {s g : State I}
    (hg : gate (preamble s) = some g) :
    (onExecute E C s).prev_is_stop_mode = (onExecute E C s).is_stop_mode := by
  rw [onExecute_of_gate E C hg]; simp

theorem onExecute_default_retrieve_duration (E : Interpolator I) (C : Consts) {s g : State I}
    (hg : gate (preamble s) = some g) :
    (onExecute E C s).default_retrieve_duration = s.default_retrieve_duration := by
  rw [onExecute_of_gate E C hg]; simp [(tick_frame hg).default_retrieve_duration]

theorem onExecute_edge_retrieve_time (E : Interpolator I) (C : Consts) {s g : State I}
    (hg : gate (preamble s) = some g) (hprev : s.prev_is_stop_mode = false)
    (hstop : (onExecute E C s).is_stop_mode = true) (hdt : s.recover_time_dt = 1)
    (hD : 1 ≤ s.default_retrieve_duration) :
    (onExecute E C s).retrieve_time = s.default_retrieve_duration - 1 := by
  have F := tick_frame hg
  rw [onExecute_is_stop_mode E C hg] at hstop
  have hp : (inputs g).prev_is_stop_mode = false := by rw [F.prev_is_stop_mode, hprev]
  have hr := risingEdge_of_edge E hstop hp
  have h1 : (risingEdge E (inputs g)).retrieve_time = s.default_retrieve_duration := by
    rw [hr, ← F.default_retrieve_duration]
  have hs : (risingEdge E (inputs g)).is_stop_mode = true := by
    rw [risingEdge_is_stop_mode, hstop]
  have hd : 0 < s.default_retrieve_duration := by omega
  rw [onExecute_of_gate E C hg, finish_retrieve_time,
    blend_retrieve E hs (by rw [h1]; exact hd), retrieveStep_retrieve_time]
  simp only [h1, risingEdge_recover_time_dt, F.recover_time_dt, hdt]
  exact toInt_sub_one _

theorem onExecute_countdown_step (E : Interpolator I) (C : Consts) {s g : State I}
    (hg : gate (preamble s) = some g) (hprev : s.prev_is_stop_mode = true)
    (hstop : (onExecute E C s).is_stop_mode = true) (hdt : s.recover_time_dt = 1) :
    (onExecute E C s).retrieve_time =
      (if 0 < s.retrieve_time then s.retrieve_time - 1 else s.retrieve_time) := by
  have F := tick_frame hg
  rw [onExecute_is_stop_mode E C hg] at hstop
  have hr : risingEdge E (inputs g) = inputs g :=
    risingEdge_of_no_edge E (by rw [F.prev_is_stop_mode, hprev]; simp)
  rw [onExecute_of_gate E C hg, finish_retrieve_time, hr]
  by_cases ht : 0 < s.retrieve_time
  · rw [blend_retrieve E hstop (by rw [F.retrieve_time]; exact ht), if_pos ht,
      retrieveStep_retrieve_time]
    simp only [F.retrieve_time, F.recover_time_dt, hdt]
    exact toInt_sub_one _
  · rw [blend_hold E hstop (by rw [F.retrieve_time]; exact ht), if_neg ht]
    exact F.retrieve_time

theorem run_countdown (E : Interpolator I) (C : Consts) (arrivals : List Arrival) :
    ∀ s : State I, s.is_initialized = true → s.prev_is_stop_mode = true →
      s.recover_time_dt = 1 → 0 ≤ s.retrieve_time → staysStopped E C arrivals s →
      (run E C arrivals s).retrieve_time = max (s.retrieve_time - arrivals.length) 0 := by
  induction arrivals with
  | nil =>
    intro s _ _ _ h0 _
    simp only [run, List.length_nil, Int.Nat.cast_ofNat_Int, sub_zero]
    omega
  | cons a rest ih =>
    intro s hi hprev hdt h0 hstay
    have hg : gate (preamble (arrive a s)) = some (preamble (arrive a s)) :=
      gate_of_initialized (by rw [preamble_is_initialized]; exact hi)
    have hstep := onExecute_countdown_step E C hg (show (arrive a s).prev_is_stop_mode = true
      from hprev) hstay.1 (show (arrive a s).recover_time_dt = 1 from hdt)
    have hrt : (arrive a s).retrieve_time = s.retrieve_time := rfl
    rw [hrt] at hstep
    have h := ih (onExecute E C (arrive a s)) (onExecute_is_initialized E C hg)
      (by rw [onExecute_prev_is_stop_mode E C hg]; exact hstay.1)
      (by rw [onExecute_recover_time_dt E C hg]; exact hdt)
      (by rw [hstep]; split <;> omega) hstay.2
    simp only [run, List.length_cons]
    rw [h, hstep]
    push_cast
    split <;> omega

/-! ## The history queues over a run -/

theorem trimQueue_of_le {α : Type} (n : Int) (l : List α) (h : (l.length : Int) ≤ n) :
    trimQueue n l = l := by
  cases l with
  | nil => rfl
  | cons x xs =>
    rw [trimQueue, if_neg (not_lt.mpr h)]

theorem trimQueue_eq_drop {α : Type} (n : Int) (l : List α) :
    trimQueue n l = l.drop (l.length - n.toNat) := by
  induction l with
  | nil => simp [trimQueue]
  | cons x xs ih =>
    rw [trimQueue]
    split
    · rename_i h
      rw [ih]
      have h1 : (x :: xs).length - n.toNat = (xs.length - n.toNat) + 1 := by
        simp only [List.length_cons] at h ⊢
        omega
      rw [h1, List.drop_succ_cons]
    · rename_i h
      have h1 : (x :: xs).length - n.toNat = 0 := by
        simp only [List.length_cons] at h ⊢
        omega
      rw [h1, List.drop_zero]

theorem trimQueue_append {α : Type} (n : Int) (l m : List α) :
    trimQueue n (trimQueue n l ++ m) = trimQueue n (l ++ m) := by
  induction l with
  | nil => rfl
  | cons x xs ih =>
    by_cases h : ((x :: xs).length : Int) > n
    · have h2 : ((x :: (xs ++ m)).length : Int) > n := by
        simp only [List.length_cons, List.length_append] at h ⊢
        omega
      rw [trimQueue, if_pos h, ih, List.cons_append, trimQueue, if_pos h2]
    · rw [trimQueue, if_neg h]

theorem trimQueue_ne_nil {α : Type} (n : Int) (hn : 1 ≤ n) (l : List α) (x : α) :
    trimQueue n (l ++ [x]) ≠ [] := by
  rw [trimQueue_eq_drop]
  intro h
  have hl := congrArg List.length h
  simp only [List.length_drop, List.length_append, List.length_singleton,
    List.length_nil] at hl
  omega

/-- With a window of at least the number of new samples, the queue keeps exactly the last
`n` of them. -/
theorem trimQueue_last {α : Type} (n : Int) (l m : List α) (hn : 0 ≤ n)
    (hl : (l.length : Int) ≤ n) (hm : n ≤ (m.length : Int)) :
    trimQueue n (l ++ m) = m.drop (m.length - n.toNat) := by
  rw [trimQueue_eq_drop, List.drop_append_eq_append_drop]
  have h1 : l.length + m.length - n.toNat - l.length = m.length - n.toNat := by omega
  have h2 : l.length ≤ (l ++ m).length - n.toNat := by
    simp only [List.length_append]
    omega
  rw [List.drop_of_length_le h2, List.nil_append, List.length_append, h1]

theorem readReference_wrenches_pushed (s : State I) (q : List ℚ) (rest : List (List ℚ))
    (h : s.m_qRefIn = q :: rest) :
    (readReference s).m_input_wrenches_queue =
      trimQueue s.default_retrieve_time
        (s.m_input_wrenches_queue ++ [currentWrench (readWrenchPorts s)]) := by
  unfold readReference
  rw [h]
  dsimp only
  split <;> split <;> rfl

theorem readReference_m_qRefIn (s : State I) : (readReference s).m_qRefIn = s.m_qRefIn.tail := by
  unfold readReference
  cases h : s.m_qRefIn with
  | nil => simp only [h]; rfl
  | cons q rest =>
    dsimp only
    split <;> split <;> rfl

theorem readEmergencySignal_m_qRefIn (s : State I) :
    (readEmergencySignal s).m_qRefIn = s.m_qRefIn := by
  unfold readEmergencySignal
  dsimp only
  repeat' split
  all_goals rfl

theorem readEmergencyFallMotion_m_qRefIn (s : State I) :
    (readEmergencyFallMotion s).m_qRefIn = s.m_qRefIn := by
  unfold readEmergencyFallMotion
  dsimp only
  repeat' split
  all_goals rfl

theorem readQEmergency_m_qRefIn (s : State I) : (readQEmergency s).m_qRefIn = s.m_qRefIn := by
  unfold readQEmergency
  split <;> rfl

theorem inputs_m_qRefIn (s : State I) : (inputs s).m_qRefIn = s.m_qRefIn.tail := by
  unfold inputs
  rw [readQEmergency_m_qRefIn, readEmergencyFallMotion_m_qRefIn, readEmergencySignal_m_qRefIn,
    readReference_m_qRefIn]

/-- A tick that reads a reference posture `q` pushes it, and the wrench vector of the tick,
on the history queues and trims them to the window. -/
theorem onExecute_queues_pushed (E : Interpolator I) (C : Consts) {s g : State I}
    (hg : gate (preamble s) = some g) (q : List ℚ) (rest : List (List ℚ))
    (hin : g.m_qRefIn = q :: rest) :
    (onExecute E C s).m_input_posture_queue =
      trimQueue s.default_retrieve_time (s.m_input_posture_queue ++ [q]) ∧
    (onExecute E C s).m_input_wrenches_queue =
      trimQueue s.default_retrieve_time
        (s.m_input_wrenches_queue ++ [currentWrench (readWrenchPorts g)]) := by
  have e := entered hg
  rw [onExecute_of_gate E C hg]
  simp only [finish_m_input_posture_queue, finish_m_input_wrenches_queue,
    blend_m_input_posture_queue, blend_m_input_wrenches_queue,
    risingEdge_m_input_posture_queue, risingEdge_m_input_wrenches_queue,
    inputs_m_input_posture_queue, inputs_m_input_wrenches_queue]
  rw [readReference_m_input_posture_queue g q rest hin, readReference_wrenches_pushed g q rest hin,
    e.default_retrieve_time, e.m_input_posture_queue, e.m_input_wrenches_queue]
  exact ⟨rfl, rfl⟩

/-- The history queues after a tick, when they were not longer than the window before. -/
theorem onExecute_queues (E : Interpolator I) (C : Consts) (s : State I) (h : QueuesOk s) :
    (onExecute E C s).m_input_posture_queue =
      trimQueue s.default_retrieve_time (s.m_input_posture_queue ++ pushedPosture s) ∧
    (onExecute E C s).m_input_wrenches_queue =
      trimQueue s.default_retrieve_time (s.m_input_wrenches_queue ++ pushedWrench s) := by
  obtain ⟨_, hp, hq⟩ := h
  unfold pushedPosture pushedWrench
  cases hg : gate (preamble s) with
  | none =>
    simp only [onExecute, hg, List.append_nil]
    have e := preamble_entry s
    rw [e.m_input_posture_queue, e.m_input_wrenches_queue, trimQueue_of_le _ _ hp,
      trimQueue_of_le _ _ hq]
    exact ⟨rfl, rfl⟩
  | some g =>
    dsimp only
    cases hin : g.m_qRefIn with
    | nil =>
      have e := entered hg
      rw [onExecute_of_gate E C hg]
      simp only [finish_m_input_posture_queue, finish_m_input_wrenches_queue,
        blend_m_input_posture_queue, blend_m_input_wrenches_queue,
        risingEdge_m_input_posture_queue, risingEdge_m_input_wrenches_queue,
        inputs_m_input_posture_queue, inputs_m_input_wrenches_queue, List.take_nil,
        List.append_nil]
      rw [readReference_nothing_new g hin, e.m_input_posture_queue, e.m_input_wrenches_queue,
        trimQueue_of_le _ _ hp, trimQueue_of_le _ _ hq]
      exact ⟨rfl, rfl⟩
    | cons q rest =>
      have h2 := onExecute_queues_pushed E C hg q rest hin
      rw [h2.1, h2.2]
      exact ⟨rfl, rfl⟩

theorem pushed_length (s : State I) : (pushedWrench s).length = (pushedPosture s).length := by
  unfold pushedWrench pushedPosture
  cases gate (preamble s) with
  | none => rfl
  | some g =>
    dsimp only
    cases g.m_qRefIn with
    | nil => rfl
    | cons q rest => rfl

theorem wrenchLog_length (E : Interpolator I) (C : Consts) (arrivals : List Arrival) :
    ∀ s : State I, (wrenchLog E C arrivals s).length = (postureLog E C arrivals s).length := by
  induction arrivals with
  | nil => intro s; rfl
  | cons a rest ih =>
    intro s
    simp only [wrenchLog, postureLog, List.length_append, pushed_length, ih]

/-- Over a run of ticks the history queues hold what the window keeps of their former
content followed by everything the ticks pushed. -/
theorem run_queues (E : Interpolator I) (C : Consts) (arrivals : List Arrival) :
    ∀ s : State I, QueuesOk s →
      (run E C arrivals s).m_input_posture_queue =
        trimQueue s.default_retrieve_time
          (s.m_input_posture_queue ++ postureLog E C arrivals s) ∧
      (run E C arrivals s).m_input_wrenches_queue =
        trimQueue s.default_retrieve_time
          (s.m_input_wrenches_queue ++ wrenchLog E C arrivals s) := by
  induction arrivals with
  | nil =>
    intro s h
    simp only [run, postureLog, wrenchLog, List.append_nil]
    rw [trimQueue_of_le _ _ h.2.1, trimQueue_of_le _ _ h.2.2]
    exact ⟨rfl, rfl⟩
  | cons a rest ih =>
    intro s h
    have ha : QueuesOk (arrive a s) := h
    have h1 := onExecute_queues E C (arrive a s) ha
    have h2 := ih (onExecute E C (arrive a s)) (onExecute_queuesOk E C _ ha)
    rw [onExecute_default_retrieve_time, h1.1, h1.2, trimQueue_append, trimQueue_append,
      List.append_assoc, List.append_assoc] at h2
    exact h2

/-- With the port buffer empty at the start and one reference posture per tick, an
initialized component pushes exactly the posture that arrived for the tick. -/
theorem postureLog_one_per_tick (E : Interpolator I) (C : Consts) (arrivals : List Arrival) :
    ∀ s : State I, s.is_initialized = true → s.m_qRefIn = [] →
      (∀ a ∈ arrivals, a.qRef.length = 1) →
      postureLog E C arrivals s = arrivals.map (fun a => a.qRef.headD []) := by
  induction arrivals with
  | nil => intro s _ _ _; rfl
  | cons a rest ih =>
    intro s hi hin hall
    have hg : gate (preamble (arrive a s)) = some (preamble (arrive a s)) :=
      gate_of_initialized (by rw [preamble_is_initialized]; exact hi)
    have ha : a.qRef.length = 1 := hall a (List.mem_cons_self a rest)
    obtain ⟨q, hq⟩ : ∃ q, a.qRef = [q] := List.length_eq_one.mp ha
    have hpre : (preamble (arrive a s)).m_qRefIn = [q] := by
      have e := preamble_entry (arrive a s)
      have h0 : (arrive a s).m_qRefIn = [q] := by
        show s.m_qRefIn ++ a.qRef = [q]
        rw [hin, hq]; rfl
      unfold preamble
      dsimp only
      split <;> exact h0
    have hnext : (onExecute E C (arrive a s)).m_qRefIn = [] := by
      rw [onExecute_of_gate E C hg]
      simp only [finish_m_qRefIn, blend_m_qRefIn, risingEdge_m_qRefIn, inputs_m_qRefIn, hpre,
        List.tail_cons]
    simp only [postureLog, List.map_cons]
    rw [ih _ (onExecute_is_initialized E C hg) hnext
      (fun b hb => hall b (List.mem_cons_of_mem a hb))]
    unfold pushedPosture
    rw [hg]
    dsimp only
    rw [hpre, hq]
    rfl

/-! ## Reads inside a sequence -/

theorem some_getD_of_lt {α : Type} (l : List α) (i : Nat) (d : α) (h : i < l.length) :
    some (l.getD i d) = l[i]? := by
  rw [List.getD_eq_getElem?_getD, List.getElem?_eq_getElem h, Option.getD_some]

/-! ## The timers stay within the range of `int` -/

theorem toInt_eq_floor {q : ℚ} (h : 0 ≤ q) : toInt q = ⌊q⌋ := by
  unfold toInt
  rw [Rat.floor_def, Int.tdiv_eq_ediv (Rat.num_nonneg.mpr h) (Int.ofNat_nonneg _)]

theorem toInt_le_intMax {q : ℚ} (h : 0 ≤ q) (hq : q ≤ intMax) : toInt q ≤ intMax := by
  rw [toInt_eq_floor h]
  exact Int.cast_le.mp (le_trans (Int.floor_le q) hq)

theorem Op.fitsInt_nonnegParam {m_dt : ℚ} {op : Op} (h : op.fitsInt m_dt) : op.nonnegParam := by
  cases op with
  | setEmergencyStopperParam p1 p2 p3 => exact ⟨h.1.1, h.2.1.1, h.2.2.1⟩
  | tick => trivial
  | arrive a => trivial
  | stopMotion => trivial
  | releaseMotion => trivial
  | setEmergencyJointAngles angles solved => trivial
  | onDeactivated => trivial

theorem risingEdge_retrieve_time_le (E : Interpolator I) (s : State I)
    (h1 : s.retrieve_time ≤ intMax) (h2 : s.default_retrieve_duration ≤ intMax) :
    (risingEdge E s).retrieve_time ≤ intMax := by
  unfold risingEdge
  split
  · exact h2
  · exact h1

theorem blend_timers_le (E : Interpolator I) (s : State I)
    (h0 : s.recover_time ≤ intMax) (h1 : s.retrieve_time ≤ intMax)
    (h2 : s.default_recover_time ≤ intMax) (hdt : s.recover_time_dt = 1) :
    (blend E s).recover_time ≤ intMax ∧ (blend E s).retrieve_time ≤ intMax := by
  by_cases hstop : s.is_stop_mode = true
  · by_cases ht : 0 < s.retrieve_time
    · rw [blend_retrieve E hstop ht, retrieveStep_recover_time, retrieveStep_retrieve_time]
      dsimp only
      rw [hdt, toInt_sub_one]
      exact ⟨h2, by omega⟩
    · rw [blend_hold E hstop ht]
      exact ⟨h2, h1⟩
  · have hrun : s.is_stop_mode = false := by simpa using hstop
    by_cases ht : 0 < s.recover_time
    · rw [blend_recover E hrun ht, recoverStep_recover_time, hdt, toInt_sub_one]
      exact ⟨by omega, h1⟩
    · rw [blend_passThrough E hrun ht]
      exact ⟨h0, h1⟩

theorem onExecute_timersInRange (E : Interpolator I) (C : Consts) (m_dt : ℚ) (s : State I)
    (hok : TimersOk s) (h : TimersInRange m_dt s) : TimersInRange m_dt (onExecute E C s) := by
  obtain ⟨hm, h0, h1, h2, h3, h4⟩ := h
  have hdt : s.recover_time_dt = 1 := hok.2.2.2.2.2.1
  cases hg : gate (preamble s) with
  | none =>
    simp only [onExecute, hg]
    have e := (preamble_entry s).toFrame
    unfold TimersInRange
    rw [e.recover_time, e.retrieve_time, e.default_recover_time, e.default_retrieve_time,
      e.default_retrieve_duration, e.m_dt]
    exact ⟨hm, h0, h1, h2, h3, h4⟩
  | some g =>
    have F := tick_frame hg
    have hr := risingEdge_retrieve_time_le E (inputs g)
      (by rw [F.retrieve_time]; exact h1) (by rw [F.default_retrieve_duration]; exact h4)
    have hb := blend_timers_le E (risingEdge E (inputs g))
      (by rw [risingEdge_recover_time, F.recover_time]; exact h0) hr
      (by rw [risingEdge_default_recover_time, F.default_recover_time]; exact h2)
      (by rw [risingEdge_recover_time_dt, F.recover_time_dt]; exact hdt)
    rw [onExecute_of_gate E C hg]
    unfold TimersInRange
    simp only [finish_recover_time, finish_retrieve_time, finish_default_recover_time,
      finish_default_retrieve_time, finish_default_retrieve_duration,
      finish_m_dt, blend_default_recover_time, blend_default_retrieve_time,
      blend_default_retrieve_duration, blend_m_dt,
      risingEdge_default_recover_time, risingEdge_default_retrieve_time,
      risingEdge_default_retrieve_duration, risingEdge_m_dt,
      F.default_recover_time, F.default_retrieve_time, F.default_retrieve_duration, F.m_dt]
    exact ⟨hm, hb.1, hb.2, h2, h3, h4⟩

theorem onInitialize_timersInRange (E : Interpolator I) (C : Consts) (numJoints nforce : Nat)
    (m_dt : ℚ) (h : 0 < m_dt) (hfit : 2.5 / m_dt ≤ intMax) :
    TimersInRange m_dt (onInitialize E C numJoints nforce m_dt) := by
  refine ⟨rfl, ?_, ?_, ?_, ?_, ?_⟩
  · show (0 : Int) ≤ intMax
    decide
  · show (0 : Int) ≤ intMax
    decide
  · exact toInt_le_intMax (div_nonneg (by norm_num) (le_of_lt h)) hfit
  · show (1 : Int) ≤ intMax
    decide
  · show (1 : Int) ≤ intMax
    decide

/-- Every step keeps the timers within the range of `int`, a call of
`setEmergencyStopperParam` provided its durations fit. -/
theorem apply_timersInRange (E : Interpolator I) (C : Consts) (m_dt : ℚ) (op : Op)
    (s : State I) (hop : op.fitsInt m_dt) (hok : TimersOk s) (h : TimersInRange m_dt s) :
    TimersInRange m_dt (op.apply E C s) := by
  cases op with
  | tick => exact onExecute_timersInRange E C m_dt s hok h
  | arrive a => exact h
  | stopMotion =>
    show TimersInRange m_dt (stopMotion s)
    unfold stopMotion
    split
    · exact h
    · exact h
  | releaseMotion => exact h
  | setEmergencyStopperParam p1 p2 p3 =>
    obtain ⟨hm, h0, h1, _, _, _⟩ := h
    have hd : 0 ≤ s.m_dt := le_of_lt hok.2.2.2.2.2.2
    refine ⟨hm, h0, h1, ?_, ?_, ?_⟩
    · show toInt (p1 / s.m_dt) ≤ intMax
      rw [hm]
      exact toInt_le_intMax (div_nonneg hop.1.1 (by rw [← hm]; exact hd)) hop.1.2
    · show toInt (p2 / s.m_dt) ≤ intMax
      rw [hm]
      exact toInt_le_intMax (div_nonneg hop.2.1.1 (by rw [← hm]; exact hd)) hop.2.1.2
    · show toInt (p3 / s.m_dt) ≤ intMax
      rw [hm]
      exact toInt_le_intMax (div_nonneg hop.2.2.1 (by rw [← hm]; exact hd)) hop.2.2.2
  | setEmergencyJointAngles angles solved =>
    obtain ⟨hm, h0, _, h2, h3, h4⟩ := h
    exact ⟨hm, h0, h3, h2, h3, h4⟩
  | onDeactivated =>
    show TimersInRange m_dt (onDeactivated E s)
    unfold onDeactivated
    split
    · obtain ⟨hm, _, h1, h2, h3, h4⟩ := h
      exact ⟨hm, by show (0 : Int) ≤ intMax; decide, h1, h2, h3, h4⟩
    · exact h

theorem exec_timersInRange (E : Interpolator I) (C : Consts) (m_dt : ℚ) (ops : List Op) :
    ∀ s : State I, (∀ op ∈ ops, op.fitsInt m_dt) → TimersOk s → TimersInRange m_dt s →
      TimersOk (exec E C ops s) ∧ TimersInRange m_dt (exec E C ops s) := by
  induction ops with
  | nil => intro s _ h hb; exact ⟨h, hb⟩
  | cons op rest ih =>
    intro s hops h hb
    have hop := hops op (List.mem_cons_self op rest)
    exact ih (op.apply E C s) (fun o ho => hops o (List.mem_cons_of_mem op ho))
      (apply_timersOk E C op s (Op.fitsInt_nonnegParam hop) h)
      (apply_timersInRange E C m_dt op s hop h hb)

/-! ## The claims -/

/-- C1. Rising edge: on a tick whose inputs leave `is_stop_mode` true while
`prev_is_stop_mode` is false, lines 420-426 set `retrieve_time` to
`default_retrieve_duration` and seed the posture interpolator with `m_q` and the wrench
interpolator with the flattened `m_wrenches`, both as the previous tick left them; the
rest of the tick then runs its first retrieve step from that seed. -/
theorem rising_edge_reseeds (E : Interpolator I) (C : Consts) (s g : State I)
    (hg : gate (preamble s) = some g)
    (hstop : (inputs g).is_stop_mode = true)
    (hprev : s.prev_is_stop_mode = false) :
    (risingEdge E (inputs g)).retrieve_time = s.default_retrieve_duration ∧
    (risingEdge E (inputs g)).m_interpolator = E.set s.m_interpolator s.m_q ∧
    (risingEdge E (inputs g)).m_wrenches_interpolator =
      E.set s.m_wrenches_interpolator
        (getWrenchesArrayFromData s.m_wrenches s.m_tmp_wrenches) ∧
    (∀ i j, i < s.m_wrenches.length → j < 6 → i * 6 + j < s.m_tmp_wrenches.length →
      (getWrenchesArrayFromData s.m_wrenches s.m_tmp_wrenches)[i * 6 + j]? =
        some ((s.m_wrenches.getD i []).getD j 0)) ∧
    (onExecute E C s).m_interpolator =
      (if 0 < s.default_retrieve_duration then
        (E.get (E.setGoal (E.set s.m_interpolator s.m_q) (retrieveGoal (inputs g))
          (toInt ((s.default_retrieve_duration : ℚ) - s.recover_time_dt) : ℚ))).1
      else E.set s.m_interpolator s.m_q) ∧
    (onExecute E C s).retrieve_time =
      (if 0 < s.default_retrieve_duration then
        toInt ((s.default_retrieve_duration : ℚ) - s.recover_time_dt)
      else s.default_retrieve_duration) := by
  have F := tick_frame hg
  have hp : (inputs g).prev_is_stop_mode = false := by rw [F.prev_is_stop_mode, hprev]
  have hr := risingEdge_of_edge E hstop hp
  have h1 : (risingEdge E (inputs g)).retrieve_time = s.default_retrieve_duration := by
    rw [hr, ← F.default_retrieve_duration]
  have h2 : (risingEdge E (inputs g)).m_interpolator = E.set s.m_interpolator s.m_q := by
    rw [hr, ← F.m_interpolator, ← F.m_q]
  have h3 : (risingEdge E (inputs g)).m_wrenches_interpolator =
      E.set s.m_wrenches_interpolator
        (getWrenchesArrayFromData s.m_wrenches s.m_tmp_wrenches) := by
    rw [hr, ← F.m_wrenches_interpolator, ← F.m_wrenches, ← F.m_tmp_wrenches]
  have hs : (risingEdge E (inputs g)).is_stop_mode = true := by
    rw [risingEdge_is_stop_mode, hstop]
  refine ⟨h1, h2, h3, ?_, ?_, ?_⟩
  · intro i j hi hj hk
    exact getWrenchesArrayFromData_getElem? _ _ i j hi hj hk
  · rw [onExecute_of_gate E C hg, finish_m_interpolator]
    by_cases hd : 0 < s.default_retrieve_duration
    · rw [blend_retrieve E hs (by rw [h1]; exact hd), if_pos hd, retrieveStep_m_interpolator]
      simp only [h1, h2, retrieveGoal, risingEdge_is_emergency_fall_motion,
        risingEdge_m_motion_posture, risingEdge_m_stop_posture, risingEdge_recover_time_dt,
        F.recover_time_dt]
    · rw [blend_hold E hs (by rw [h1]; exact hd), if_neg hd]
      exact h2
  · rw [onExecute_of_gate E C hg, finish_retrieve_time]
    by_cases hd : 0 < s.default_retrieve_duration
    · rw [blend_retrieve E hs (by rw [h1]; exact hd), if_pos hd, retrieveStep_retrieve_time]
      simp only [h1, risingEdge_recover_time_dt, F.recover_time_dt]
    · rw [blend_hold E hs (by rw [h1]; exact hd), if_neg hd]
      exact h1

/-- C1, at the tick of `stopTick` that finds the emergency signal 1. -/
theorem rising_edge_reseeds_witness :
    gate (preamble stopTick) = some (preamble stopTick) ∧
    (inputs (preamble stopTick)).is_stop_mode = true ∧
    stopTick.prev_is_stop_mode = false ∧
    (risingEdge ramp (inputs (preamble stopTick))).retrieve_time =
      stopTick.default_retrieve_duration ∧
    (risingEdge ramp (inputs (preamble stopTick))).m_interpolator =
      ramp.set stopTick.m_interpolator stopTick.m_q :=
  have hg : gate (preamble stopTick) = some (preamble stopTick) :=
    gate_of_initialized (by with_unfolding_all decide)
  have hstop : (inputs (preamble stopTick)).is_stop_mode = true := by
    with_unfolding_all decide
  have hprev : stopTick.prev_is_stop_mode = false := by with_unfolding_all decide
  have h := rising_edge_reseeds ramp consts stopTick (preamble stopTick) hg hstop hprev
  ⟨hg, hstop, hprev, h.1, h.2.1⟩

/-- C2, as stated, fails: `stopMotion` directly followed by `releaseMotion` releases stop
mode without any tick having run in stop mode, and the next tick, which is not stopped,
leaves `recover_time` at 0 although `default_recover_time` is 500 and the step is 1. -/
theorem release_rearm_counterexample :
    (stopMotion following).is_stop_mode = true ∧
    (releaseMotion (stopMotion following)).is_stop_mode = false ∧
    (inputs (preamble (arrive (refArrives [3])
      (releaseMotion (stopMotion following))))).is_stop_mode = false ∧
    (releaseMotion (stopMotion following)).default_recover_time = 500 ∧
    (releaseMotion (stopMotion following)).recover_time_dt = 1 ∧
    (onExecute ramp consts (arrive (refArrives [3])
      (releaseMotion (stopMotion following)))).recover_time = 0 ∧
    (onExecute ramp consts (arrive (refArrives [3])
      (releaseMotion (stopMotion following)))).recover_time ≠ 500 - 1 := by
  refine ⟨?_, ?_, ?_, ?_, ?_, ?_, ?_⟩ <;> with_unfolding_all decide

/-- C2, amended. A tick that runs in stop mode leaves `recover_time` equal to
`default_recover_time`.  If stop mode is released after such a tick (by `releaseMotion`
or by what arrives on the ports) with no other operation in between, the next tick, when
it is not stopped, starts from `recover_time = default_recover_time`; when
`default_recover_time` is positive it leaves `recover_time` one decrement step below,
that is `default_recover_time - 1` for the step 1 set at start-up. -/
theorem release_rearm (E : Interpolator I) (C : Consts) (s g : State I)
    (command : Bool) (a : Arrival)
    (hg : gate (preamble s) = some g)
    (hstop : (inputs g).is_stop_mode = true)
    (hrel : (inputs (preamble (between command a (onExecute E C s)))).is_stop_mode = false) :
    (onExecute E C s).recover_time = (onExecute E C s).default_recover_time ∧
    (onExecute E C s).default_recover_time = s.default_recover_time ∧
    gate (preamble (between command a (onExecute E C s))) =
      some (preamble (between command a (onExecute E C s))) ∧
    (inputs (preamble (between command a (onExecute E C s)))).recover_time =
      s.default_recover_time ∧
    (0 < s.default_recover_time →
      (onExecute E C (between command a (onExecute E C s))).recover_time =
        toInt ((s.default_recover_time : ℚ) - s.recover_time_dt)) ∧
    (0 < s.default_recover_time → s.recover_time_dt = 1 →
      (onExecute E C (between command a (onExecute E C s))).recover_time =
        s.default_recover_time - 1) := by
  have h1 := onExecute_stop_recover_time E C hg hstop
  have h2 := onExecute_default_recover_time E C hg
  have h3 := onExecute_recover_time_dt E C hg
  have hg2 : gate (preamble (between command a (onExecute E C s))) =
      some (preamble (between command a (onExecute E C s))) :=
    gate_of_initialized (by
      rw [preamble_is_initialized, between_is_initialized, onExecute_is_initialized E C hg])
  have F := tick_frame hg2
  have h4 : (inputs (preamble (between command a (onExecute E C s)))).recover_time =
      s.default_recover_time := by
    rw [F.recover_time, between_recover_time, h1]
  have h5 : (inputs (preamble (between command a (onExecute E C s)))).recover_time_dt =
      s.recover_time_dt := by
    rw [F.recover_time_dt, between_recover_time_dt, h3]
  have h6 : 0 < s.default_recover_time →
      (onExecute E C (between command a (onExecute E C s))).recover_time =
        toInt ((s.default_recover_time : ℚ) - s.recover_time_dt) := by
    intro hpos
    rw [onExecute_of_gate E C hg2, finish_recover_time,
      blend_recover E (by rw [risingEdge_is_stop_mode, hrel])
        (by rw [risingEdge_recover_time, h4]; exact hpos),
      recoverStep_recover_time, risingEdge_recover_time, risingEdge_recover_time_dt, h4, h5]
  refine ⟨by rw [h1, h2], h2, hg2, h4, h6, ?_⟩
  intro hpos hdt
  rw [h6 hpos, hdt, toInt_sub_one]

/-- C2 amended, at the tick `stopTick` that enters stop mode, released by the emergency
signal 0 on the next tick. -/
theorem release_rearm_witness :
    gate (preamble stopTick) = some (preamble stopTick) ∧
    (inputs (preamble stopTick)).is_stop_mode = true ∧
    (inputs (preamble (between false resetArrives
      (onExecute ramp consts stopTick)))).is_stop_mode = false ∧
    (onExecute ramp consts (between false resetArrives
      (onExecute ramp consts stopTick))).recover_time = stopTick.default_recover_time - 1 :=
  have hg : gate (preamble stopTick) = some (preamble stopTick) :=
    gate_of_initialized (by with_unfolding_all decide)
  have hstop : (inputs (preamble stopTick)).is_stop_mode = true := by
    with_unfolding_all decide
  have hrel : (inputs (preamble (between false resetArrives
      (onExecute ramp consts stopTick)))).is_stop_mode = false := by
    with_unfolding_all decide
  ⟨hg, hstop, hrel,
    (release_rearm ramp consts stopTick (preamble stopTick) false resetArrives
      hg hstop hrel).2.2.2.2.2 (by with_unfolding_all decide) (by with_unfolding_all decide)⟩

/-- C3. NORMAL pass-through: on a tick that is not in stop mode after its inputs and
starts with `recover_time = 0`, every joint of the commanded posture `m_q` equals the
reference `m_qRef` and every component of every commanded wrench equals the reference
wrench, and `recover_time` is still 0 after the tick. -/
theorem normal_pass_through (E : Interpolator I) (C : Consts) (s g : State I)
    (hg : gate (preamble s) = some g)
    (hrun : (inputs g).is_stop_mode = false)
    (hrt : s.recover_time = 0) :
    (onExecute E C s).recover_time = 0 ∧
    (onExecute E C s).m_q.length = s.m_q.length ∧
    (∀ i, i < s.m_q.length → i < (onExecute E C s).m_qRef.length →
      (onExecute E C s).m_q[i]? = (onExecute E C s).m_qRef[i]?) ∧
    ((onExecute E C s).m_qRef.length = s.m_q.length →
      (onExecute E C s).m_q = (onExecute E C s).m_qRef) ∧
    (∀ i j, i < s.m_wrenches.length → j < 6 → j < (s.m_wrenches.getD i []).length →
      i < (onExecute E C s).m_wrenchesRef.length →
      j < ((onExecute E C s).m_wrenchesRef.getD i []).length →
      ((onExecute E C s).m_wrenches.getD i [])[j]? =
        ((onExecute E C s).m_wrenchesRef.getD i [])[j]?) := by
  have F := tick_frame hg
  have he := onExecute_normal E C hg hrun (by rw [hrt]; decide)
  have hq : ∀ i, i < s.m_q.length → i < (onExecute E C s).m_qRef.length →
      (onExecute E C s).m_q[i]? = (onExecute E C s).m_qRef[i]? := by
    intro i hi hr
    rw [he, finish_m_q, finish_m_qRef, passThrough_m_q_entry _ i (by rw [F.m_q]; exact hi)]
    rw [he, finish_m_qRef] at hr
    have hr2 : i < (inputs g).m_qRef.length := hr
    show some ((inputs g).m_qRef.getD i 0) = (inputs g).m_qRef[i]?
    rw [List.getD_eq_getElem?_getD, List.getElem?_eq_getElem hr2, Option.getD_some]
  have hlen : (onExecute E C s).m_q.length = s.m_q.length := by
    rw [he, finish_m_q, passThrough_m_q_length, F.m_q]
  refine ⟨?_, hlen, hq, ?_, ?_⟩
  · rw [he, finish_recover_time, passThrough_recover_time, F.recover_time, hrt]
  · intro hl
    apply List.ext_getElem?
    intro i
    by_cases hi : i < s.m_q.length
    · exact hq i hi (by rw [hl]; exact hi)
    · rw [List.getElem?_eq_none (by rw [hlen]; omega),
        List.getElem?_eq_none (by rw [hl]; omega)]
  · intro i j hi hj hr hi2 hr2
    rw [he, finish_m_wrenches, finish_m_wrenchesRef,
      passThrough_m_wrenches_entry _ i j (by rw [F.m_wrenches]; exact hi) hj
        (by rw [F.m_wrenches]; exact hr)]
    rw [he, finish_m_wrenchesRef] at hr2
    have hr3 : j < ((inputs g).m_wrenchesRef.getD i []).length := hr2
    show some (((inputs g).m_wrenchesRef.getD i []).getD j 0) =
      ((inputs g).m_wrenchesRef.getD i [])[j]?
    rw [List.getD_eq_getElem?_getD ((inputs g).m_wrenchesRef.getD i []) j 0,
      List.getElem?_eq_getElem hr3, Option.getD_some]

/-- C3, at the tick `followTick` of a robot that follows its reference. -/
theorem normal_pass_through_witness :
    gate (preamble followTick) = some (preamble followTick) ∧
    (inputs (preamble followTick)).is_stop_mode = false ∧
    followTick.recover_time = 0 ∧
    (onExecute ramp consts followTick).recover_time = 0 ∧
    (onExecute ramp consts followTick).m_q = (onExecute ramp consts followTick).m_qRef :=
  have hg : gate (preamble followTick) = some (preamble followTick) :=
    gate_of_initialized (by with_unfolding_all decide)
  have hrun : (inputs (preamble followTick)).is_stop_mode = false := by
    with_unfolding_all decide
  have hrt : followTick.recover_time = 0 := by with_unfolding_all decide
  have h := normal_pass_through ramp consts followTick (preamble followTick) hg hrun hrt
  ⟨hg, hrun, hrt, h.1, h.2.2.2.1 (by with_unfolding_all decide)⟩

/-- C4. Hold: on a tick in stop mode whose `retrieve_time` is 0 after the rising-edge
handling, the rest of the tick calls no `setGoal` (both interpolators are as the
rising-edge handling left them: untouched, or seeded by `set` on an edge), the commanded
posture and wrenches are those of the previous tick, and `retrieve_time` is still 0. -/
theorem hold_keeps_command (E : Interpolator I) (C : Consts) (s g : State I)
    (hg : gate (preamble s) = some g)
    (hstop : (inputs g).is_stop_mode = true)
    (hrt : (risingEdge E (inputs g)).retrieve_time = 0) :
    (onExecute E C s).m_interpolator = (risingEdge E (inputs g)).m_interpolator ∧
    (onExecute E C s).m_wrenches_interpolator =
      (risingEdge E (inputs g)).m_wrenches_interpolator ∧
    (s.prev_is_stop_mode = true →
      (onExecute E C s).m_interpolator = s.m_interpolator ∧
      (onExecute E C s).m_wrenches_interpolator = s.m_wrenches_interpolator) ∧
    (s.prev_is_stop_mode = false →
      (onExecute E C s).m_interpolator = E.set s.m_interpolator s.m_q ∧
      (onExecute E C s).m_wrenches_interpolator =
        E.set s.m_wrenches_interpolator
          (getWrenchesArrayFromData s.m_wrenches s.m_tmp_wrenches)) ∧
    (onExecute E C s).m_q = s.m_q ∧
    (onExecute E C s).m_wrenches = s.m_wrenches ∧
    (onExecute E C s).retrieve_time = 0 := by
  have F := tick_frame hg
  have he : onExecute E C s =
      finish C { risingEdge E (inputs g) with
        recover_time := (risingEdge E (inputs g)).default_recover_time } := by
    rw [onExecute_of_gate E C hg,
      blend_hold E (by rw [risingEdge_is_stop_mode, hstop]) (by rw [hrt]; decide)]
  have h1 : (onExecute E C s).m_interpolator = (risingEdge E (inputs g)).m_interpolator := by
    rw [he, finish_m_interpolator]
  have h2 : (onExecute E C s).m_wrenches_interpolator =
      (risingEdge E (inputs g)).m_wrenches_interpolator := by
    rw [he, finish_m_wrenches_interpolator]
  refine ⟨h1, h2, ?_, ?_, ?_, ?_, ?_⟩
  · intro hp
    have hn : risingEdge E (inputs g) = inputs g :=
      risingEdge_of_no_edge E (by rw [F.prev_is_stop_mode, hp]; simp)
    rw [h1, h2, hn]
    exact ⟨F.m_interpolator, F.m_wrenches_interpolator⟩
  · intro hp
    have hr := risingEdge_of_edge E hstop (by rw [F.prev_is_stop_mode, hp])
    rw [h1, h2, hr]
    constructor
    · show E.set (inputs g).m_interpolator (inputs g).m_q = _
      rw [F.m_interpolator, F.m_q]
    · show E.set (inputs g).m_wrenches_interpolator
        (getWrenchesArrayFromData (inputs g).m_wrenches (inputs g).m_tmp_wrenches) = _
      rw [F.m_wrenches_interpolator, F.m_wrenches, F.m_tmp_wrenches]
  · rw [he, finish_m_q]
    show (risingEdge E (inputs g)).m_q = s.m_q
    rw [risingEdge_m_q, F.m_q]
  · rw [he, finish_m_wrenches]
    show (risingEdge E (inputs g)).m_wrenches = s.m_wrenches
    rw [risingEdge_m_wrenches, F.m_wrenches]
  · rw [he, finish_retrieve_time]
    exact hrt

/-- C4, at the tick `holdTick` of a stopped robot whose retrieve timer has run out. -/
theorem hold_keeps_command_witness :
    gate (preamble holdTick) = some (preamble holdTick) ∧
    (inputs (preamble holdTick)).is_stop_mode = true ∧
    (risingEdge ramp (inputs (preamble holdTick))).retrieve_time = 0 ∧
    (onExecute ramp consts holdTick).m_q = holdTick.m_q ∧
    (onExecute ramp consts holdTick).m_wrenches = holdTick.m_wrenches ∧
    (onExecute ramp consts holdTick).retrieve_time = 0 :=
  have hg : gate (preamble holdTick) = some (preamble holdTick) :=
    gate_of_initialized (by with_unfolding_all decide)
  have hstop : (inputs (preamble holdTick)).is_stop_mode = true := by
    with_unfolding_all decide
  have hrt : (risingEdge ramp (inputs (preamble holdTick))).retrieve_time = 0 := by
    with_unfolding_all decide
  have h := hold_keeps_command ramp consts holdTick (preamble holdTick) hg hstop hrt
  ⟨hg, hstop, hrt, h.2.2.2.2.1, h.2.2.2.2.2.1, h.2.2.2.2.2.2⟩

/-- C5. The stop baselines freeze in stop mode: a tick that begins with `is_stop_mode`
true leaves `m_stop_posture` and `m_stop_wrenches` as they were, whatever waits on the
input ports. -/
theorem stop_baseline_frozen (E : Interpolator I) (C : Consts) (s : State I)
    (h : s.is_stop_mode = true) :
    (onExecute E C s).m_stop_posture = s.m_stop_posture ∧
    (onExecute E C s).m_stop_wrenches = s.m_stop_wrenches := by
  cases hg : gate (preamble s) with
  | none =>
    -- the tick returns before the first reference posture: only the preamble ran
    simp only [onExecute, hg]
    exact ⟨(preamble_entry s).m_stop_posture, (preamble_entry s).m_stop_wrenches⟩
  | some g =>
    have e := entered hg
    -- the refresh of lines 316-324 and 359-369 is skipped, the mode being read before
    -- the trigger ports
    have hb := readReference_stop_baseline g (by rw [e.is_stop_mode, h])
    rw [onExecute_of_gate E C hg]
    simp [inputs_m_stop_posture, inputs_m_stop_wrenches, hb.1, hb.2, e.m_stop_posture,
      e.m_stop_wrenches]

/-- C5, at the tick `holdTick` of a stopped robot that receives the reference `[4]`. -/
theorem stop_baseline_frozen_witness :
    holdTick.is_stop_mode = true ∧
    (onExecute ramp consts holdTick).m_stop_posture = holdTick.m_stop_posture ∧
    (onExecute ramp consts holdTick).m_stop_wrenches = holdTick.m_stop_wrenches :=
  have h : holdTick.is_stop_mode = true := by with_unfolding_all decide
  ⟨h, stop_baseline_frozen ramp consts holdTick h⟩

/-- C6, as stated, fails: the tick `holdTick` begins in stop mode with
`m_motion_posture = [2]`, reads the reference `[4]`, and ends with
`m_motion_posture = [3]`, the posture commanded by the tick before. -/
theorem motion_posture_frozen_counterexample :
    holdTick.is_stop_mode = true ∧
    holdTick.m_motion_posture = [2] ∧
    holdTick.m_q = [3] ∧
    (onExecute ramp consts holdTick).m_motion_posture = [3] ∧
    (onExecute ramp consts holdTick).m_motion_posture ≠ holdTick.m_motion_posture := by
  refine ⟨?_, ?_, ?_, ?_, ?_⟩ <;> with_unfolding_all decide

/-- C6, amended. A tick that begins with `is_stop_mode` true leaves `m_motion_posture`
as it was when it reads no reference posture (lines 325-342 are under `isNew()` only, not
under `!is_stop_mode`).  When it reads one, of length `n`, with every read and write of the
loop inside its sequence (`n` is at most the length of `m_motion_posture`, and of
`m_qEmergency` if `solved`, and of `m_q` if neither `solved` nor `n` the length of `tmpq`),
every entry `i < n` is overwritten: with `m_qEmergency[i]` if `solved`, else with
`tmpq[i]` if `n` is the length of `tmpq`, else with the commanded `m_q[i]`; the entries
from `n` on stay. -/
theorem motion_posture_in_stop_mode (E : Interpolator I) (C : Consts) (s : State I)
    (h : s.is_stop_mode = true) :
    (gate (preamble s) = Option.none →
      (onExecute E C s).m_motion_posture = s.m_motion_posture) ∧
    (∀ g, gate (preamble s) = some g → g.m_qRefIn = [] →
      (onExecute E C s).m_motion_posture = s.m_motion_posture) ∧
    (∀ g q rest, gate (preamble s) = some g → g.m_qRefIn = q :: rest →
      q.length ≤ s.m_motion_posture.length →
      (s.solved = true → q.length ≤ s.m_qEmergency.length) →
      (s.solved = false → tmpq.length ≠ q.length → q.length ≤ s.m_q.length) →
      ∀ i, (onExecute E C s).m_motion_posture[i]? =
        if i < q.length then
          (if s.solved = false then
              if tmpq.length = q.length then tmpq[i]? else s.m_q[i]?
            else s.m_qEmergency[i]?)
        else s.m_motion_posture[i]?) := by
  refine ⟨?_, ?_, ?_⟩
  · intro hg
    simp only [onExecute, hg]
    exact (preamble_entry s).m_motion_posture
  · intro g hg hq
    rw [onExecute_of_gate E C hg]
    simp [inputs_m_motion_posture, readReference_nothing_new g hq,
      (entered hg).m_motion_posture]
  · intro g q rest hg hq hmp hqe hmq i
    have e := entered hg
    rw [onExecute_of_gate E C hg, finish_m_motion_posture, blend_m_motion_posture,
      risingEdge_m_motion_posture, inputs_m_motion_posture,
      readReference_m_motion_posture g q rest (by rw [e.is_stop_mode, h]) hq,
      forLoop_set_getElem?, e.solved, e.m_q, e.m_qEmergency, e.m_motion_posture]
    by_cases hi : i < q.length
    · rw [if_pos ⟨hi, by omega⟩, if_pos hi]
      by_cases hs : s.solved = false
      · rw [if_pos hs, if_pos hs]
        by_cases ht : tmpq.length = q.length
        · rw [if_pos ht, if_pos ht]
          exact some_getD_of_lt tmpq i 0 (by omega)
        · rw [if_neg ht, if_neg ht]
          exact some_getD_of_lt s.m_q i 0 (by have := hmq hs ht; omega)
      · rw [if_neg hs, if_neg hs]
        have hs1 : s.solved = true := by simpa using hs
        exact some_getD_of_lt s.m_qEmergency i 0 (by have := hqe hs1; omega)
    · rw [if_neg (fun hc => hi hc.1), if_neg hi]

/-- C6 amended, at the tick `holdTick` (not `solved`): entry 0 becomes the commanded
`m_q[0] = 3`; and at the tick `solvedTick` (`solved`, emergency posture `[7]` read
before): entry 0 becomes `m_qEmergency[0] = 7`. -/
theorem motion_posture_in_stop_mode_witness :
    (holdTick.is_stop_mode = true ∧ holdTick.solved = false ∧
      (onExecute ramp consts holdTick).m_motion_posture[0]? = some 3) ∧
    (solvedTick.is_stop_mode = true ∧ solvedTick.solved = true ∧
      solvedTick.m_qEmergency = [7] ∧
      (onExecute ramp consts solvedTick).m_motion_posture[0]? = some 7) :=
  have h1 : holdTick.is_stop_mode = true := by with_unfolding_all decide
  have h2 : solvedTick.is_stop_mode = true := by with_unfolding_all decide
  ⟨⟨h1, by with_unfolding_all decide,
      ((motion_posture_in_stop_mode ramp consts holdTick h1).2.2 (preamble holdTick) [4] []
        (gate_of_initialized (by with_unfolding_all decide)) (by with_unfolding_all decide)
        (by with_unfolding_all decide) (by with_unfolding_all decide)
        (by with_unfolding_all decide) 0).trans (by with_unfolding_all decide)⟩,
    ⟨h2, by with_unfolding_all decide, by with_unfolding_all decide,
      ((motion_posture_in_stop_mode ramp consts solvedTick h2).2.2 (preamble solvedTick) [5] []
        (gate_of_initialized (by with_unfolding_all decide)) (by with_unfolding_all decide)
        (by with_unfolding_all decide) (by with_unfolding_all decide)
        (by with_unfolding_all decide) 0).trans (by with_unfolding_all decide)⟩⟩

/-- C7, as stated, fails with the start-up configuration: `following` is in settled
NORMAL (`recover_time = 0`, history window 1) and last commanded `[2]`; the tick that
finds the emergency signal 1 together with the reference `[3]` ends stopped with
`m_stop_posture = [3]`, the raw reference of that tick, and `[3]` is the goal handed to
the interpolator. -/
theorem delayed_snapshot_counterexample :
    following.is_stop_mode = false ∧
    following.recover_time = 0 ∧
    following.default_retrieve_time = 1 ∧
    following.default_retrieve_duration = 1 ∧
    following.m_q = [2] ∧
    (onExecute ramp consts stopTick).is_stop_mode = true ∧
    (onExecute ramp consts stopTick).m_qRef = [3] ∧
    (onExecute ramp consts stopTick).m_stop_posture = [3] ∧
    (onExecute ramp consts stopTick).m_interpolator.goal = [3] ∧
    (onExecute ramp consts stopTick).m_stop_posture ≠ following.m_q := by
  refine ⟨?_, ?_, ?_, ?_, ?_, ?_, ?_, ?_, ?_, ?_⟩ <;> with_unfolding_all decide

/-- C7, amended. From settled NORMAL (`recover_time = 0`, not stopped, last tick not
stopped) with the start-up history window `default_retrieve_time = 1`, the tick that finds
the emergency signal 1 (and no fall-motion trigger) ends stopped, and the robot stays
stopped with the same `m_stop_posture` on all later ticks that bring nothing on the trigger
ports.  That `m_stop_posture` is the raw reference posture read on this very tick (the
window of 1 holds nothing older); it is the value the previous tick left only when no
reference arrives on this tick.  It is the goal of the retrieve step of this tick when the
fall flag is not set. -/
theorem stop_snapshot_startup_window (E : Interpolator I) (C : Consts) (s g : State I)
    (hg : gate (preamble s) = some g)
    (hrun : s.is_stop_mode = false)
    (hprev : s.prev_is_stop_mode = false)
    (hrt : s.recover_time = 0)
    (hwin : s.default_retrieve_time = 1)
    (hsig : s.m_emergencySignalIn = [1])
    (hfall : s.m_emergencyFallMotionIn = []) :
    (onExecute E C s).is_stop_mode = true ∧
    (∀ arrivals : List Arrival, (∀ a ∈ arrivals, a.quiet) →
      (run E C arrivals (onExecute E C s)).is_stop_mode = true ∧
      (run E C arrivals (onExecute E C s)).m_stop_posture =
        (onExecute E C s).m_stop_posture) ∧
    (∀ q rest, g.m_qRefIn = q :: rest →
      (onExecute E C s).m_qRef = q ∧
      ∀ i, i < q.length → i < s.m_stop_posture.length →
        (onExecute E C s).m_stop_posture[i]? = q[i]?) ∧
    (g.m_qRefIn = [] → (onExecute E C s).m_stop_posture = s.m_stop_posture) ∧
    (s.is_emergency_fall_motion = false → 0 < s.default_retrieve_duration →
      (onExecute E C s).m_interpolator =
        (E.get (E.setGoal (E.set s.m_interpolator s.m_q) (onExecute E C s).m_stop_posture
          (toInt ((s.default_retrieve_duration : ℚ) - s.recover_time_dt) : ℚ))).1) := by
  have e := entered hg
  have F := tick_frame hg
  have hi := inputs_signal_one g (e.is_stop_mode.trans hrun)
    (e.m_emergencySignalIn.trans hsig) (e.m_emergencyFallMotionIn.trans hfall)
  have he := onExecute_of_gate E C hg
  have hstop : (onExecute E C s).is_stop_mode = true := by
    rw [he]; simp [hi.1]
  have hsp : (onExecute E C s).m_stop_posture = (readReference g).m_stop_posture := by
    rw [he]; simp [inputs_m_stop_posture]
  refine ⟨hstop, ?_, ?_, ?_, ?_⟩
  · intro arrivals hq
    exact run_stopped_quiet E C arrivals (onExecute E C s) hq hstop
      (by rw [he]; simp [hi.2.2.1]) (by rw [he]; simp [hi.2.2.2])
  · intro q rest hq
    constructor
    · rw [he]; simp [inputs_m_qRef, readReference_m_qRef g q rest hq]
    · intro i hiq his
      rw [hsp, readReference_m_stop_posture g q rest (e.is_stop_mode.trans hrun)
        (by rw [e.recover_time, hrt]; decide) hq, forLoop_set_getElem?,
        e.default_retrieve_time, hwin, trimQueue_one, e.m_stop_posture, if_pos ⟨hiq, his⟩]
      show some (q.getD i 0) = q[i]?
      rw [List.getD_eq_getElem?_getD, List.getElem?_eq_getElem hiq, Option.getD_some]
  · intro hq
    rw [hsp, readReference_nothing_new g hq, e.m_stop_posture]
  · intro hnf hd
    have hs : (risingEdge E (inputs g)).is_stop_mode = true := by
      rw [risingEdge_is_stop_mode, hi.1]
    have hr := risingEdge_of_edge E hi.1 (F.prev_is_stop_mode.trans hprev)
    have h1 : (risingEdge E (inputs g)).retrieve_time = s.default_retrieve_duration := by
      rw [hr, ← F.default_retrieve_duration]
    have h2 : (risingEdge E (inputs g)).m_interpolator = E.set s.m_interpolator s.m_q := by
      rw [hr, ← F.m_interpolator, ← F.m_q]
    have hgoal : retrieveGoal (inputs g) = (readReference g).m_stop_posture := by
      unfold retrieveGoal
      rw [hi.2.1, e.is_emergency_fall_motion, hnf, inputs_m_stop_posture]
      rfl
    rw [hsp, he, finish_m_interpolator,
      blend_retrieve E hs (by rw [h1]; exact hd), retrieveStep_m_interpolator]
    simp only [h1, h2, retrieveGoal, risingEdge_is_emergency_fall_motion,
      risingEdge_m_motion_posture, risingEdge_m_stop_posture, risingEdge_recover_time_dt,
      F.recover_time_dt]
    unfold retrieveGoal at hgoal
    rw [hgoal]

/-- C7 amended, at the tick `stopTick` that finds the signal 1 and the reference `[3]`. -/
theorem stop_snapshot_startup_window_witness :
    gate (preamble stopTick) = some (preamble stopTick) ∧
    stopTick.is_stop_mode = false ∧
    stopTick.prev_is_stop_mode = false ∧
    stopTick.recover_time = 0 ∧
    stopTick.default_retrieve_time = 1 ∧
    stopTick.m_emergencySignalIn = [1] ∧
    stopTick.m_emergencyFallMotionIn = [] ∧
    (onExecute ramp consts stopTick).is_stop_mode = true ∧
    (onExecute ramp consts stopTick).m_stop_posture[0]? = [(3 : ℚ)][0]? :=
  have hg : gate (preamble stopTick) = some (preamble stopTick) :=
    gate_of_initialized (by with_unfolding_all decide)
  have h1 : stopTick.is_stop_mode = false := by with_unfolding_all decide
  have h2 : stopTick.prev_is_stop_mode = false := by with_unfolding_all decide
  have h3 : stopTick.recover_time = 0 := by with_unfolding_all decide
  have h4 : stopTick.default_retrieve_time = 1 := by with_unfolding_all decide
  have h5 : stopTick.m_emergencySignalIn = [1] := by with_unfolding_all decide
  have h6 : stopTick.m_emergencyFallMotionIn = [] := by with_unfolding_all decide
  have h := stop_snapshot_startup_window ramp consts stopTick (preamble stopTick)
    hg h1 h2 h3 h4 h5 h6
  ⟨hg, h1, h2, h3, h4, h5, h6, h.1,
    (h.2.2.1 [3] [] (by with_unfolding_all decide)).2 0 (by decide)
      (by with_unfolding_all decide)⟩

/-- C8. Terminal-posture commit: for every `angles` and `solved` flag, after
`setEmergencyJointAngles` the robot is in stop mode, `solved` is the flag,
`retrieve_time` is restarted at `default_retrieve_time`, and for every joint `i` both
`m_stop_posture[i]` and the published `m_qTouchWall[i]` hold `angles[i]` converted from
degrees to radians, except joints 33 and 35, forced to -1.39626, and joints 34 and 36,
forced to 1.39626.  (The two arrays have `numJoints` cells, as `onInitialize` sizes
them.) -/
theorem commit_terminal_posture (C : Consts) (angles : List ℚ) (solved : Bool) (s : State I)
    (hsp : s.m_stop_posture.length = s.numJoints)
    (htw : s.m_qTouchWall.length = s.numJoints) :
    (setEmergencyJointAngles C angles solved s).is_stop_mode = true ∧
    (setEmergencyJointAngles C angles solved s).solved = solved ∧
    (setEmergencyJointAngles C angles solved s).retrieve_time = s.default_retrieve_time ∧
    (∀ i, i < s.numJoints → (i = 33 ∨ i = 35) →
      (setEmergencyJointAngles C angles solved s).m_stop_posture[i]? = some (-1.39626 : ℚ) ∧
      (setEmergencyJointAngles C angles solved s).m_qTouchWall[i]? = some (-1.39626 : ℚ)) ∧
    (∀ i, i < s.numJoints → (i = 34 ∨ i = 36) →
      (setEmergencyJointAngles C angles solved s).m_stop_posture[i]? = some (1.39626 : ℚ) ∧
      (setEmergencyJointAngles C angles solved s).m_qTouchWall[i]? = some (1.39626 : ℚ)) ∧
    (∀ i a, i < s.numJoints → i ≠ 33 → i ≠ 34 → i ≠ 35 → i ≠ 36 → angles[i]? = some a →
      (setEmergencyJointAngles C angles solved s).m_stop_posture[i]? =
        some (a * C.M_PI / 180) ∧
      (setEmergencyJointAngles C angles solved s).m_qTouchWall[i]? =
        some (a * C.M_PI / 180)) := by
  refine ⟨rfl, rfl, rfl, ?_, ?_, ?_⟩
  · intro i hi h
    have e := setEmergencyJointAngles_entry C angles solved s hsp htw i hi
    have hv : committedAngle C angles i = -1.39626 := by
      unfold committedAngle; rw [if_pos h]
    rw [hv] at e
    exact e
  · intro i hi h
    have e := setEmergencyJointAngles_entry C angles solved s hsp htw i hi
    have hn : ¬ (i = 33 ∨ i = 35) := by omega
    have hv : committedAngle C angles i = 1.39626 := by
      unfold committedAngle; rw [if_neg hn, if_pos h]
    rw [hv] at e
    exact e
  · intro i a hi h33 h34 h35 h36 ha
    have e := setEmergencyJointAngles_entry C angles solved s hsp htw i hi
    have hn1 : ¬ (i = 33 ∨ i = 35) := by omega
    have hn2 : ¬ (i = 34 ∨ i = 36) := by omega
    have hv : committedAngle C angles i = a * C.M_PI / 180 := by
      unfold committedAngle deg2rad
      rw [if_neg hn1, if_neg hn2, List.getD_eq_getElem?_getD, ha, Option.getD_some]
    rw [hv] at e
    exact e

/-- C8, for the commit of 37 angles of 10 degrees on the robot `fallen`. -/
theorem commit_terminal_posture_witness :
    fallen.m_stop_posture.length = fallen.numJoints ∧
    fallen.m_qTouchWall.length = fallen.numJoints ∧
    committed.is_stop_mode = true ∧
    committed.solved = true ∧
    committed.retrieve_time = fallen.default_retrieve_time ∧
    committed.m_stop_posture[33]? = some (-1.39626 : ℚ) ∧
    committed.m_qTouchWall[34]? = some (1.39626 : ℚ) ∧
    committed.m_stop_posture[0]? = some (10 * consts.M_PI / 180) :=
  have hsp : fallen.m_stop_posture.length = fallen.numJoints := by with_unfolding_all decide
  have htw : fallen.m_qTouchWall.length = fallen.numJoints := by with_unfolding_all decide
  have h := commit_terminal_posture consts (List.replicate 37 10) true fallen hsp htw
  ⟨hsp, htw, h.1, h.2.1, h.2.2.1,
    (h.2.2.2.1 33 (by with_unfolding_all decide) (Or.inl rfl)).1,
    (h.2.2.2.2.1 34 (by with_unfolding_all decide) (Or.inl rfl)).2,
    (h.2.2.2.2.2 0 10 (by with_unfolding_all decide) (by decide) (by decide) (by decide)
      (by decide) (by with_unfolding_all decide)).1⟩

/-- C9, as stated, fails: on the robot `fallen` (stopped by the fall-motion trigger, fall
flag set, `m_motion_posture` holding the fallback posture `tmpq`) a terminal posture is
committed with `solved = true`; the next tick stays in stop mode with `retrieve_time > 0`
and hands `tmpq`, not the committed `m_stop_posture`, to the posture interpolator. -/
theorem retrieve_goal_counterexample :
    fallen.is_emergency_fall_motion = true ∧
    committed.solved = true ∧
    committed.is_stop_mode = true ∧
    (inputs (preamble committed)).is_stop_mode = true ∧
    0 < (risingEdge ramp (inputs (preamble committed))).retrieve_time ∧
    (onExecute ramp consts committed).m_interpolator.goal = tmpq ∧
    (onExecute ramp consts committed).m_interpolator.goal ≠ committed.m_stop_posture := by
  refine ⟨?_, ?_, ?_, ?_, ?_, ?_, ?_⟩
  · with_unfolding_all decide
  · with_unfolding_all decide
  · with_unfolding_all decide
  · with_unfolding_all decide
  · with_unfolding_all decide
  · with_unfolding_all rfl
  · with_unfolding_all decide

/-- C9, amended. After a commit with `solved = true`, on every later tick of a run that
stayed in stop mode, if the tick is in stop mode with `retrieve_time > 0`, the goal handed
to the posture interpolator is the committed `m_stop_posture` when the fall flag is not
set.  When the fall flag is set the goal is `m_motion_posture`; its entries are those of
the emergency posture `m_qEmergency` on a tick that reads a reference posture no longer
than `m_qEmergency` (so that line 339 reads inside it), and what it held before on a tick
that reads none. -/
theorem retrieve_goal_after_commit (E : Interpolator I) (C : Consts) (s0 g : State I)
    (angles : List ℚ) (arrivals : List Arrival) (a : Arrival)
    (hstay : staysStopped E C arrivals (setEmergencyJointAngles C angles true s0))
    (hg : gate (preamble (afterCommit E C angles arrivals a s0)) = some g)
    (hstop : (inputs g).is_stop_mode = true)
    (hrt : 0 < (risingEdge E (inputs g)).retrieve_time) :
    ((inputs g).is_emergency_fall_motion = false →
      (onExecute E C (afterCommit E C angles arrivals a s0)).m_interpolator =
        (E.get (E.setGoal (risingEdge E (inputs g)).m_interpolator
          (setEmergencyJointAngles C angles true s0).m_stop_posture
          (toInt (((risingEdge E (inputs g)).retrieve_time : ℚ) -
            (afterCommit E C angles arrivals a s0).recover_time_dt) : ℚ))).1) ∧
    ((inputs g).is_emergency_fall_motion = true →
      (onExecute E C (afterCommit E C angles arrivals a s0)).m_interpolator =
        (E.get (E.setGoal (risingEdge E (inputs g)).m_interpolator
          (inputs g).m_motion_posture
          (toInt (((risingEdge E (inputs g)).retrieve_time : ℚ) -
            (afterCommit E C angles arrivals a s0).recover_time_dt) : ℚ))).1) ∧
    (∀ q rest, g.m_qRefIn = q :: rest →
      q.length ≤ (afterCommit E C angles arrivals a s0).m_qEmergency.length →
      ∀ i, i < q.length →
      i < (afterCommit E C angles arrivals a s0).m_motion_posture.length →
      (inputs g).m_motion_posture[i]? =
        (afterCommit E C angles arrivals a s0).m_qEmergency[i]?) ∧
    (g.m_qRefIn = [] →
      (inputs g).m_motion_posture =
        (afterCommit E C angles arrivals a s0).m_motion_posture) := by
  have hr := run_staysStopped E C arrivals (setEmergencyJointAngles C angles true s0) rfl hstay
  have hs1 : (afterCommit E C angles arrivals a s0).is_stop_mode = true := hr.1
  have hs2 : (afterCommit E C angles arrivals a s0).m_stop_posture =
      (setEmergencyJointAngles C angles true s0).m_stop_posture := hr.2.1
  have hs3 : (afterCommit E C angles arrivals a s0).solved = true := hr.2.2
  have e := entered hg
  have F := tick_frame hg
  have hgs : g.is_stop_mode = true := e.is_stop_mode.trans hs1
  have hsp : (inputs g).m_stop_posture =
      (setEmergencyJointAngles C angles true s0).m_stop_posture := by
    rw [inputs_m_stop_posture, (readReference_stop_baseline g hgs).1, e.m_stop_posture, hs2]
  have hs : (risingEdge E (inputs g)).is_stop_mode = true := by
    rw [risingEdge_is_stop_mode, hstop]
  have hm : (onExecute E C (afterCommit E C angles arrivals a s0)).m_interpolator =
      (E.get (E.setGoal (risingEdge E (inputs g)).m_interpolator (retrieveGoal (inputs g))
        (toInt (((risingEdge E (inputs g)).retrieve_time : ℚ) -
          (afterCommit E C angles arrivals a s0).recover_time_dt) : ℚ))).1 := by
    rw [onExecute_of_gate E C hg, finish_m_interpolator, blend_retrieve E hs hrt,
      retrieveStep_m_interpolator]
    simp only [retrieveGoal, risingEdge_is_emergency_fall_motion, risingEdge_m_motion_posture,
      risingEdge_m_stop_posture, risingEdge_recover_time_dt, F.recover_time_dt]
  refine ⟨?_, ?_, ?_, ?_⟩
  · intro hf
    rw [hm, retrieveGoal, hf, ← hsp]
    rfl
  · intro hf
    rw [hm, retrieveGoal, if_pos hf]
  · intro q rest hq hqe i hi hl
    rw [inputs_m_motion_posture, readReference_m_motion_posture g q rest hgs hq,
      forLoop_set_getElem?, e.solved, hs3, e.m_motion_posture, if_pos ⟨hi, hl⟩,
      e.m_qEmergency]
    exact some_getD_of_lt _ i 0 (by omega)
  · intro hq
    rw [inputs_m_motion_posture, readReference_nothing_new g hq, e.m_motion_posture]

/-- C9 amended, at the tick `solvedTick`: the robot was stopped by the emergency signal
(fall flag clear), the posture `[10]` (degrees) was committed with `solved = true`, one
stopped tick read the emergency posture `[7]`, and this tick reads the reference `[5]` with
`retrieve_time = 2`.  The goal handed to the posture interpolator is the committed
`m_stop_posture`, and entry 0 of `m_motion_posture` becomes `m_qEmergency[0] = 7`. -/
theorem retrieve_goal_after_commit_witness :
    staysStopped ramp consts [emergencyArrives]
      (setEmergencyJointAngles consts [10] true signalStopped) ∧
    gate (preamble solvedTick) = some (preamble solvedTick) ∧
    (inputs (preamble solvedTick)).is_stop_mode = true ∧
    (risingEdge ramp (inputs (preamble solvedTick))).retrieve_time = 2 ∧
    (inputs (preamble solvedTick)).is_emergency_fall_motion = false ∧
    (setEmergencyJointAngles consts [10] true signalStopped).m_stop_posture =
      [deg2rad consts 10] ∧
    (onExecute ramp consts solvedTick).m_interpolator.goal =
      (setEmergencyJointAngles consts [10] true signalStopped).m_stop_posture ∧
    (inputs (preamble solvedTick)).m_motion_posture[0]? = some 7 :=
  have hstay : staysStopped ramp consts [emergencyArrives]
      (setEmergencyJointAngles consts [10] true signalStopped) :=
    ⟨by with_unfolding_all decide, trivial⟩
  have hg : gate (preamble solvedTick) = some (preamble solvedTick) :=
    gate_of_initialized (by with_unfolding_all decide)
  have hstop : (inputs (preamble solvedTick)).is_stop_mode = true := by
    with_unfolding_all decide
  have hrt2 : (risingEdge ramp (inputs (preamble solvedTick))).retrieve_time = 2 := by
    with_unfolding_all decide
  have hrt : 0 < (risingEdge ramp (inputs (preamble solvedTick))).retrieve_time := by
    rw [hrt2]; decide
  have hf : (inputs (preamble solvedTick)).is_emergency_fall_motion = false := by
    with_unfolding_all decide
  have hthm := retrieve_goal_after_commit ramp consts signalStopped (preamble solvedTick) [10]
    [emergencyArrives] (refArrives [5]) hstay hg hstop hrt
  ⟨hstay, hg, hstop, hrt2, hf, by with_unfolding_all rfl,
    congrArg Ramp.goal (hthm.1 hf),
    (hthm.2.2.1 [5] [] (by with_unfolding_all decide) (by with_unfolding_all decide) 0
      (by decide) (by with_unfolding_all decide)).trans (by with_unfolding_all decide)⟩

/-- C10. The operation `releaseMotion` is idempotent: applied twice it gives the state
it gives when applied once; it changes nothing exactly when the state is already released
(not stopped, `emergency_mode` 0, fall flag and `solved` false); after it these four
members have these values, and every other member (timers, postures, queues, configured
defaults, ports, interpolators) is as before. -/
theorem releaseMotion_idempotent (s : State I) :
    releaseMotion (releaseMotion s) = releaseMotion s ∧
    (releaseMotion s = s ↔
      (s.is_stop_mode = false ∧ s.emergency_mode = 0 ∧
        s.is_emergency_fall_motion = false ∧ s.solved = false)) ∧
    (releaseMotion s).is_stop_mode = false ∧
    (releaseMotion s).emergency_mode = 0 ∧
    (releaseMotion s).is_emergency_fall_motion = false ∧
    (releaseMotion s).solved = false ∧
    (releaseMotion s).numJoints = s.numJoints ∧
    (releaseMotion s).m_dt = s.m_dt ∧
    (releaseMotion s).m_qRefIn = s.m_qRefIn ∧
    (releaseMotion s).m_qEmergencyIn = s.m_qEmergencyIn ∧
    (releaseMotion s).m_emergencySignalIn = s.m_emergencySignalIn ∧
    (releaseMotion s).m_emergencyFallMotionIn = s.m_emergencyFallMotionIn ∧
    (releaseMotion s).m_servoStateIn = s.m_servoStateIn ∧
    (releaseMotion s).m_wrenchesIn = s.m_wrenchesIn ∧
    (releaseMotion s).m_qRef = s.m_qRef ∧
    (releaseMotion s).m_qEmergency = s.m_qEmergency ∧
    (releaseMotion s).m_emergencySignal = s.m_emergencySignal ∧
    (releaseMotion s).m_emergencyFallMotion = s.m_emergencyFallMotion ∧
    (releaseMotion s).m_servoState = s.m_servoState ∧
    (releaseMotion s).m_wrenchesRef = s.m_wrenchesRef ∧
    (releaseMotion s).m_q = s.m_q ∧
    (releaseMotion s).m_qTouchWall = s.m_qTouchWall ∧
    (releaseMotion s).m_wrenches = s.m_wrenches ∧
    (releaseMotion s).m_emergencyMode = s.m_emergencyMode ∧
    (releaseMotion s).m_touchWallMotionSolved = s.m_touchWallMotionSolved ∧
    (releaseMotion s).loop = s.loop ∧
    (releaseMotion s).emergency_stopper_beep_count = s.emergency_stopper_beep_count ∧
    (releaseMotion s).emergency_stopper_beep_freq = s.emergency_stopper_beep_freq ∧
    (releaseMotion s).bc = s.bc ∧
    (releaseMotion s).prev_is_stop_mode = s.prev_is_stop_mode ∧
    (releaseMotion s).is_initialized = s.is_initialized ∧
    (releaseMotion s).recover_time = s.recover_time ∧
    (releaseMotion s).retrieve_time = s.retrieve_time ∧
    (releaseMotion s).recover_time_dt = s.recover_time_dt ∧
    (releaseMotion s).default_recover_time = s.default_recover_time ∧
    (releaseMotion s).default_retrieve_time = s.default_retrieve_time ∧
    (releaseMotion s).default_retrieve_duration = s.default_retrieve_duration ∧
    (releaseMotion s).m_stop_posture = s.m_stop_posture ∧
    (releaseMotion s).m_motion_posture = s.m_motion_posture ∧
    (releaseMotion s).m_stop_wrenches = s.m_stop_wrenches ∧
    (releaseMotion s).m_tmp_wrenches = s.m_tmp_wrenches ∧
    (releaseMotion s).m_interpolator = s.m_interpolator ∧
    (releaseMotion s).m_wrenches_interpolator = s.m_wrenches_interpolator ∧
    (releaseMotion s).m_input_posture_queue = s.m_input_posture_queue ∧
    (releaseMotion s).m_input_wrenches_queue = s.m_input_wrenches_queue := by
  refine ⟨rfl, ⟨?_, ?_⟩, rfl, rfl, rfl, rfl, rfl, rfl, rfl, rfl, rfl, rfl, rfl, rfl, rfl, rfl, rfl, rfl, rfl, rfl, rfl, rfl, rfl, rfl, rfl, rfl, rfl, rfl, rfl, rfl, rfl, rfl, rfl, rfl, rfl, rfl, rfl, rfl, rfl, rfl, rfl, rfl, rfl, rfl, rfl⟩
  · intro h
    have h1 : (releaseMotion s).is_stop_mode = s.is_stop_mode := by rw [h]
    have h2 : (releaseMotion s).emergency_mode = s.emergency_mode := by rw [h]
    have h3 : (releaseMotion s).is_emergency_fall_motion = s.is_emergency_fall_motion := by
      rw [h]
    have h4 : (releaseMotion s).solved = s.solved := by rw [h]
    exact ⟨h1.symm, h2.symm, h3.symm, h4.symm⟩
  · intro h
    cases s
    simp only [] at h
    obtain ⟨h1, h2, h3, h4⟩ := h
    subst h1 h2 h3 h4
    rfl

/-- C11, as stated, fails: `setEmergencyStopperParam` stores whatever durations it is
given, so after a call with the recover time -1 second, a `stopMotion` and one tick,
`recover_time` is the configured -200 ticks. -/
theorem timers_nonneg_counterexample :
    (exec ramp consts negativeParamRun oneJoint).is_stop_mode = true ∧
    (exec ramp consts negativeParamRun oneJoint).default_recover_time = -200 ∧
    (exec ramp consts negativeParamRun oneJoint).recover_time = -200 ∧
    (exec ramp consts negativeParamRun oneJoint).recover_time < 0 := by
  refine ⟨?_, ?_, ?_, ?_⟩ <;> with_unfolding_all decide

/-- C11, amended. In every state reached from the initial state (with a positive tick
period) by ticks, arrivals on the ports and the external operations (`stopMotion`,
`releaseMotion`, `setEmergencyStopperParam`, `setEmergencyJointAngles`, deactivation),
`recover_time` and `retrieve_time` are not negative and at most `intMax`, provided every
conversion of a duration to ticks is defined and not negative: every call of
`setEmergencyStopperParam` passes durations `d` with `0 ≤ d` and `d / m_dt ≤ intMax`, and
`2.5 / m_dt ≤ intMax` for the recover time of `onInitialize`. -/
theorem timers_nonneg (E : Interpolator I) (C : Consts) (numJoints nforce : Nat) (m_dt : ℚ)
    (ops : List Op) (hdt : 0 < m_dt) (hfit : 2.5 / m_dt ≤ intMax)
    (hops : ∀ op ∈ ops, op.fitsInt m_dt) :
    (0 ≤ (exec E C ops (onInitialize E C numJoints nforce m_dt)).recover_time ∧
      (exec E C ops (onInitialize E C numJoints nforce m_dt)).recover_time ≤ intMax) ∧
    (0 ≤ (exec E C ops (onInitialize E C numJoints nforce m_dt)).retrieve_time ∧
      (exec E C ops (onInitialize E C numJoints nforce m_dt)).retrieve_time ≤ intMax) := by
  have h := exec_timersInRange E C m_dt ops (onInitialize E C numJoints nforce m_dt) hops
    (onInitialize_timersOk E C numJoints nforce m_dt hdt)
    (onInitialize_timersInRange E C numJoints nforce m_dt hdt hfit)
  exact ⟨⟨h.1.1, h.2.2.1⟩, ⟨h.1.2.1, h.2.2.2.1⟩⟩

/-- C11 amended, for the run `positiveParamRun` of the robot `oneJoint`, whose durations
of 1 s are 200 ticks. -/
theorem timers_nonneg_witness :
    (0 : ℚ) < 1 / 200 ∧
    (2.5 : ℚ) / (1 / 200) ≤ intMax ∧
    (∀ op ∈ positiveParamRun, op.fitsInt (1 / 200)) ∧
    (exec ramp consts positiveParamRun (onInitialize ramp consts 1 1 (1 / 200))).recover_time =
      200 ∧
    (0 ≤ (exec ramp consts positiveParamRun
        (onInitialize ramp consts 1 1 (1 / 200))).recover_time ∧
      (exec ramp consts positiveParamRun
        (onInitialize ramp consts 1 1 (1 / 200))).recover_time ≤ intMax) ∧
    (0 ≤ (exec ramp consts positiveParamRun
        (onInitialize ramp consts 1 1 (1 / 200))).retrieve_time ∧
      (exec ramp consts positiveParamRun
        (onInitialize ramp consts 1 1 (1 / 200))).retrieve_time ≤ intMax) :=
  have hdt : (0 : ℚ) < 1 / 200 := by norm_num
  have hfit : (2.5 : ℚ) / (1 / 200) ≤ intMax := by
    unfold intMax
    norm_num
  have hops : ∀ op ∈ positiveParamRun, op.fitsInt (1 / 200) := by
    intro op hop
    simp only [positiveParamRun, List.mem_cons, List.mem_singleton, List.mem_nil_iff,
      or_false] at hop
    rcases hop with h | h | h | h <;> subst h
    · simp only [Op.fitsInt, intMax]
      norm_num
    · trivial
    · trivial
    · trivial
  have h := timers_nonneg ramp consts 1 1 (1 / 200) positiveParamRun hdt hfit hops
  ⟨hdt, hfit, hops, by with_unfolding_all decide, h.1, h.2⟩

/-- C12, as stated, fails: after two ticks that each read a reference posture both
queues hold one sample; `setEmergencyStopperParam` then sets the window to 0 and the
queues, which are trimmed only when the next reference posture is read, still hold one
sample each. -/
theorem queue_bound_counterexample :
    (exec ramp consts shrinkWindowRun oneJoint).default_retrieve_time = 0 ∧
    (exec ramp consts shrinkWindowRun oneJoint).m_input_posture_queue.length = 1 ∧
    (exec ramp consts shrinkWindowRun oneJoint).m_input_wrenches_queue.length = 1 ∧
    ¬ (((exec ramp consts shrinkWindowRun oneJoint).m_input_posture_queue.length : Int) ≤
      (exec ramp consts shrinkWindowRun oneJoint).default_retrieve_time) := by
  refine ⟨?_, ?_, ?_, ?_⟩ <;> with_unfolding_all decide

/-- C12, amended. In every state reached from the initial state by ticks, arrivals on the
ports and external operations of which none lowers the window `default_retrieve_time`,
the posture history queue and the wrench history queue each hold at most
`default_retrieve_time` samples.  After a call of `setEmergencyStopperParam` that
lowers the window the queues keep their samples until the next tick that reads a
reference posture; that tick trims both to the window, when the window is at least 1, or
is 0 and the tick begins stopped or releasing (`recover_time > 0`), so that it does not
read the head of a queue it has just emptied (lines 321 and 365). -/
theorem queue_bound (E : Interpolator I) (C : Consts) (numJoints nforce : Nat) (m_dt : ℚ)
    (ops : List Op)
    (hkeep : windowKept E C ops (onInitialize E C numJoints nforce m_dt)) :
    ((exec E C ops (onInitialize E C numJoints nforce m_dt)).m_input_posture_queue.length :
        Int) ≤
      (exec E C ops (onInitialize E C numJoints nforce m_dt)).default_retrieve_time ∧
    ((exec E C ops (onInitialize E C numJoints nforce m_dt)).m_input_wrenches_queue.length :
        Int) ≤
      (exec E C ops (onInitialize E C numJoints nforce m_dt)).default_retrieve_time ∧
    (∀ s g q rest, gate (preamble s) = some g → g.m_qRefIn = q :: rest →
      0 ≤ s.default_retrieve_time →
      (1 ≤ s.default_retrieve_time ∨ s.is_stop_mode = true ∨ 0 < s.recover_time) →
      ((onExecute E C s).m_input_posture_queue.length : Int) ≤
        (onExecute E C s).default_retrieve_time ∧
      ((onExecute E C s).m_input_wrenches_queue.length : Int) ≤
        (onExecute E C s).default_retrieve_time) := by
  have h0 : QueuesOk (onInitialize E C numJoints nforce m_dt) :=
    ⟨Int.one_nonneg, Int.le_of_lt Int.one_pos, Int.le_of_lt Int.one_pos⟩
  have h := exec_queuesOk E C ops (onInitialize E C numJoints nforce m_dt) hkeep h0
  refine ⟨h.2.1, h.2.2, ?_⟩
  intro s g q rest hg hq hw _
  have e := entered hg
  have ht := readReference_queues_trimmed g q rest hq
    (by rw [e.default_retrieve_time]; exact hw)
  rw [e.default_retrieve_time] at ht
  rw [onExecute_default_retrieve_time, onExecute_of_gate E C hg]
  simp only [finish_m_input_posture_queue, finish_m_input_wrenches_queue,
    blend_m_input_posture_queue, blend_m_input_wrenches_queue,
    risingEdge_m_input_posture_queue, risingEdge_m_input_wrenches_queue,
    inputs_m_input_posture_queue, inputs_m_input_wrenches_queue]
  exact ht

/-- C12 amended, for the run `growWindowRun` of the robot `oneJoint`, which raises the
window from 1 to 2, and for the tick `followTick`, which reads a reference posture under
the window 1. -/
theorem queue_bound_witness :
    windowKept ramp consts growWindowRun (onInitialize ramp consts 1 1 (1 / 200)) ∧
    ((exec ramp consts growWindowRun
      (onInitialize ramp consts 1 1 (1 / 200))).m_input_posture_queue.length : Int) ≤
      (exec ramp consts growWindowRun
        (onInitialize ramp consts 1 1 (1 / 200))).default_retrieve_time ∧
    followTick.default_retrieve_time = 1 ∧
    ((onExecute ramp consts followTick).m_input_posture_queue.length : Int) ≤
      (onExecute ramp consts followTick).default_retrieve_time :=
  have hkeep : windowKept ramp consts growWindowRun
      (onInitialize ramp consts 1 1 (1 / 200)) := by
    refine ⟨?_, ?_, ?_, ?_, ?_, ?_, ?_, trivial⟩ <;> with_unfolding_all decide
  have hw : followTick.default_retrieve_time = 1 := by with_unfolding_all decide
  ⟨hkeep, (queue_bound ramp consts 1 1 (1 / 200) growWindowRun hkeep).1, hw,
    ((queue_bound ramp consts 1 1 (1 / 200) growWindowRun hkeep).2.2 followTick
      (preamble followTick) [3] [] (gate_of_initialized (by with_unfolding_all decide))
      (by with_unfolding_all decide) (by rw [hw]; decide) (Or.inl (by rw [hw]))).1⟩

/-- C13. Beep cadence: with the beep frequency `F ≥ 1`, in a run of consecutive ticks that
reach the beep section stopped with a servo on, started with the counter at 0, the tick
number `k` (from 0) calls `startBeep` if and only if `k mod F = 0` and `k mod 3F ≠ 0`,
that is when `k mod 3F` is `F` or `2F`, and calls `stopBeep` otherwise; the counter is then
`k + 1`.  A tick that reaches the beep section not stopped or with no servo on calls
`stopBeep` and sets the counter to 0.  A tick that returns before the first reference
posture does not reach the beep section: the counter is still 0 and no call was ever made
on the beep client. -/
theorem beep_cadence (E : Interpolator I) (C : Consts) (arrivals : List Arrival)
    (s : State I) (F : Int)
    (hF : 1 ≤ F)
    (hfreq : s.emergency_stopper_beep_freq = F)
    (hcount : s.emergency_stopper_beep_count = 0)
    (hrun : alertRun E C arrivals s) :
    (∀ k, k < arrivals.length →
      ((run E C (arrivals.take (k + 1)) s).bc = BeepCall.startBeep 2352 ((F : ℚ) * 0.7) ↔
        ((k : Int) % F = 0 ∧ (k : Int) % (3 * F) ≠ 0)) ∧
      (¬ ((k : Int) % F = 0 ∧ (k : Int) % (3 * F) ≠ 0) →
        (run E C (arrivals.take (k + 1)) s).bc = BeepCall.stopBeep) ∧
      (((k : Int) % F = 0 ∧ (k : Int) % (3 * F) ≠ 0) ↔
        ((k : Int) % (3 * F) = F ∨ (k : Int) % (3 * F) = 2 * F)) ∧
      (run E C (arrivals.take (k + 1)) s).emergency_stopper_beep_count = (k : Int) + 1) ∧
    (∀ t g, gate (preamble t) = some g →
      ¬ ((beforeFinish E g).is_stop_mode = true ∧ hasServoOn C (beforeFinish E g) = true) →
      (onExecute E C t).bc = BeepCall.stopBeep ∧
      (onExecute E C t).emergency_stopper_beep_count = 0) ∧
    (∀ (ops : List Op) (numJoints nforce : Nat) (m_dt : ℚ),
      gate (preamble (exec E C ops (onInitialize E C numJoints nforce m_dt))) = Option.none →
      (onExecute E C
        (exec E C ops (onInitialize E C numJoints nforce m_dt))).emergency_stopper_beep_count
          = 0 ∧
      (onExecute E C (exec E C ops (onInitialize E C numJoints nforce m_dt))).bc =
        BeepCall.none) := by
  refine ⟨?_, ?_, ?_⟩
  · intro k hk
    have h := run_alert E C arrivals s k hrun hk
    rw [hcount, hfreq, Int.zero_add] at h
    have hk0 : (0 : Int) ≤ (k : Int) := Int.ofNat_nonneg k
    refine ⟨?_, ?_, cadence_period k F hF, h.2⟩
    · rw [h.1]
      exact beepAt_start k F hk0 hF
    · intro hn
      rw [h.1]
      exact beepAt_stop k F hk0 hF hn
  · intro t g hg hn
    have he : onExecute E C t = finish C (beforeFinish E g) := onExecute_of_gate E C hg
    rw [he]
    exact finish_silent C (beforeFinish E g) hn
  · intro ops numJoints nforce m_dt hg
    have h0 : BeepUntouched (onInitialize E C numJoints nforce m_dt) := fun _ => ⟨rfl, rfl⟩
    have h1 := exec_beepUntouched E C ops _ h0
    have h2 := onExecute_beepUntouched E C _ h1
    have hi : (onExecute E C
        (exec E C ops (onInitialize E C numJoints nforce m_dt))).is_initialized = false := by
      simp only [onExecute, hg]
      rw [preamble_is_initialized]
      unfold gate at hg
      split at hg
      · rename_i hf
        rw [preamble_is_initialized] at hf
        exact hf
      · cases hg
    exact h2 hi

/-- C13, for three ticks of the robot `slowFollowing`, whose beep frequency is 2: the tick
number 2 starts the beep. -/
theorem beep_cadence_witness :
    (1 : Int) ≤ 2 ∧
    slowFollowing.emergency_stopper_beep_freq = 2 ∧
    slowFollowing.emergency_stopper_beep_count = 0 ∧
    alertRun ramp consts alertArrivals slowFollowing ∧
    ((run ramp consts (alertArrivals.take (2 + 1)) slowFollowing).bc =
        BeepCall.startBeep 2352 (((2 : Int) : ℚ) * 0.7) ↔
      (((2 : Nat) : Int) % 2 = 0 ∧ ((2 : Nat) : Int) % (3 * 2) ≠ 0)) :=
  have hF : (1 : Int) ≤ 2 := by decide
  have hfreq : slowFollowing.emergency_stopper_beep_freq = 2 := by with_unfolding_all decide
  have hcount : slowFollowing.emergency_stopper_beep_count = 0 := by with_unfolding_all decide
  have hrun : alertRun ramp consts alertArrivals slowFollowing :=
    ⟨⟨_, gate_of_initialized (by with_unfolding_all decide), by with_unfolding_all decide,
        by with_unfolding_all decide⟩,
      ⟨_, gate_of_initialized (by with_unfolding_all decide), by with_unfolding_all decide,
        by with_unfolding_all decide⟩,
      ⟨_, gate_of_initialized (by with_unfolding_all decide), by with_unfolding_all decide,
        by with_unfolding_all decide⟩,
      trivial⟩
  ⟨hF, hfreq, hcount, hrun,
    ((beep_cadence ramp consts alertArrivals slowFollowing 2 hF hfreq hcount hrun).1 2
      (by decide)).1⟩

/-- C14, as stated, fails in (i): the tick `resetTick` of a stopped robot whose fall flag
and `solved` are set finds the emergency signal 0 and no fall-motion trigger; it leaves
stop mode, but the fall flag and `solved` are still set after it. -/
theorem signal_transition_counterexample :
    resetTick.m_emergencySignalIn = [0] ∧
    resetTick.m_emergencyFallMotionIn = [] ∧
    resetTick.is_stop_mode = true ∧
    (onExecute ramp consts resetTick).is_stop_mode = false ∧
    (onExecute ramp consts resetTick).solved = true ∧
    (onExecute ramp consts resetTick).is_emergency_fall_motion = true := by
  refine ⟨?_, ?_, ?_, ?_, ?_, ?_⟩ <;> with_unfolding_all decide

/-- C14, amended. On a tick that finds a new emergency signal `sig` and no fall-motion
trigger: (i) if `sig = 0` and the robot is stopped it leaves stop mode and `emergency_mode`
becomes 0, while `solved` and the fall flag keep their values; (ii) if `sig` is 1 or 2 and
the robot is not stopped it enters stop mode; (iii) in every other case `is_stop_mode` is
unchanged. -/
theorem signal_transition (E : Interpolator I) (C : Consts) (s g : State I) (sig : Int)
    (rest : List Int)
    (hg : gate (preamble s) = some g)
    (hsig : s.m_emergencySignalIn = sig :: rest)
    (hfall : s.m_emergencyFallMotionIn = []) :
    (sig = 0 → s.is_stop_mode = true →
      (onExecute E C s).is_stop_mode = false ∧
      (onExecute E C s).emergency_mode = 0 ∧
      (onExecute E C s).solved = s.solved ∧
      (onExecute E C s).is_emergency_fall_motion = s.is_emergency_fall_motion) ∧
    ((sig = 1 ∨ sig = 2) → s.is_stop_mode = false →
      (onExecute E C s).is_stop_mode = true) ∧
    (¬ (sig = 0 ∧ s.is_stop_mode = true) → ¬ ((sig = 1 ∨ sig = 2) ∧ s.is_stop_mode = false) →
      (onExecute E C s).is_stop_mode = s.is_stop_mode) := by
  have e := entered hg
  have h := inputs_signal g sig rest (e.m_emergencySignalIn.trans hsig)
    (e.m_emergencyFallMotionIn.trans hfall)
  rw [e.is_stop_mode, e.is_emergency_fall_motion] at h
  have h1 : (onExecute E C s).is_stop_mode = (inputs g).is_stop_mode := by
    rw [onExecute_of_gate E C hg]; simp
  have h2 : (onExecute E C s).emergency_mode = (inputs g).emergency_mode := by
    rw [onExecute_of_gate E C hg]; simp
  have h3 : (onExecute E C s).is_emergency_fall_motion =
      (inputs g).is_emergency_fall_motion := by
    rw [onExecute_of_gate E C hg]; simp
  rw [h1, h2, h3, h.1, h.2.1, h.2.2]
  refine ⟨?_, ?_, ?_⟩
  · intro h0 _
    rw [if_pos h0]
    refine ⟨rfl, h0, ?_, rfl⟩
    rw [onExecute_of_gate E C hg]
    simp [(tick_frame hg).solved]
  · intro h12 _
    have h0 : ¬ sig = 0 := by omega
    rw [if_neg h0, if_pos h12]
  · intro hn1 hn2
    by_cases h0 : sig = 0
    · rw [if_pos h0]
      cases hs : s.is_stop_mode
      · rfl
      · exact absurd ⟨h0, hs⟩ hn1
    · rw [if_neg h0]
      by_cases h12 : sig = 1 ∨ sig = 2
      · rw [if_pos h12]
        cases hs : s.is_stop_mode
        · exact absurd ⟨h12, hs⟩ hn2
        · rfl
      · rw [if_neg h12]

/-- C14 amended, at the tick `resetTick`. -/
theorem signal_transition_witness :
    gate (preamble resetTick) = some (preamble resetTick) ∧
    resetTick.m_emergencySignalIn = 0 :: [] ∧
    resetTick.m_emergencyFallMotionIn = [] ∧
    (onExecute ramp consts resetTick).is_stop_mode = false ∧
    (onExecute ramp consts resetTick).emergency_mode = 0 ∧
    (onExecute ramp consts resetTick).solved = resetTick.solved ∧
    (onExecute ramp consts resetTick).is_emergency_fall_motion =
      resetTick.is_emergency_fall_motion :=
  have hg : gate (preamble resetTick) = some (preamble resetTick) :=
    gate_of_initialized (by with_unfolding_all decide)
  have hsig : resetTick.m_emergencySignalIn = 0 :: [] := by with_unfolding_all decide
  have hfall : resetTick.m_emergencyFallMotionIn = [] := by with_unfolding_all decide
  ⟨hg, hsig, hfall,
    (signal_transition ramp consts resetTick (preamble resetTick) 0 [] hg hsig hfall).1 rfl
      (by with_unfolding_all decide)⟩

/-- C21. Trigger precedence within a tick: on a tick that gets past the start-up gate and
finds both a new emergency signal `sig` and a new fall-motion trigger `d`, the trigger,
which is read after the signal, decides the outcome whatever `sig` is: with `d = false` the
tick ends not stopped, with `emergency_mode` 0 and the fall flag cleared; with `d = true`
it ends stopped with the fall flag set (and `emergency_mode` keeps the signal). -/
theorem trigger_precedence (E : Interpolator I) (C : Consts) (s g : State I) (sig : Int)
    (rest : List Int) (d : Bool) (rest2 : List Bool)
    (hg : gate (preamble s) = some g)
    (hsig : s.m_emergencySignalIn = sig :: rest)
    (hfall : s.m_emergencyFallMotionIn = d :: rest2) :
    (d = false →
      (onExecute E C s).is_stop_mode = false ∧
      (onExecute E C s).emergency_mode = 0 ∧
      (onExecute E C s).is_emergency_fall_motion = false) ∧
    (d = true →
      (onExecute E C s).is_stop_mode = true ∧
      (onExecute E C s).is_emergency_fall_motion = true ∧
      (onExecute E C s).emergency_mode = sig) := by
  have e := entered hg
  have h := inputs_both g sig rest d rest2 (e.m_emergencySignalIn.trans hsig)
    (e.m_emergencyFallMotionIn.trans hfall)
  have h1 : (onExecute E C s).is_stop_mode = (inputs g).is_stop_mode := by
    rw [onExecute_of_gate E C hg]; simp
  have h2 : (onExecute E C s).emergency_mode = (inputs g).emergency_mode := by
    rw [onExecute_of_gate E C hg]; simp
  have h3 : (onExecute E C s).is_emergency_fall_motion =
      (inputs g).is_emergency_fall_motion := by
    rw [onExecute_of_gate E C hg]; simp
  rw [h1, h2, h3, h.1, h.2.1, h.2.2]
  refine ⟨?_, ?_⟩
  · intro hd
    subst hd
    exact ⟨rfl, rfl, rfl⟩
  · intro hd
    subst hd
    exact ⟨rfl, rfl, rfl⟩

/-- C21, for the robot `following`: the signal 1 with the trigger `false` leaves it not
stopped, and the signal 0 with the trigger `true` leaves it stopped with the fall flag
set. -/
theorem trigger_precedence_witness :
    (gate (preamble (bothTick 1 false)) = some (preamble (bothTick 1 false)) ∧
      (bothTick 1 false).m_emergencySignalIn = 1 :: [] ∧
      (bothTick 1 false).m_emergencyFallMotionIn = false :: [] ∧
      (onExecute ramp consts (bothTick 1 false)).is_stop_mode = false ∧
      (onExecute ramp consts (bothTick 1 false)).emergency_mode = 0 ∧
      (onExecute ramp consts (bothTick 1 false)).is_emergency_fall_motion = false) ∧
    (gate (preamble (bothTick 0 true)) = some (preamble (bothTick 0 true)) ∧
      (bothTick 0 true).m_emergencySignalIn = 0 :: [] ∧
      (bothTick 0 true).m_emergencyFallMotionIn = true :: [] ∧
      (onExecute ramp consts (bothTick 0 true)).is_stop_mode = true ∧
      (onExecute ramp consts (bothTick 0 true)).is_emergency_fall_motion = true ∧
      (onExecute ramp consts (bothTick 0 true)).emergency_mode = 0) :=
  have hg1 : gate (preamble (bothTick 1 false)) = some (preamble (bothTick 1 false)) :=
    gate_of_initialized (by with_unfolding_all decide)
  have hs1 : (bothTick 1 false).m_emergencySignalIn = 1 :: [] := by with_unfolding_all decide
  have hf1 : (bothTick 1 false).m_emergencyFallMotionIn = false :: [] := by
    with_unfolding_all decide
  have hg2 : gate (preamble (bothTick 0 true)) = some (preamble (bothTick 0 true)) :=
    gate_of_initialized (by with_unfolding_all decide)
  have hs2 : (bothTick 0 true).m_emergencySignalIn = 0 :: [] := by with_unfolding_all decide
  have hf2 : (bothTick 0 true).m_emergencyFallMotionIn = true :: [] := by
    with_unfolding_all decide
  ⟨⟨hg1, hs1, hf1,
      (trigger_precedence ramp consts (bothTick 1 false) (preamble (bothTick 1 false)) 1 []
        false [] hg1 hs1 hf1).1 rfl⟩,
    ⟨hg2, hs2, hf2,
      (trigger_precedence ramp consts (bothTick 0 true) (preamble (bothTick 0 true)) 0 []
        true [] hg2 hs2 hf2).2 rfl⟩⟩

/-- C22. Retrieve countdown: let a tick get past the start-up gate and be a rising edge
(`prev_is_stop_mode` false before it, `is_stop_mode` true after it) with the configured
retrieve duration `D = default_retrieve_duration ≥ 1` and the decrement step 1 of
`onInitialize`.  If the ticks that follow (driven only by port arrivals) all end in stop
mode, then after the `k`-th stopped tick, the rising-edge tick being `k = 1`,
`retrieve_time = max (D - k) 0`: it is `D - k` for `1 ≤ k ≤ D`, one less per tick, and 0
from the `D`-th tick on. -/
theorem retrieve_countdown (E : Interpolator I) (C : Consts) (s g : State I)
    (arrivals : List Arrival)
    (hg : gate (preamble s) = some g)
    (hprev : s.prev_is_stop_mode = false)
    (hstop : (onExecute E C s).is_stop_mode = true)
    (hdt : s.recover_time_dt = 1)
    (hD : 1 ≤ s.default_retrieve_duration)
    (hstay : staysStopped E C arrivals (onExecute E C s)) :
    (run E C arrivals (onExecute E C s)).retrieve_time =
      max (s.default_retrieve_duration - (arrivals.length + 1)) 0 := by
  have h1 := onExecute_edge_retrieve_time E C hg hprev hstop hdt hD
  have h := run_countdown E C arrivals (onExecute E C s) (onExecute_is_initialized E C hg)
    (by rw [onExecute_prev_is_stop_mode E C hg]; exact hstop)
    (by rw [onExecute_recover_time_dt E C hg]; exact hdt)
    (by rw [h1]; omega) hstay
  rw [h, h1]
  omega

/-- C22, for the robot `following` configured with a retrieve duration of 3 ticks: after
the rising-edge tick `retrieve_time` is 2, and after two more stopped ticks it is 0. -/
theorem retrieve_countdown_witness :
    gate (preamble countdownTick) = some (preamble countdownTick) ∧
    countdownTick.prev_is_stop_mode = false ∧
    (onExecute ramp consts countdownTick).is_stop_mode = true ∧
    countdownTick.recover_time_dt = 1 ∧
    countdownTick.default_retrieve_duration = 3 ∧
    staysStopped ramp consts [refArrives [4], Arrival.nothing]
      (onExecute ramp consts countdownTick) ∧
    (run ramp consts [] (onExecute ramp consts countdownTick)).retrieve_time = 2 ∧
    (run ramp consts [refArrives [4], Arrival.nothing]
      (onExecute ramp consts countdownTick)).retrieve_time = 0 :=
  have hg : gate (preamble countdownTick) = some (preamble countdownTick) :=
    gate_of_initialized (by with_unfolding_all decide)
  have hprev : countdownTick.prev_is_stop_mode = false := by with_unfolding_all decide
  have hstop : (onExecute ramp consts countdownTick).is_stop_mode = true := by
    with_unfolding_all decide
  have hdt : countdownTick.recover_time_dt = 1 := by with_unfolding_all decide
  have hD : countdownTick.default_retrieve_duration = 3 := by with_unfolding_all decide
  have hstay : staysStopped ramp consts [refArrives [4], Arrival.nothing]
      (onExecute ramp consts countdownTick) :=
    ⟨by with_unfolding_all decide, by with_unfolding_all decide, trivial⟩
  ⟨hg, hprev, hstop, hdt, hD, hstay,
    (retrieve_countdown ramp consts countdownTick (preamble countdownTick) [] hg hprev hstop
      hdt (by rw [hD]; decide) trivial).trans (by rw [hD]; decide),
    (retrieve_countdown ramp consts countdownTick (preamble countdownTick)
      [refArrives [4], Arrival.nothing] hg hprev hstop hdt (by rw [hD]; decide) hstay).trans
      (by rw [hD]; decide)⟩

/-- C25, as stated, fails in its second part: on the robot `oneJoint` three ticks read the
references `[1]`, `[2]`, `[3]` under the start-up window of 1 tick, then the window is set
to 3 ticks and a fourth tick reads `[4]`.  Four samples have arrived, the tick is not
stopped with `recover_time = 0` and reads the head of the posture history, which is `[3]`,
the sample of one tick earlier, not `[2]`, the sample of `3 - 1` ticks earlier. -/
theorem history_head_counterexample :
    (exec ramp consts lateWindowRun oneJoint).default_retrieve_time = 3 ∧
    (exec ramp consts lateWindowRun oneJoint).is_stop_mode = false ∧
    (exec ramp consts lateWindowRun oneJoint).recover_time = 0 ∧
    (exec ramp consts lateWindowRun oneJoint).m_input_posture_queue = [[3], [4]] ∧
    (exec ramp consts lateWindowRun oneJoint).m_input_wrenches_queue.length = 2 ∧
    (exec ramp consts lateWindowRun oneJoint).m_stop_posture = [3] := by
  refine ⟨?_, ?_, ?_, ?_, ?_, ?_⟩ <;> with_unfolding_all decide

/-- C25, amended.  With a window `W = default_retrieve_time ≥ 1`: (i) every tick that reads
a new reference posture leaves both history queues non-empty after push-and-trim (the
queues are not touched again in the tick, so the head it reads exists); (ii) over a run of
ticks that starts with queues no longer than `W`, once the ticks of the run have pushed at
least `W` samples each queue holds exactly the last `W` samples pushed, so its head is the
sample pushed `W - 1` pushes before the latest one; (iii) when the component is
initialized, the port buffer is empty at the start and every tick of the run gets exactly
one reference posture, the head of the posture history after at least `W` ticks is the
posture that arrived `W - 1` ticks before the last one. -/
theorem history_head (E : Interpolator I) (C : Consts) (s : State I) (arrivals : List Arrival)
    (hW : 1 ≤ s.default_retrieve_time) (hq : QueuesOk s) :
    (pushedPosture s ≠ [] →
      (onExecute E C s).m_input_posture_queue ≠ [] ∧
      (onExecute E C s).m_input_wrenches_queue ≠ []) ∧
    (s.default_retrieve_time ≤ (postureLog E C arrivals s).length →
      (run E C arrivals s).m_input_posture_queue =
        (postureLog E C arrivals s).drop
          ((postureLog E C arrivals s).length - s.default_retrieve_time.toNat) ∧
      (run E C arrivals s).m_input_wrenches_queue =
        (wrenchLog E C arrivals s).drop
          ((wrenchLog E C arrivals s).length - s.default_retrieve_time.toNat) ∧
      (run E C arrivals s).m_input_posture_queue.head? =
        (postureLog E C arrivals s)[(postureLog E C arrivals s).length -
          s.default_retrieve_time.toNat]? ∧
      (run E C arrivals s).m_input_wrenches_queue.head? =
        (wrenchLog E C arrivals s)[(wrenchLog E C arrivals s).length -
          s.default_retrieve_time.toNat]?) ∧
    (s.is_initialized = true → s.m_qRefIn = [] → (∀ a ∈ arrivals, a.qRef.length = 1) →
      s.default_retrieve_time ≤ arrivals.length →
      (run E C arrivals s).m_input_posture_queue.head? =
        (arrivals[arrivals.length - s.default_retrieve_time.toNat]?).map
          (fun a => a.qRef.headD [])) := by
  have hrun := run_queues E C arrivals s hq
  have hpost : s.default_retrieve_time ≤ (postureLog E C arrivals s).length →
      (run E C arrivals s).m_input_posture_queue =
        (postureLog E C arrivals s).drop
          ((postureLog E C arrivals s).length - s.default_retrieve_time.toNat) := by
    intro hlen
    rw [hrun.1]
    exact trimQueue_last _ _ _ hq.1 hq.2.1 hlen
  refine ⟨?_, ?_, ?_⟩
  · intro hp
    unfold pushedPosture at hp
    cases hg : gate (preamble s) with
    | none => rw [hg] at hp; exact absurd rfl hp
    | some g =>
      rw [hg] at hp
      dsimp only at hp
      cases hin : g.m_qRefIn with
      | nil => rw [hin] at hp; exact absurd rfl hp
      | cons q rest =>
        have h := onExecute_queues_pushed E C hg q rest hin
        rw [h.1, h.2]
        exact ⟨trimQueue_ne_nil _ hW _ _, trimQueue_ne_nil _ hW _ _⟩
  · intro hlen
    have hw : (run E C arrivals s).m_input_wrenches_queue =
        (wrenchLog E C arrivals s).drop
          ((wrenchLog E C arrivals s).length - s.default_retrieve_time.toNat) := by
      rw [hrun.2]
      exact trimQueue_last _ _ _ hq.1 hq.2.2 (by rw [wrenchLog_length]; exact hlen)
    refine ⟨hpost hlen, hw, ?_, ?_⟩
    · rw [hpost hlen, List.head?_drop]
    · rw [hw, List.head?_drop]
  · intro hi hin hall hlen
    have hlog := postureLog_one_per_tick E C arrivals s hi hin hall
    have hlen2 : s.default_retrieve_time ≤ (postureLog E C arrivals s).length := by
      rw [hlog, List.length_map]; exact hlen
    rw [hpost hlen2, List.head?_drop, hlog, List.length_map, List.getElem?_map]

/-- C25 amended, for the robot `following` with the window set to 2 ticks and three ticks
that bring the references `[3]`, `[4]`, `[5]`: the first of them leaves the queues
non-empty, and after the three the head of the posture history is `[4]`, the reference of
one tick before the last. -/
theorem history_head_witness :
    1 ≤ wideWindow.default_retrieve_time ∧ QueuesOk wideWindow ∧
    wideWindow.default_retrieve_time = 2 ∧
    pushedPosture (arrive (refArrives [3]) wideWindow) ≠ [] ∧
    (onExecute ramp consts (arrive (refArrives [3]) wideWindow)).m_input_posture_queue ≠ [] ∧
    (run ramp consts threeReferences wideWindow).m_input_posture_queue.head? = some [4] :=
  have hW : 1 ≤ wideWindow.default_retrieve_time := by with_unfolding_all decide
  have hq : QueuesOk wideWindow :=
    ⟨by with_unfolding_all decide, by with_unfolding_all decide, by with_unfolding_all decide⟩
  have hp : pushedPosture (arrive (refArrives [3]) wideWindow) ≠ [] := by
    with_unfolding_all decide
  ⟨hW, hq, by with_unfolding_all decide, hp,
    ((history_head ramp consts (arrive (refArrives [3]) wideWindow) [] hW hq).1 hp).1,
    ((history_head ramp consts wideWindow threeReferences hW hq).2.2
      (by with_unfolding_all decide) (by with_unfolding_all decide)
      (by with_unfolding_all decide) (by with_unfolding_all decide)).trans
      (by with_unfolding_all decide)⟩

end EmergencyStopper

namespace IIRFilter

open EmergencyStopper (forLoop forLoop_zero forLoop_succ forLoop_congr)

/-! ## Loops of the filter -/

theorem forLoop_push {α : Type} (g : Nat → α) (n : Nat) (init : List α) :
    forLoop n (fun i acc => acc ++ [g i]) init = init ++ (List.range n).map g := by
  induction n with
  | zero => simp [forLoop_zero]
  | succ n ih => rw [forLoop_succ, ih, List.range_succ, List.map_append, List.append_assoc]; rfl

theorem map_range_getD (l : List ℚ) (h : ℚ → ℚ) :
    (List.range l.length).map (fun i => h (l.getD i 0)) = l.map h := by
  apply List.ext_getElem?
  intro k
  by_cases hk : k < l.length
  · simp [hk, List.getElem?_eq_getElem, List.getD_eq_getElem?_getD]
  · have h1 : l.length ≤ k := by omega
    rw [List.getElem?_eq_none (by simpa using h1), List.getElem?_eq_none (by simpa using h1)]

theorem pushFeedForward_eq (B ff : List ℚ) : pushFeedForward B ff = ff ++ B := by
  unfold pushFeedForward
  rw [forLoop_push]
  have h := map_range_getD B (fun x => x)
  simp only [List.map_id'] at h
  rw [h]

theorem pushFeedback_eq (A fb : List ℚ) : pushFeedback A fb = fb ++ negateTail A := by
  unfold pushFeedback
  have hbody : ∀ i, i < A.length → ∀ acc : List ℚ,
      (if i = 0 then acc ++ [A.getD i 0] else acc ++ [-(A.getD i 0)]) =
        acc ++ [if i = 0 then A.getD i 0 else -(A.getD i 0)] := by
    intro i _ acc
    split <;> rfl
  rw [forLoop_congr A.length _ _ hbody, forLoop_push]
  congr 1
  cases A with
  | nil => rfl
  | cons a rest =>
    rw [List.length_cons, List.range_succ_eq_map, List.map_cons, List.map_map]
    unfold negateTail
    congr 1
    have h := map_range_getD rest (fun x => -x)
    rw [← h]
    apply List.map_congr_left
    intro i _
    simp

/-- The accumulation loops of `passFilter` are sums. -/
theorem forLoop_accumulate (c h : List ℚ) (n : Nat) (init : ℚ) :
    forLoop n (fun i acc => acc + c.getD (i + 1) 0 * h.getD i 0) init =
      init + ∑ i ∈ Finset.range n, c.getD (i + 1) 0 * h.getD i 0 := by
  induction n with
  | zero => simp [forLoop_zero]
  | succ n ih => rw [forLoop_succ, ih, Finset.sum_range_succ, add_assoc]

theorem foldl_add_eq_sum (l : List ℚ) (init : ℚ) :
    l.foldl (fun acc x => acc + x) init = init + l.sum := by
  induction l generalizing init with
  | nil => simp
  | cons a rest ih => rw [List.foldl_cons, ih, List.sum_cons, add_assoc]

theorem assign_of_nonneg (n : Int) (v : ℚ) (h : 0 ≤ n) :
    assign n v = some (List.replicate n.toNat v) := by
  unfold assign
  rw [if_pos h]

theorem assign_eq_some {n : Int} {v : ℚ} {l : List ℚ} (h : assign n v = some l) :
    0 ≤ n ∧ l = List.replicate n.toNat v := by
  unfold assign at h
  split at h
  · rename_i hn
    cases h
    exact ⟨hn, rfl⟩
  · cases h

/-- The result of `reset` when the feed-forward coefficients do not sum to 0 and the
dimension is not negative. -/
theorem reset_eq (v : ℚ) (f : Filter) (hdim : 0 ≤ f.m_dimension)
    (hsum : f.m_ff_coefficients.sum ≠ 0) :
    reset v f =
      some { f with m_previous_values :=
        List.replicate f.m_dimension.toNat (v / f.m_ff_coefficients.sum) } := by
  unfold reset
  dsimp only
  rw [foldl_add_eq_sum, zero_add, if_neg hsum, assign_of_nonneg _ _ hdim]

/-- The call `reset` has no result when the feed-forward coefficients sum to 0. -/
theorem reset_zero_sum (v : ℚ) (f : Filter) (hsum : f.m_ff_coefficients.sum = 0) :
    reset v f = Option.none := by
  unfold reset
  dsimp only
  rw [foldl_add_eq_sum, zero_add, if_pos hsum]

/-- A call of `setParameter` that finds the sizes wrong. -/
theorem setParameter_bad (dim : Int) (A B : List ℚ) (f : Filter)
    (h : ((A.length : Int) ≠ dim ∧ (A.length : Int) ≠ dim + 1) ∨ (B.length : Int) ≠ dim + 1) :
    setParameter dim A B f = some (false, { f with m_dimension := dim }) := by
  unfold setParameter
  dsimp only
  rw [if_pos h]

/-- A call of `setParameter` that finds the sizes right, for a dimension that is not
negative. -/
theorem setParameter_good (dim : Int) (A B : List ℚ) (f : Filter) (hdim : 0 ≤ dim)
    (h : ¬ (((A.length : Int) ≠ dim ∧ (A.length : Int) ≠ dim + 1) ∨
      (B.length : Int) ≠ dim + 1)) :
    setParameter dim A B f =
      some (true,
        { m_dimension := dim,
          m_fb_coefficients := (if (A.length : Int) = dim then [1] else []) ++ negateTail A,
          m_ff_coefficients := B,
          m_previous_values := List.replicate dim.toNat 0,
          m_initialized := true }) := by
  unfold setParameter
  dsimp only
  rw [if_neg h, assign_of_nonneg dim 0 hdim]
  dsimp only
  split <;> simp [pushFeedback_eq, pushFeedForward_eq]

/-- A call of `setParameter` that returns, returns `true` only for a dimension that is
not negative and sizes that are right. -/
theorem setParameter_true {dim : Int} {A B : List ℚ} {f f1 : Filter}
    (h : setParameter dim A B f = some (true, f1)) :
    0 ≤ dim ∧
    ¬ (((A.length : Int) ≠ dim ∧ (A.length : Int) ≠ dim + 1) ∨ (B.length : Int) ≠ dim + 1) := by
  by_cases hbad : ((A.length : Int) ≠ dim ∧ (A.length : Int) ≠ dim + 1) ∨
      (B.length : Int) ≠ dim + 1
  · rw [setParameter_bad dim A B f hbad] at h
    cases h
  · refine ⟨?_, hbad⟩
    by_contra hneg
    unfold setParameter at h
    dsimp only at h
    rw [if_neg hbad] at h
    have ha : assign dim 0 = Option.none := by
      unfold assign
      rw [if_neg hneg]
    rw [ha] at h
    cases h

theorem negateTail_length (A : List ℚ) : (negateTail A).length = A.length := by
  cases A with
  | nil => rfl
  | cons a rest => simp [negateTail]

theorem negateTail_head (A : List ℚ) : (negateTail A)[0]? = A[0]? := by
  cases A with
  | nil => rfl
  | cons a rest => simp [negateTail]

theorem negateTail_getElem? (A : List ℚ) (i : Nat) (hi : 1 ≤ i) :
    (negateTail A)[i]? = (A[i]?).map (fun x => -x) := by
  cases A with
  | nil => rfl
  | cons a rest =>
    obtain ⟨j, rfl⟩ : ∃ j, i = j + 1 := ⟨i - 1, by omega⟩
    simp [negateTail]

theorem sum_range_getD (l : List ℚ) :
    ∑ i ∈ Finset.range l.length, l.getD i 0 = l.sum := by
  induction l with
  | nil => simp
  | cons a rest ih =>
    rw [List.length_cons, Finset.sum_range_succ', List.sum_cons, add_comm]
    congr 1

/-- The sum over the entries after the first, as the loops of `passFilter` index them. -/
theorem sum_tail (l : List ℚ) (n : Nat) (h : l.length = n + 1) :
    ∑ i ∈ Finset.range n, l.getD (i + 1) 0 = l.tail.sum := by
  cases l with
  | nil => simp at h
  | cons a rest =>
    have hn : rest.length = n := by simpa using h
    rw [← hn, List.tail_cons, ← sum_range_getD rest]
    rfl

theorem sum_tail_mul (l : List ℚ) (n : Nat) (h : l.length = n + 1) (r : ℚ) :
    ∑ i ∈ Finset.range n, l.getD (i + 1) 0 * (List.replicate n r).getD i 0 =
      l.tail.sum * r := by
  rw [← sum_tail l n h, Finset.sum_mul]
  apply Finset.sum_congr rfl
  intro i hi
  have hi2 : i < n := Finset.mem_range.mp hi
  rw [List.getD_eq_getElem?_getD (List.replicate n r), List.getElem?_replicate,
    if_pos hi2, Option.getD_some]

theorem head_add_tail_sum (l : List ℚ) (n : Nat) (h : l.length = n + 1) :
    l.getD 0 0 + l.tail.sum = l.sum := by
  cases l with
  | nil => simp at h
  | cons a rest => simp

theorem dropLast_cons_replicate (n : Nat) (r : ℚ) :
    (r :: List.replicate n r).dropLast = List.replicate n r := by
  have h : r :: List.replicate n r = List.replicate n r ++ [r] := by
    rw [← List.replicate_succ, List.replicate_succ']
  rw [h, List.dropLast_concat]

/-- The filter and the value after `passFilter`, written with sums; the history is
assumed to have `m_dimension` cells. -/
theorem passFilter_eq (x : ℚ) (f : Filter) (hinit : f.m_initialized = true)
    (hlen : (f.m_previous_values.length : Int) = f.m_dimension) :
    passFilter x f =
      (specOutput x f,
        { f with m_previous_values := (specFeedback x f :: f.m_previous_values).dropLast }) := by
  have hn : f.m_dimension.toNat = f.m_previous_values.length := by omega
  unfold passFilter specOutput specFeedback
  rw [if_neg (by rw [hinit]; decide)]
  dsimp only
  rw [hn, forLoop_accumulate, forLoop_accumulate]

/-- The filter is at its steady state after `reset`: with unity DC gain of the stored
recurrence one pass of the steady value returns it and leaves the filter as it is. -/
theorem passFilter_steady (n : Nat) (fb ff : List ℚ) (v : ℚ)
    (hfb : fb.length = n + 1) (hff : ff.length = n + 1) (hsum : ff.sum ≠ 0)
    (hgain : fb.headD 0 * ff.sum + fb.tail.sum = 1) :
    passFilter v
        { m_dimension := (n : Int), m_fb_coefficients := fb, m_ff_coefficients := ff,
          m_previous_values := List.replicate n (v / ff.sum), m_initialized := true } =
      (v, { m_dimension := (n : Int), m_fb_coefficients := fb, m_ff_coefficients := ff,
            m_previous_values := List.replicate n (v / ff.sum), m_initialized := true }) := by
  have key : ∀ a t S : ℚ, S ≠ 0 → a * S + t = 1 → a * v + t * (v / S) = v / S := by
    intro a t S hS hg
    field_simp
    linear_combination v * hg
  have hh : fb.getD 0 0 = fb.headD 0 := by
    cases fb with
    | nil => rfl
    | cons a rest => rfl
  have hw : fb.getD 0 0 * v + fb.tail.sum * (v / ff.sum) = v / ff.sum := by
    rw [hh]
    exact key _ _ _ hsum hgain
  have hout : ff.getD 0 0 * (v / ff.sum) + ff.tail.sum * (v / ff.sum) = v := by
    rw [← add_mul, head_add_tail_sum ff n hff]
    field_simp
  rw [passFilter_eq v _ rfl (by simp)]
  unfold specOutput specFeedback
  dsimp only
  rw [List.length_replicate, sum_tail_mul fb n hfb, sum_tail_mul ff n hff, hw, hout,
    dropLast_cons_replicate]

theorem passMany_steady (v : ℚ) (f : Filter) (h : passFilter v f = (v, f)) (N : Nat) :
    passMany v N f = (List.replicate N v, f) := by
  induction N with
  | zero => rfl
  | succ N ih =>
    unfold passMany
    dsimp only
    rw [h]
    dsimp only
    rw [ih]
    rfl

/-! ## The claims on the filter -/

/-- C15, as stated, fails for the dimension -1 with empty `A` and `B`: the sizes pass the
test of line 37 (`B.size() = 0 = dim + 1`, `A.size() = 0 = dim + 1`), so the claim has the
call return `true` with the filter initialized, but `assign(dim, 0.0)` of line 64 throws and
the call returns nothing. -/
theorem setParameter_negative_dimension_counterexample :
    ¬ ((([] : List ℚ).length : Int) ≠ -1 + 1 ∨
      ((([] : List ℚ).length : Int) ≠ -1 ∧ (([] : List ℚ).length : Int) ≠ -1 + 1)) ∧
    setParameter (-1) [] [] (create 0) = Option.none ∧
    ¬ ∃ f1, setParameter (-1) [] [] (create 0) = some (true, f1) := by
  refine ⟨by decide, by with_unfolding_all decide, ?_⟩
  rintro ⟨f1, h⟩
  have h0 : setParameter (-1) [] [] (create 0) = Option.none := by with_unfolding_all decide
  rw [h0] at h
  cases h

/-- C15, amended. `setParameter(dim, A, B)` returns in every case but one, the dimension
-1 with empty `A` and `B`, where it throws.  When it returns, it returns `false` if and
only if `B.length ≠ dim+1` or `A.length` is neither `dim` nor `dim+1`; otherwise it returns
`true`, the dimension is not negative and the filter is initialized. -/
theorem setParameter_rejects_bad_sizes (dim : Int) (A B : List ℚ) (f : Filter) :
    (setParameter dim A B f = Option.none ↔ (dim = -1 ∧ A = [] ∧ B = [])) ∧
    (∀ r, setParameter dim A B f = some r →
      (r.1 = false ↔
        ((B.length : Int) ≠ dim + 1 ∨
          ((A.length : Int) ≠ dim ∧ (A.length : Int) ≠ dim + 1))) ∧
      (r.1 = true → 0 ≤ dim ∧ r.2.m_initialized = true)) := by
  by_cases hbad : ((A.length : Int) ≠ dim ∧ (A.length : Int) ≠ dim + 1) ∨
      (B.length : Int) ≠ dim + 1
  · have hs := setParameter_bad dim A B f hbad
    refine ⟨⟨fun h => ?_, fun h => ?_⟩, fun r hr => ?_⟩
    · rw [hs] at h
      cases h
    · obtain ⟨hd, hA, hB⟩ := h
      subst hd hA hB
      exact absurd hbad (by decide)
    · rw [hs] at hr
      cases hr
      refine ⟨⟨fun _ => Or.symm hbad, fun _ => rfl⟩, fun h => ?_⟩
      cases h
  · by_cases hdim : 0 ≤ dim
    · have hs := setParameter_good dim A B f hdim hbad
      refine ⟨⟨fun h => ?_, fun h => ?_⟩, fun r hr => ?_⟩
      · rw [hs] at h
        cases h
      · omega
      · rw [hs] at hr
        cases hr
        refine ⟨⟨fun h => ?_, fun h => absurd (Or.symm h) hbad⟩, fun _ => ⟨hdim, rfl⟩⟩
        cases h
    · have hs : setParameter dim A B f = Option.none := by
        unfold setParameter
        dsimp only
        rw [if_neg hbad]
        have ha : assign dim 0 = Option.none := by
          unfold assign
          rw [if_neg hdim]
        rw [ha]
      have hsz : ((A.length : Int) = dim ∨ (A.length : Int) = dim + 1) ∧
          (B.length : Int) = dim + 1 := by
        constructor
        · by_contra hc
          push_neg at hc
          exact hbad (Or.inl hc)
        · by_contra hc
          exact hbad (Or.inr hc)
      refine ⟨⟨fun _ => ?_, fun _ => hs⟩, fun r hr => ?_⟩
      · have hB : B.length = 0 := by omega
        have hd : dim = -1 := by omega
        have hA : A.length = 0 := by omega
        exact ⟨hd, List.length_eq_zero.mp hA, List.length_eq_zero.mp hB⟩
      · rw [hs] at hr
        cases hr

/-- C15 amended, for dimension 1 with `A = [1, 0]` and `B = [1, 1]` (returns `true`) and
with `A = [1]` and `B = [1, 1, 1]` (returns `false`). -/
theorem setParameter_rejects_bad_sizes_witness :
    setParameter 1 [1, 0] [1, 1] (create 0) = some (true, gainTwoFilter) ∧
    (0 ≤ (1 : Int) ∧ gainTwoFilter.m_initialized = true) ∧
    setParameter 1 [1] [1, 1, 1] (create 0) = some (false, create 1) ∧
    ((([1, 1, 1] : List ℚ).length : Int) ≠ 1 + 1 ∨
      ((([1] : List ℚ).length : Int) ≠ 1 ∧ (([1] : List ℚ).length : Int) ≠ 1 + 1)) :=
  have h1 : setParameter 1 [1, 0] [1, 1] (create 0) = some (true, gainTwoFilter) := by
    with_unfolding_all decide
  have h2 : setParameter 1 [1] [1, 1, 1] (create 0) = some (false, create 1) := by
    with_unfolding_all decide
  ⟨h1,
    ((setParameter_rejects_bad_sizes 1 [1, 0] [1, 1] (create 0)).2 _ h1).2 rfl,
    h2,
    ((setParameter_rejects_bad_sizes 1 [1] [1, 1, 1] (create 0)).2 _ h2).1.mp rfl⟩

/-- C16. Configure with an explicit leading coefficient: after a successful
`setParameter(dim, A, B)` with `A` of length `dim+1`, the stored feedback coefficients are
`[A[0], -A[1], ..., -A[dim]]`, the stored feed-forward coefficients are `B`, and the
history has exactly `dim` cells, all 0. -/
theorem setParameter_explicit_leading (dim : Int) (A B : List ℚ) (f f1 : Filter)
    (h : setParameter dim A B f = some (true, f1))
    (hA : (A.length : Int) = dim + 1) :
    f1.m_fb_coefficients = negateTail A ∧
    f1.m_fb_coefficients.length = A.length ∧
    f1.m_fb_coefficients[0]? = A[0]? ∧
    (∀ i : Nat, 1 ≤ i → f1.m_fb_coefficients[i]? = (A[i]?).map (fun x => -x)) ∧
    f1.m_ff_coefficients = B ∧
    (f1.m_previous_values.length : Int) = dim ∧
    (∀ x ∈ f1.m_previous_values, x = 0) := by
  obtain ⟨hdim, hgood⟩ := setParameter_true h
  rw [setParameter_good dim A B f hdim hgood] at h
  have hne : ¬ (A.length : Int) = dim := by omega
  rw [if_neg hne, List.nil_append] at h
  cases h
  refine ⟨rfl, negateTail_length A, negateTail_head A, fun i hi => negateTail_getElem? A i hi,
    rfl, ?_, ?_⟩
  · show ((List.replicate dim.toNat (0 : ℚ)).length : Int) = dim
    rw [List.length_replicate]
    omega
  · intro x hx
    exact List.eq_of_mem_replicate hx

/-- C16, for dimension 1 with `A = [1, -1/2]` and `B = [1/4, 1/4]`. -/
theorem setParameter_explicit_leading_witness :
    setParameter 1 [1, -1 / 2] [1 / 4, 1 / 4] (create 0) =
      some (true, { m_dimension := 1, m_fb_coefficients := [1, 1 / 2],
                    m_ff_coefficients := [1 / 4, 1 / 4], m_previous_values := [0],
                    m_initialized := true }) ∧
    ((([1, -1 / 2] : List ℚ).length : Int) = 1 + 1) ∧
    ({ m_dimension := 1, m_fb_coefficients := [1, 1 / 2],
       m_ff_coefficients := [1 / 4, 1 / 4], m_previous_values := [0],
       m_initialized := true } : Filter).m_fb_coefficients = negateTail [1, -1 / 2] :=
  have h : setParameter 1 [1, -1 / 2] [1 / 4, 1 / 4] (create 0) =
      some (true, { m_dimension := 1, m_fb_coefficients := [1, 1 / 2],
                    m_ff_coefficients := [1 / 4, 1 / 4], m_previous_values := [0],
                    m_initialized := true }) := by with_unfolding_all decide
  have hA : ((([1, -1 / 2] : List ℚ).length : Int) = 1 + 1) := by decide
  ⟨h, hA, (setParameter_explicit_leading 1 [1, -1 / 2] [1 / 4, 1 / 4] (create 0) _ h hA).1⟩

/-- C17 does not hold on the code: after a successful `setParameter(dim, A, B)` with `A`
of length `dim` the stored feedback coefficients are 1 followed by `A` with every entry
but its first negated, `[1, A[0], -A[1], ..., -A[dim-1]]`: the loop of lines 49-58 takes
`A[0]` for the leading coefficient also when the leading 1 has been pushed before it. -/
theorem implied_leading_one_stored (dim : Int) (A B : List ℚ) (f f1 : Filter)
    (h : setParameter dim A B f = some (true, f1))
    (hA : (A.length : Int) = dim) :
    f1.m_fb_coefficients = 1 :: negateTail A ∧
    f1.m_fb_coefficients[1]? = A[0]? ∧
    (∀ i : Nat, 1 ≤ i → f1.m_fb_coefficients[i + 1]? = (A[i]?).map (fun x => -x)) := by
  obtain ⟨hdim, hgood⟩ := setParameter_true h
  rw [setParameter_good dim A B f hdim hgood, if_pos hA] at h
  cases h
  refine ⟨rfl, ?_, ?_⟩
  · show ([1] ++ negateTail A)[1]? = A[0]?
    rw [List.singleton_append, List.getElem?_cons_succ, negateTail_head]
  · intro i hi
    show ([1] ++ negateTail A)[i + 1]? = _
    rw [List.singleton_append, List.getElem?_cons_succ, negateTail_getElem? A i hi]

/-- C17 on the code, for dimension 1 with `A = [1/2]` and `B = [1, 0]`: the stored
feedback coefficients are `[1, 1/2]`, not `[1, -1/2]`. -/
theorem implied_leading_one_stored_witness :
    setParameter 1 [1 / 2] [1, 0] (create 0) =
      some (true, { m_dimension := 1, m_fb_coefficients := [1, 1 / 2],
                    m_ff_coefficients := [1, 0], m_previous_values := [0],
                    m_initialized := true }) ∧
    ((([1 / 2] : List ℚ).length : Int) = 1) ∧
    ({ m_dimension := 1, m_fb_coefficients := [1, 1 / 2],
       m_ff_coefficients := [1, 0], m_previous_values := [0],
       m_initialized := true } : Filter).m_fb_coefficients = 1 :: negateTail [1 / 2] ∧
    ([1, 1 / 2] : List ℚ) ≠ [1, -(1 / 2)] :=
  have h : setParameter 1 [1 / 2] [1, 0] (create 0) =
      some (true, { m_dimension := 1, m_fb_coefficients := [1, 1 / 2],
                    m_ff_coefficients := [1, 0], m_previous_values := [0],
                    m_initialized := true }) := by with_unfolding_all decide
  have hA : ((([1 / 2] : List ℚ).length : Int) = 1) := by decide
  ⟨h, hA, (implied_leading_one_stored 1 [1 / 2] [1, 0] (create 0) _ h hA).1,
    by with_unfolding_all decide⟩

/-- C18. Apply: on a filter that is not initialized `passFilter` returns 0 and leaves the
filter as it is.  On a configured filter (initialized, with stored coefficients `fb`, `ff`
of `dim + 1` entries each and a history `h` of `dim` cells, so that every read is inside)
it returns `ff[0]*w + Σ_{i<dim} ff[i+1]*h[i]` with
`w = fb[0]*sample + Σ_{i<dim} fb[i+1]*h[i]`; the new history is `w` followed by `h`
without its last cell, so it still has `dim` cells; nothing else changes, and the sizes
still fit. -/
theorem passFilter_direct_form (sample : ℚ) (f : Filter) :
    (f.m_initialized = false → passFilter sample f = (0, f)) ∧
    (f.m_initialized = true → SizesOk f →
      (passFilter sample f).1 =
        f.m_ff_coefficients.getD 0 0 * specFeedback sample f +
          ∑ i ∈ Finset.range f.m_previous_values.length,
            f.m_ff_coefficients.getD (i + 1) 0 * f.m_previous_values.getD i 0 ∧
      specFeedback sample f =
        f.m_fb_coefficients.getD 0 0 * sample +
          ∑ i ∈ Finset.range f.m_previous_values.length,
            f.m_fb_coefficients.getD (i + 1) 0 * f.m_previous_values.getD i 0 ∧
      (∀ i, i < f.m_previous_values.length →
        i + 1 < f.m_fb_coefficients.length ∧ i + 1 < f.m_ff_coefficients.length) ∧
      (passFilter sample f).2.m_previous_values =
        (specFeedback sample f :: f.m_previous_values).dropLast ∧
      (passFilter sample f).2.m_previous_values.length = f.m_previous_values.length ∧
      (passFilter sample f).2.m_fb_coefficients = f.m_fb_coefficients ∧
      (passFilter sample f).2.m_ff_coefficients = f.m_ff_coefficients ∧
      (passFilter sample f).2.m_dimension = f.m_dimension ∧
      (passFilter sample f).2.m_initialized = f.m_initialized ∧
      SizesOk (passFilter sample f).2) := by
  constructor
  · intro h
    unfold passFilter
    rw [if_pos h]
  · intro hinit hok
    obtain ⟨h1, h2, hlen⟩ := hok hinit
    have hl : ((specFeedback sample f :: f.m_previous_values).dropLast).length =
        f.m_previous_values.length := by
      rw [List.length_dropLast, List.length_cons]
      omega
    rw [passFilter_eq sample f hinit hlen]
    refine ⟨rfl, rfl, fun i hi => ⟨by omega, by omega⟩, rfl, hl, rfl, rfl, rfl, rfl, ?_⟩
    intro _
    refine ⟨h1, h2, ?_⟩
    show (((specFeedback sample f :: f.m_previous_values).dropLast).length : Int) = _
    rw [hl]
    exact hlen

/-- C18, for one pass of the sample 1 through the filter `lowPassFilter` with the history
`[2]`: the feedback term is 2 and the returned value 1. -/
theorem passFilter_direct_form_witness :
    ({ lowPassFilter with m_previous_values := [2] } : Filter).m_initialized = true ∧
    SizesOk { lowPassFilter with m_previous_values := [2] } ∧
    (passFilter 1 { lowPassFilter with m_previous_values := [2] }).2.m_previous_values =
      (specFeedback 1 { lowPassFilter with m_previous_values := [2] } ::
        ({ lowPassFilter with m_previous_values := [2] } : Filter).m_previous_values).dropLast ∧
    passFilter 1 { lowPassFilter with m_previous_values := [2] } =
      (1, { lowPassFilter with m_previous_values := [2] }) :=
  have hok : SizesOk { lowPassFilter with m_previous_values := [2] } :=
    fun _ => ⟨rfl, rfl, rfl⟩
  ⟨rfl, hok,
    ((passFilter_direct_form 1 { lowPassFilter with m_previous_values := [2] }).2 rfl
      hok).2.2.2.1,
    by with_unfolding_all decide⟩

/-- C20, as stated, fails: the configuration `dim = 1`, `A = [1, 0]`, `B = [1, 1]` succeeds
and has DC gain 2; after `reset(1)` three calls of `passFilter(1)` return 3/2, 2 and 2,
never 1. -/
theorem steady_state_counterexample :
    setParameter 1 [1, 0] [1, 1] (create 0) = some (true, gainTwoFilter) ∧
    reset 1 gainTwoFilter = some { gainTwoFilter with m_previous_values := [1 / 2] } ∧
    (passMany 1 3 { gainTwoFilter with m_previous_values := [1 / 2] }).1 = [3 / 2, 2, 2] ∧
    (passFilter 1 { gainTwoFilter with m_previous_values := [1 / 2] }).1 ≠ 1 := by
  refine ⟨?_, ?_, ?_, ?_⟩ <;> with_unfolding_all decide

/-- C20, amended. For every successful configuration whose stored recurrence has unity DC
gain (`fb[0] * ΣB + Σ_{i≥1} fb[i] = 1` for the stored feedback coefficients `fb`, with
`ΣB ≠ 0`), every value `v` and every `N`: `reset(v)` succeeds and the `N` calls of
`passFilter(v)` that follow all return `v`. -/
theorem steady_state_fixed_point (dim : Int) (A B : List ℚ) (f f1 : Filter) (v : ℚ)
    (hconf : setParameter dim A B f = some (true, f1))
    (hsum : B.sum ≠ 0)
    (hgain : f1.m_fb_coefficients.headD 0 * B.sum + f1.m_fb_coefficients.tail.sum = 1) :
    ∃ f2, reset v f1 = some f2 ∧
      ∀ N, (passMany v N f2).1 = List.replicate N v ∧ (passMany v N f2).2 = f2 := by
  obtain ⟨hdim, hgood⟩ := setParameter_true hconf
  rw [setParameter_good dim A B f hdim hgood] at hconf
  have hf1 : f1 =
      { m_dimension := dim,
        m_fb_coefficients := (if (A.length : Int) = dim then [1] else []) ++ negateTail A,
        m_ff_coefficients := B,
        m_previous_values := List.replicate dim.toNat 0,
        m_initialized := true } := by
    cases hconf; rfl
  subst hf1
  obtain ⟨n, hn⟩ : ∃ n : Nat, dim = n := ⟨dim.toNat, (Int.toNat_of_nonneg hdim).symm⟩
  subst hn
  have hsizes : ((A.length : Int) = n ∨ (A.length : Int) = n + 1) ∧
      (B.length : Int) = n + 1 := by
    constructor
    · by_contra hc
      push_neg at hc
      exact hgood (Or.inl hc)
    · by_contra hc
      exact hgood (Or.inr hc)
  have hff : B.length = n + 1 := by omega
  have hfb : ((if (A.length : Int) = (n : Int) then [(1 : ℚ)] else []) ++
      negateTail A).length = n + 1 := by
    rw [List.length_append, negateTail_length]
    split
    · rename_i h
      simp only [List.length_singleton]
      omega
    · rename_i h
      simp only [List.length_nil]
      omega
  have hstep := passFilter_steady n _ B v hfb hff hsum hgain
  refine ⟨Filter.mk (n : Int)
      ((if (A.length : Int) = (n : Int) then [(1 : ℚ)] else []) ++ negateTail A) B
      (List.replicate n (v / B.sum)) true, ?_, fun N => ?_⟩
  · exact reset_eq v _ (Int.ofNat_nonneg n) hsum
  · rw [passMany_steady v _ hstep N]
    exact ⟨rfl, rfl⟩

/-- C20 amended, for the low-pass configuration `dim = 1`, `A = [1, -1/2]`,
`B = [1/4, 1/4]`, which has unity DC gain. -/
theorem steady_state_fixed_point_witness :
    setParameter 1 [1, -1 / 2] [1 / 4, 1 / 4] (create 0) = some (true, lowPassFilter) ∧
    ([1 / 4, 1 / 4] : List ℚ).sum ≠ 0 ∧
    lowPassFilter.m_fb_coefficients.headD 0 * ([1 / 4, 1 / 4] : List ℚ).sum +
      lowPassFilter.m_fb_coefficients.tail.sum = 1 ∧
    ∃ f2, reset 5 lowPassFilter = some f2 ∧
      ∀ N, (passMany 5 N f2).1 = List.replicate N 5 ∧ (passMany 5 N f2).2 = f2 :=
  have hconf : setParameter 1 [1, -1 / 2] [1 / 4, 1 / 4] (create 0) =
      some (true, lowPassFilter) := by with_unfolding_all decide
  have hsum : ([1 / 4, 1 / 4] : List ℚ).sum ≠ 0 := by with_unfolding_all decide
  have hgain : lowPassFilter.m_fb_coefficients.headD 0 * ([1 / 4, 1 / 4] : List ℚ).sum +
      lowPassFilter.m_fb_coefficients.tail.sum = 1 := by with_unfolding_all decide
  ⟨hconf, hsum, hgain,
    steady_state_fixed_point 1 [1, -1 / 2] [1 / 4, 1 / 4] (create 0) lowPassFilter 5
      hconf hsum hgain⟩

/-! ## Sizes after `setParameter` -/

theorem sizesOk_inBounds (f : Filter) (h : SizesOk f) : InBounds f := by
  intro hinit
  obtain ⟨h1, h2, h3⟩ := h hinit
  refine ⟨by omega, by omega, fun i hi => ⟨by omega, by omega, by omega⟩⟩

theorem setParameter_sizesOk {dim : Int} {A B : List ℚ} {f f1 : Filter}
    (h : setParameter dim A B f = some (true, f1)) : f1.m_initialized = true ∧ SizesOk f1 := by
  obtain ⟨hdim, hgood⟩ := setParameter_true h
  rw [setParameter_good dim A B f hdim hgood] at h
  have hf1 : f1 =
      { m_dimension := dim,
        m_fb_coefficients := (if (A.length : Int) = dim then [1] else []) ++ negateTail A,
        m_ff_coefficients := B,
        m_previous_values := List.replicate dim.toNat 0,
        m_initialized := true } := by
    cases h; rfl
  subst hf1
  refine ⟨rfl, fun _ => ⟨?_, ?_, ?_⟩⟩
  · dsimp only
    rw [List.length_append, negateTail_length]
    split
    · simp only [List.length_singleton]
      omega
    · simp only [List.length_nil]
      omega
  · dsimp only
    omega
  · dsimp only
    rw [List.length_replicate]
    omega

/-- C23 does not hold on the code.  A call `setParameter(dim, A, B)` that finds the sizes
wrong on an initialized filter whose sizes fit returns `false` and leaves the coefficient
lists, the history and `m_initialized` as they were, but it has already stored `dim` in
`m_dimension` (line 34): the filter stays initialized, its sizes no longer fit as soon as
`dim` differs from the old dimension, and for a larger `dim` the loops of `passFilter` read
outside the coefficient lists and the history. -/
theorem failed_setParameter_changes_dimension (dim : Int) (A B : List ℚ) (f : Filter)
    (hinit : f.m_initialized = true) (hok : SizesOk f)
    (hbad : ((A.length : Int) ≠ dim ∧ (A.length : Int) ≠ dim + 1) ∨
      (B.length : Int) ≠ dim + 1) :
    setParameter dim A B f = some (false, { f with m_dimension := dim }) ∧
    (dim ≠ f.m_dimension → ¬ SizesOk { f with m_dimension := dim }) ∧
    (f.m_dimension < dim → ¬ InBounds { f with m_dimension := dim }) := by
  obtain ⟨h1, h2, h3⟩ := hok hinit
  refine ⟨setParameter_bad dim A B f hbad, ?_, ?_⟩
  · intro hne hs
    have h := (hs hinit).2.2
    dsimp only at h
    omega
  · intro hlt hb
    obtain ⟨_, _, hall⟩ := hb hinit
    have h := (hall f.m_dimension.toNat (by dsimp only; omega)).2.2
    dsimp only at h
    omega

/-- C23 on the code: the filter `lowPassFilter` is what `setParameter(1, [1, -1/2],
[1/4, 1/4])` leaves; the call `setParameter(2, [], [])` on it fails and leaves an
initialized filter of dimension 2 with two coefficients per list and one history cell. -/
theorem failed_setParameter_changes_dimension_witness :
    setParameter 1 [1, -1 / 2] [1 / 4, 1 / 4] (create 0) = some (true, lowPassFilter) ∧
    SizesOk lowPassFilter ∧
    setParameter 2 [] [] lowPassFilter =
      some (false, { lowPassFilter with m_dimension := 2 }) ∧
    ¬ SizesOk { lowPassFilter with m_dimension := 2 } ∧
    ¬ InBounds { lowPassFilter with m_dimension := 2 } :=
  have hok : SizesOk lowPassFilter := fun _ => ⟨rfl, rfl, rfl⟩
  have h := failed_setParameter_changes_dimension 2 [] [] lowPassFilter rfl hok
    (Or.inr (by decide))
  ⟨by with_unfolding_all decide, hok, h.1, h.2.1 (by decide), h.2.2 (by decide)⟩

/-! ## The Butterworth configuration -/

theorem butterworth_denom_pos {K : Type} [LinearOrderedField K] (M : MathLib K)
    (hs : (M.sqrt 2) ^ 2 < 4) (fc : K) :
    0 < 1 + (2 * M.sqrt 2 * M.M_PI * fc) + 4 * M.M_PI * M.M_PI * fc * fc := by
  nlinarith [sq_nonneg (2 * M.M_PI * fc + M.sqrt 2 / 2), sq_nonneg (M.M_PI * fc)]

/-- The identity behind the unity DC gain, on the numbers of lines 72-78. -/
theorem butterworth_sum {K : Type} [Field K] (p s fc d : K)
    (hd : d = 1 + (2 * s * p * fc) + 4 * p * p * fc * fc) (hne : d ≠ 0) :
    (4 * p * p * fc * fc) / d + (8 * p * p * fc * fc) / d + (4 * p * p * fc * fc) / d =
      1 + (8 * p * p * fc * fc - 2) / d + (1 - (2 * s * p * fc) + 4 * p * p * fc * fc) / d := by
  field_simp
  rw [hd]
  ring

theorem biquadButterworthCoeffs_unity {K : Type} [LinearOrderedField K] (M : MathLib K)
    (hs : (M.sqrt 2) ^ 2 < 4) (_fc_in _dt : K) :
    UnityGainBiquad (biquadButterworthCoeffs M _fc_in _dt).1
      (biquadButterworthCoeffs M _fc_in _dt).2 := by
  refine ⟨rfl, rfl, rfl, ?_, rfl, ?_⟩
  · exact butterworth_sum M.M_PI (M.sqrt 2) _ _ rfl (butterworth_denom_pos M hs _).ne.symm
  · simp only [biquadButterworthCoeffs, List.getD_cons_zero, List.getD_cons_succ]
    ring

/-- With `M_PI` and the value of `tan` different from 0 the feed-forward coefficients do
not sum to 0. -/
theorem biquadButterworthCoeffs_sum_ne_zero {K : Type} [LinearOrderedField K] (M : MathLib K)
    (hs : (M.sqrt 2) ^ 2 < 4) (_fc_in _dt : K) (hpi : M.M_PI ≠ 0)
    (htan : M.tan (_fc_in * M.M_PI * _dt) ≠ 0) :
    (biquadButterworthCoeffs M _fc_in _dt).2.sum ≠ 0 := by
  have hd := (butterworth_denom_pos M hs (M.tan (_fc_in * M.M_PI * _dt) / (2 * M.M_PI))).ne.symm
  have hfc : M.tan (_fc_in * M.M_PI * _dt) / (2 * M.M_PI) ≠ 0 :=
    div_ne_zero htan (mul_ne_zero two_ne_zero hpi)
  simp only [biquadButterworthCoeffs, List.sum_cons, List.sum_nil, add_zero]
  rw [← add_div, ← add_div]
  apply div_ne_zero _ hd
  intro h
  exact (mul_ne_zero (by norm_num) (pow_ne_zero 2 (mul_ne_zero hpi hfc)) :
    (16 : K) * (M.M_PI * (M.tan (_fc_in * M.M_PI * _dt) / (2 * M.M_PI))) ^ 2 ≠ 0)
    (by linear_combination h)

/-- After `reset(v)` on an initialized filter with unity DC gain, every call of
`passFilter(v)` returns `v` and leaves the filter as it is. -/
theorem steady_after_reset (n : Nat) (fb ff h0 : List ℚ) (v : ℚ)
    (hfb : fb.length = n + 1) (hff : ff.length = n + 1) (hsum : ff.sum ≠ 0)
    (hgain : fb.headD 0 * ff.sum + fb.tail.sum = 1) :
    ∃ f2, reset v (Filter.mk (n : Int) fb ff h0 true) = some f2 ∧
      ∀ N, (passMany v N f2).1 = List.replicate N v ∧ (passMany v N f2).2 = f2 := by
  have hstep := passFilter_steady n fb ff v hfb hff hsum hgain
  refine ⟨Filter.mk (n : Int) fb ff (List.replicate n (v / ff.sum)) true, ?_, fun N => ?_⟩
  · exact reset_eq v _ (Int.ofNat_nonneg n) hsum
  · rw [passMany_steady v _ hstep N]
    exact ⟨rfl, rfl⟩

theorem setParameterAsBiquadButterworth_eq (M : MathLib ℚ) (_fc_in _dt : ℚ) (f : Filter) :
    setParameterAsBiquadButterworth M _fc_in _dt f =
      some (true, Filter.mk 2 (negateTail (biquadButterworthCoeffs M _fc_in _dt).1)
        (biquadButterworthCoeffs M _fc_in _dt).2 [0, 0] true) := by
  unfold setParameterAsBiquadButterworth
  dsimp only
  rw [setParameter_good 2 _ _ f (by decide) (by
    have h1 : (biquadButterworthCoeffs M _fc_in _dt).1.length = 3 := rfl
    have h2 : (biquadButterworthCoeffs M _fc_in _dt).2.length = 3 := rfl
    rw [h1, h2]; decide)]
  have h1 : (biquadButterworthCoeffs M _fc_in _dt).1.length = 3 := rfl
  rw [h1]
  rfl

/-- A biquad whose feed-forward coefficients are all 0 returns 0 whatever it is fed. -/
theorem passFilter_ff_zero (x : ℚ) (f : Filter) (hi : f.m_initialized = true)
    (hd : f.m_dimension = 2) (hff : f.m_ff_coefficients = [0, 0, 0]) :
    (passFilter x f).1 = 0 ∧ (passFilter x f).2.m_initialized = true ∧
    (passFilter x f).2.m_dimension = 2 ∧ (passFilter x f).2.m_ff_coefficients = [0, 0, 0] := by
  unfold passFilter
  rw [if_neg (by rw [hi]; decide)]
  dsimp only
  refine ⟨?_, hi, hd, hff⟩
  rw [hd, hff]
  simp [forLoop, List.range_succ]

theorem passMany_ff_zero (x : ℚ) (N : Nat) :
    ∀ f : Filter, f.m_initialized = true → f.m_dimension = 2 →
      f.m_ff_coefficients = [0, 0, 0] → (passMany x N f).1 = List.replicate N 0 := by
  induction N with
  | zero => intro f _ _ _; rfl
  | succ N ih =>
    intro f hi hd hff
    obtain ⟨h0, h1, h2, h3⟩ := passFilter_ff_zero x f hi hd hff
    unfold passMany
    dsimp only
    rw [h0, ih _ h1 h2 h3]
    rfl

/-- C24, as stated, fails for the cutoff frequency 0: `tan` is 0 there, so the
coefficients handed to `setParameter` are `A = [1, -2, 1]` and `B = [0, 0, 0]` (the identity
of the sums holds as `0 = 0`), the configuration succeeds, and the filter returns 0 on
every call for the constant input 1: its output never equals the input. -/
theorem butterworth_cutoff_zero_counterexample :
    biquadButterworthCoeffs mathLib 0 (1 / 500) = ([1, -2, 1], [0, 0, 0]) ∧
    setParameterAsBiquadButterworth mathLib 0 (1 / 500) (create 0) =
      some (true, cutoffZeroFilter) ∧
    (passMany 1 4 cutoffZeroFilter).1 = [0, 0, 0, 0] ∧
    ∀ N, (passMany 1 N cutoffZeroFilter).1 = List.replicate N 0 :=
  ⟨by with_unfolding_all decide, by with_unfolding_all decide, by with_unfolding_all decide,
    fun N => passMany_ff_zero 1 N cutoffZeroFilter rfl rfl rfl⟩

/-- C24, amended.  In exact real arithmetic, for every cutoff frequency and tick period the
coefficient vectors computed by lines 70-78 have three entries each, with `A[0] = 1`,
`B[0] + B[1] + B[2] = 1 + A[1] + A[2]`, `B[0] = B[2]` and `B[1] = 2 * B[0]`.  In the
embedding of the filter (rational numbers, any library values with `sqrt(2)^2 < 4`) the
same relations hold, `setParameterAsBiquadButterworth` succeeds and leaves an initialized
filter of dimension 2 with these coefficients, and whenever `M_PI` and
`tan(fc_in * M_PI * dt)` are not 0, after `reset(v)` every call of `passFilter(v)` returns
`v`. -/
theorem butterworth_unity_dc_gain :
    (∀ _fc_in _dt : ℝ,
      UnityGainBiquad
        (biquadButterworthCoeffs (MathLib.mk Real.tan Real.sqrt Real.pi) _fc_in _dt).1
        (biquadButterworthCoeffs (MathLib.mk Real.tan Real.sqrt Real.pi) _fc_in _dt).2) ∧
    (∀ (M : MathLib ℚ) (_fc_in _dt : ℚ) (f : Filter), (M.sqrt 2) ^ 2 < 4 →
      UnityGainBiquad (biquadButterworthCoeffs M _fc_in _dt).1
        (biquadButterworthCoeffs M _fc_in _dt).2 ∧
      ∃ f1, setParameterAsBiquadButterworth M _fc_in _dt f = some (true, f1) ∧
        f1.m_initialized = true ∧ f1.m_dimension = 2 ∧
        f1.m_fb_coefficients = negateTail (biquadButterworthCoeffs M _fc_in _dt).1 ∧
        f1.m_ff_coefficients = (biquadButterworthCoeffs M _fc_in _dt).2 ∧
        (M.M_PI ≠ 0 → M.tan (_fc_in * M.M_PI * _dt) ≠ 0 →
          ∀ v, ∃ f2, reset v f1 = some f2 ∧
            ∀ N, (passMany v N f2).1 = List.replicate N v ∧ (passMany v N f2).2 = f2)) := by
  constructor
  · intro _fc_in _dt
    apply biquadButterworthCoeffs_unity
    show Real.sqrt 2 ^ 2 < 4
    rw [Real.sq_sqrt (by norm_num)]
    norm_num
  · intro M _fc_in _dt f hs
    have hu := biquadButterworthCoeffs_unity M hs _fc_in _dt
    refine ⟨hu, _, setParameterAsBiquadButterworth_eq M _fc_in _dt f, rfl, rfl, rfl, rfl, ?_⟩
    intro hpi htan v
    have hsum := biquadButterworthCoeffs_sum_ne_zero M hs _fc_in _dt hpi htan
    apply steady_after_reset 2 _ _ _ v
    · rw [negateTail_length]; rfl
    · rfl
    · exact hsum
    · obtain ⟨_, _, _, h4, _, _⟩ := hu
      have e1 : (negateTail (biquadButterworthCoeffs M _fc_in _dt).1).headD 0 = 1 := rfl
      have e2 : (negateTail (biquadButterworthCoeffs M _fc_in _dt).1).tail.sum =
          -((biquadButterworthCoeffs M _fc_in _dt).1.getD 1 0) +
            -((biquadButterworthCoeffs M _fc_in _dt).1.getD 2 0) := by
        simp [biquadButterworthCoeffs, negateTail]
      have e3 : (biquadButterworthCoeffs M _fc_in _dt).2.sum =
          (biquadButterworthCoeffs M _fc_in _dt).2.getD 0 0 +
            (biquadButterworthCoeffs M _fc_in _dt).2.getD 1 0 +
            (biquadButterworthCoeffs M _fc_in _dt).2.getD 2 0 := by
        simp [biquadButterworthCoeffs, add_assoc]
      rw [e1, e2, e3, h4]
      ring

/-- C24 amended, for the cutoff frequency 50 Hz at the tick period 1/500 s with the library
stand-ins `mathLib`, on a fresh filter. -/
theorem butterworth_unity_dc_gain_witness :
    (mathLib.sqrt 2) ^ 2 < 4 ∧ mathLib.M_PI ≠ 0 ∧
    mathLib.tan (50 * mathLib.M_PI * (1 / 500)) ≠ 0 ∧
    UnityGainBiquad (biquadButterworthCoeffs mathLib 50 (1 / 500)).1
      (biquadButterworthCoeffs mathLib 50 (1 / 500)).2 ∧
    ∃ f1, setParameterAsBiquadButterworth mathLib 50 (1 / 500) (create 0) = some (true, f1) ∧
      f1.m_dimension = 2 ∧
      ∃ f2, reset 5 f1 = some f2 ∧
        ∀ N, (passMany 5 N f2).1 = List.replicate N 5 ∧ (passMany 5 N f2).2 = f2 :=
  have hs : (mathLib.sqrt 2) ^ 2 < 4 := by with_unfolding_all decide
  have hpi : mathLib.M_PI ≠ 0 := by with_unfolding_all decide
  have htan : mathLib.tan (50 * mathLib.M_PI * (1 / 500)) ≠ 0 := by with_unfolding_all decide
  have h := butterworth_unity_dc_gain.2 mathLib 50 (1 / 500) (create 0) hs
  ⟨hs, hpi, htan, h.1,
    h.2.elim fun f1 hf1 => ⟨f1, hf1.1, hf1.2.2.1, hf1.2.2.2.2.2 hpi htan 5⟩⟩

end IIRFilter
